import Mathlib

/-!
Verification of the CChess engine core against its specification.

The definitions below are a shallow embedding of the C++ sources:
machine 64-bit words become `Nat` with explicit masking where overflow
matters, arrays become total functions, and the mutating member functions
of `Position`, `TranspositionTable`, `MoveOrder` and `Search` become pure
state-passing functions.  Each definition mirrors the control flow of the
function of the same name in the sources (files are cited at each
section).
-/

set_option maxHeartbeats 1600000

namespace CChess

/-! ## Squares, files, ranks (core/Types.h) -/

/- Squares are integers 0..63 with a1 = 0, h1 = 7, a8 = 56, h8 = 63;
they and the 64-bit bitboard words are both carried as plain `Nat`. -/

def SQUARE_NONE : Nat := 64

/-- File of a square: `sq & 7` in the source. -/
def getFile (sq : Nat) : Nat := sq &&& 7

/-- Rank of a square: `sq >> 3` in the source. -/
def getRank (sq : Nat) : Nat := sq >>> 3

/-- `makeSquare f r = (r << 3) | f` in the source. -/
def makeSquare (f r : Nat) : Nat := (r <<< 3) ||| f

def squareIsValid (sq : Nat) : Bool := sq ≤ 63

theorem getFile_eq_mod (sq : Nat) : getFile sq = sq % 8 := by
  exact Nat.and_pow_two_sub_one_eq_mod sq 3

theorem getRank_eq_div (sq : Nat) : getRank sq = sq / 8 := by
  simp [getRank, Nat.shiftRight_eq_div_pow]

theorem makeSquare_eq (f r : Nat) (h : f < 8) : makeSquare f r = r * 8 + f := by
  have h2 : f < 2 ^ 3 := h
  have hor := (Nat.mul_add_lt_is_or h2 r).symm
  simp only [makeSquare, Nat.shiftLeft_eq]
  rw [Nat.mul_comm r (2 ^ 3)]
  rw [hor]

/-! ## Colors, piece types, pieces (core/Types.h, core/Piece.h) -/

inductive Color
  | White
  | Black
  | None
deriving DecidableEq, Repr

/-- The source computes the other side as `Color(uint8(c) ^ 1)`; the toggle is
only ever applied to White or Black. -/
def Color.other : Color → Color
  | .White => .Black
  | .Black => .White
  | .None => .None

inductive PieceType
  | Pawn
  | Knight
  | Bishop
  | Rook
  | Queen
  | King
  | None
deriving DecidableEq, Repr

structure Piece where
  type : PieceType
  color : Color
deriving DecidableEq, Repr

/-- The default-constructed empty piece `Piece()`. -/
def Piece.empty : Piece := ⟨.None, .None⟩

def Piece.isEmpty (p : Piece) : Bool := p.type = PieceType.None

/-! ## Castling rights constants (core/Types.h) -/

def NO_CASTLING : Nat := 0
def WHITE_KINGSIDE : Nat := 1
def WHITE_QUEENSIDE : Nat := 2
def BLACK_KINGSIDE : Nat := 4
def BLACK_QUEENSIDE : Nat := 8
def WHITE_CASTLING : Nat := WHITE_KINGSIDE ||| WHITE_QUEENSIDE
def BLACK_CASTLING : Nat := BLACK_KINGSIDE ||| BLACK_QUEENSIDE

/-- `rights & ~mask` on the 4-bit castling field (`operator~` masks with 15). -/
def removeRights (cr mask : Nat) : Nat := cr &&& (15 ^^^ mask)

/-! ## File and rank constants -/

def FILE_A : Nat := 0
def FILE_B : Nat := 1
def FILE_C : Nat := 2
def FILE_D : Nat := 3
def FILE_E : Nat := 4
def FILE_F : Nat := 5
def FILE_G : Nat := 6
def FILE_H : Nat := 7
def RANK_1 : Nat := 0
def RANK_2 : Nat := 1
def RANK_3 : Nat := 2
def RANK_6 : Nat := 5
def RANK_7 : Nat := 6
def RANK_8 : Nat := 7

/-! ## Bitboards (core/Bitboard.h): unsigned 64-bit words as `Nat` with
explicit reduction mod 2^64 where the source wraps. -/

def BB_EMPTY : Nat := 0

/-- All 64 bits set (`~0ULL`). -/
def BB_ALL : Nat := 2 ^ 64 - 1

/-- Reduction mod 2^64, applied where a C++ shift would discard high bits. -/
def mask64 (b : Nat) : Nat := b % 2 ^ 64

/-- Complement within 64 bits (`~b` on uint64). -/
def bbNot (b : Nat) : Nat := b ^^^ BB_ALL

def FILE_A_BB : Nat := 0x0101010101010101
def FILE_BBarr (f : Nat) : Nat := mask64 (FILE_A_BB <<< f)
def RANK_1_BB : Nat := 0xFF
def RANK_BBarr (r : Nat) : Nat := mask64 (RANK_1_BB <<< (8 * r))

def squareBB (sq : Nat) : Nat := 1 <<< sq

def testBit (b : Nat) (sq : Nat) : Bool := b &&& squareBB sq ≠ 0

/-- Population count of a 64-bit word. -/
def popCount (b : Nat) : Nat :=
  ((List.range 64).filter (fun i => Nat.testBit b i)).length

def shiftNorth (b : Nat) : Nat := mask64 (b <<< 8)
def shiftSouth (b : Nat) : Nat := b >>> 8
def shiftNorthEast (b : Nat) : Nat := mask64 ((b &&& bbNot (FILE_BBarr 7)) <<< 9)
def shiftNorthWest (b : Nat) : Nat := mask64 ((b &&& bbNot (FILE_BBarr 0)) <<< 7)
def shiftSouthEast (b : Nat) : Nat := (b &&& bbNot (FILE_BBarr 7)) >>> 7
def shiftSouthWest (b : Nat) : Nat := (b &&& bbNot (FILE_BBarr 0)) >>> 9

/-- The ascending list of set-bit indices of a 64-bit word.  The sources
serialize bitboards with `while (bb) popLsb(bb)`, which visits squares in
exactly this (least-significant-first) order. -/
def squaresOf (b : Nat) : List Nat :=
  (List.range 64).filter (fun sq => testBit b sq)

/-! ## Tapered scores (ai/PST.h is not among the sources; modelled from the
spec) -/

/-- Modelled from the spec: `psqt` is a "tapered middle/endgame score pair
accumulator"; every eval term produces an `(mg, eg)` pair written `S(mg, eg)`
in Eval.cpp, added and subtracted componentwise. -/
structure Score where
  mg : Int
  eg : Int
deriving DecidableEq, Repr

def Score.zero : Score := ⟨0, 0⟩

instance : Add Score := ⟨fun a b => ⟨a.mg + b.mg, a.eg + b.eg⟩⟩
instance : Sub Score := ⟨fun a b => ⟨a.mg - b.mg, a.eg - b.eg⟩⟩
instance : Neg Score := ⟨fun a => ⟨-a.mg, -a.eg⟩⟩
instance : HMul Int Score Score := ⟨fun n s => ⟨n * s.mg, n * s.eg⟩⟩

/-- `S(mg, eg)` of Eval.cpp. -/
def S (mg eg : Int) : Score := ⟨mg, eg⟩

/-! ## Moves (core/Move.h) -/

inductive MoveType
  | Normal
  | Capture
  | EnPassant
  | Castling
  | Promotion
  | PromotionCapture
deriving DecidableEq, Repr

structure Move where
  fromSq : Nat
  toSq : Nat
  type : MoveType
  promotion : PieceType
deriving DecidableEq, Repr

/-- The default-constructed null move `Move()`. -/
def Move.null : Move := ⟨SQUARE_NONE, SQUARE_NONE, .Normal, .None⟩

def Move.mk2 (fromSq toSq : Nat) (ty : MoveType) : Move := ⟨fromSq, toSq, ty, .None⟩

def Move.makePromotion (fromSq toSq : Nat) (promo : PieceType) : Move :=
  ⟨fromSq, toSq, .Promotion, promo⟩

def Move.makePromotionCapture (fromSq toSq : Nat) (promo : PieceType) : Move :=
  ⟨fromSq, toSq, .PromotionCapture, promo⟩

def Move.makeCastling (fromSq toSq : Nat) : Move := ⟨fromSq, toSq, .Castling, .None⟩

def Move.makeEnPassant (fromSq toSq : Nat) : Move := ⟨fromSq, toSq, .EnPassant, .None⟩

def Move.isCapture (m : Move) : Bool :=
  m.type = MoveType.Capture || m.type = MoveType.PromotionCapture ||
    m.type = MoveType.EnPassant

def Move.isPromotion (m : Move) : Bool :=
  m.type = MoveType.Promotion || m.type = MoveType.PromotionCapture

def Move.isCastling (m : Move) : Bool := m.type = MoveType.Castling

def Move.isEnPassant (m : Move) : Bool := m.type = MoveType.EnPassant

def Move.isNull (m : Move) : Bool := m.fromSq = SQUARE_NONE || m.toSq = SQUARE_NONE

/-! ## Zobrist keys and piece-square values as parameters.

The Zobrist tables (core/Zobrist.h) are process-global constants generated
once from a fixed seed; the hash updates in Position.cpp only XOR them in
and out, so all theorems below hold for an arbitrary key table.  The
piece-square value function lives in ai/PST.h, which is not among the
sources; it is modelled from the spec as an arbitrary color-oriented
tapered value per (piece type, color, square).  Both are bundled as an
explicit parameter. -/

structure Tables where
  pieceKeys : Color → PieceType → Nat → Nat
  sideKey : Nat
  castlingKeys : Nat → Nat
  enPassantKeys : Nat → Nat
  pst : PieceType → Color → Nat → Score

/-- A concrete trivial instantiation, used to evaluate the model on concrete
inputs (the claims settled below do not depend on the key or PST values). -/
def Tables.trivialT : Tables :=
  ⟨fun _ _ _ => 0, 0, fun _ => 0, fun _ => 0, fun _ _ _ => Score.zero⟩

/-! ## Position (core/Position.h) -/

structure UndoInfo where
  capturedPiece : Piece
  castlingRights : Nat
  enPassantSquare : Nat
  halfmoveClock : Int
  hash : Nat
deriving Repr

structure Position where
  board : Nat → Piece
  pieceBB : PieceType → Nat
  colorBB : Color → Nat
  occupied : Nat
  kingSquare : Color → Nat
  psqt : Score
  sideToMove : Color
  castlingRights : Nat
  enPassantSquare : Nat
  halfmoveClock : Int
  fullmoveNumber : Int
  hash : Nat

def Position.pieceAt (pos : Position) (sq : Nat) : Piece := pos.board sq

/-- `pieces(pt)` -/
def Position.piecesT (pos : Position) (pt : PieceType) : Nat := pos.pieceBB pt

/-- `pieces(c)` -/
def Position.piecesC (pos : Position) (c : Color) : Nat := pos.colorBB c

/-- `pieces(pt, c)` -/
def Position.piecesTC (pos : Position) (pt : PieceType) (c : Color) : Nat :=
  pos.pieceBB pt &&& pos.colorBB c

/-! Primitive board/bitboard updates (private helpers in Position.h).
They XOR single-square or from-to masks into the redundant bitboards,
update the mailbox array in the same order as the source statements, and
adjust the `psqt` accumulator. -/

def Position.movePieceBB (T : Tables) (pos : Position) (fromSq toSq : Nat)
    (pt : PieceType) (c : Color) : Position :=
  let fromTo : Nat := squareBB fromSq ||| squareBB toSq
  { pos with
    pieceBB := fun p => if p = pt then pos.pieceBB p ^^^ fromTo else pos.pieceBB p
    colorBB := fun cc => if cc = c then pos.colorBB cc ^^^ fromTo else pos.colorBB cc
    board := fun s =>
      if s = fromSq then Piece.empty
      else if s = toSq then pos.board fromSq
      else pos.board s
    psqt := pos.psqt - T.pst pt c fromSq + T.pst pt c toSq }

def Position.removePieceBB (T : Tables) (pos : Position) (sq : Nat)
    (pt : PieceType) (c : Color) : Position :=
  { pos with
    pieceBB := fun p => if p = pt then pos.pieceBB p ^^^ squareBB sq else pos.pieceBB p
    colorBB := fun cc => if cc = c then pos.colorBB cc ^^^ squareBB sq else pos.colorBB cc
    board := fun s => if s = sq then Piece.empty else pos.board s
    psqt := pos.psqt - T.pst pt c sq }

def Position.putPieceBB (T : Tables) (pos : Position) (sq : Nat)
    (pt : PieceType) (c : Color) : Position :=
  { pos with
    pieceBB := fun p => if p = pt then pos.pieceBB p ^^^ squareBB sq else pos.pieceBB p
    colorBB := fun cc => if cc = c then pos.colorBB cc ^^^ squareBB sq else pos.colorBB cc
    board := fun s => if s = sq then Piece.mk pt c else pos.board s
    psqt := pos.psqt + T.pst pt c sq }

def Position.updateOccupied (pos : Position) : Position :=
  { pos with occupied := pos.colorBB Color.White ||| pos.colorBB Color.Black }

def Position.setHash (pos : Position) (h : Nat) : Position := { pos with hash := h }

/-- `updateCastlingRightsForMove` (Position.cpp); `us` is the side that made
the move (the routine runs before the side to move flips). -/
def updateCastlingRightsForMove (cr : Nat) (us : Color) (m : Move)
    (movedPiece : Piece) : Nat :=
  let cr1 :=
    if movedPiece.type = PieceType.King then
      removeRights cr (if us = Color.White then WHITE_CASTLING else BLACK_CASTLING)
    else cr
  let cr2 :=
    if movedPiece.type = PieceType.Rook then
      if us = Color.White then
        if m.fromSq = makeSquare FILE_A RANK_1 then removeRights cr1 WHITE_QUEENSIDE
        else if m.fromSq = makeSquare FILE_H RANK_1 then removeRights cr1 WHITE_KINGSIDE
        else cr1
      else
        if m.fromSq = makeSquare FILE_A RANK_8 then removeRights cr1 BLACK_QUEENSIDE
        else if m.fromSq = makeSquare FILE_H RANK_8 then removeRights cr1 BLACK_KINGSIDE
        else cr1
    else cr1
  if m.isCapture then
    if us.other = Color.White then
      if m.toSq = makeSquare FILE_A RANK_1 then removeRights cr2 WHITE_QUEENSIDE
      else if m.toSq = makeSquare FILE_H RANK_1 then removeRights cr2 WHITE_KINGSIDE
      else cr2
    else
      if m.toSq = makeSquare FILE_A RANK_8 then removeRights cr2 BLACK_QUEENSIDE
      else if m.toSq = makeSquare FILE_H RANK_8 then removeRights cr2 BLACK_KINGSIDE
      else cr2
  else cr2

/-- `Position::makeMove` (Position.cpp lines 96-208), as a pure function
returning the updated position and the undo record.  The `static_cast<Rank>`
of a rank plus or minus one in the source is an unsigned 8-bit cast, written
here as addition of 1 or 255 modulo 256. -/
def Position.makeMove (T : Tables) (pos : Position) (m : Move) : Position × UndoInfo :=
  let fromSq := m.fromSq
  let toSq := m.toSq
  let us := pos.sideToMove
  let them := us.other
  let movedPiece := pos.board fromSq
  let pt := movedPiece.type
  -- XOR out old castling and en passant keys
  let h0 := pos.hash ^^^ T.castlingKeys pos.castlingRights
  let h1 :=
    if pos.enPassantSquare ≠ SQUARE_NONE then
      h0 ^^^ T.enPassantKeys (getFile pos.enPassantSquare)
    else h0
  let pos0 := pos.setHash h1
  -- dispatch on the move kind; each branch yields the position after the
  -- piece movement plus the captured piece recorded in the undo info
  let step : Position × Piece :=
    if m.isCastling then
      let p1 := pos0.movePieceBB T fromSq toSq PieceType.King us
      let p1 := { p1 with kingSquare := fun c => if c = us then toSq else p1.kingSquare c }
      let p1 := p1.setHash
        (p1.hash ^^^ T.pieceKeys us PieceType.King fromSq ^^^ T.pieceKeys us PieceType.King toSq)
      let rank := getRank fromSq
      let rookFrom := if getFile toSq = FILE_G then makeSquare FILE_H rank
                      else makeSquare FILE_A rank
      let rookTo := if getFile toSq = FILE_G then makeSquare FILE_F rank
                    else makeSquare FILE_D rank
      let p2 := p1.movePieceBB T rookFrom rookTo PieceType.Rook us
      let p2 := p2.setHash
        (p2.hash ^^^ T.pieceKeys us PieceType.Rook rookFrom ^^^ T.pieceKeys us PieceType.Rook rookTo)
      (p2, pos.board toSq)
    else if m.isEnPassant then
      let p1 := pos0.movePieceBB T fromSq toSq PieceType.Pawn us
      let p1 := p1.setHash
        (p1.hash ^^^ T.pieceKeys us PieceType.Pawn fromSq ^^^ T.pieceKeys us PieceType.Pawn toSq)
      let captureRank := (getRank toSq + (if us = Color.White then 255 else 1)) % 256
      let capturedSq := makeSquare (getFile toSq) captureRank
      let captured := p1.board capturedSq
      let p2 := p1.removePieceBB T capturedSq PieceType.Pawn them
      let p2 := p2.setHash (p2.hash ^^^ T.pieceKeys them PieceType.Pawn capturedSq)
      (p2, captured)
    else
      let captured := pos0.board toSq
      let p1 :=
        if m.isCapture then
          let q := pos0.removePieceBB T toSq captured.type them
          q.setHash (q.hash ^^^ T.pieceKeys them captured.type toSq)
        else pos0
      let p2 :=
        if m.isPromotion then
          let q := p1.removePieceBB T fromSq PieceType.Pawn us
          let q := q.putPieceBB T toSq m.promotion us
          q.setHash
            (q.hash ^^^ T.pieceKeys us PieceType.Pawn fromSq ^^^ T.pieceKeys us m.promotion toSq)
        else
          let q := p1.movePieceBB T fromSq toSq pt us
          let q :=
            if pt = PieceType.King then
              { q with kingSquare := fun c => if c = us then toSq else q.kingSquare c }
            else q
          q.setHash (q.hash ^^^ T.pieceKeys us pt fromSq ^^^ T.pieceKeys us pt toSq)
      (p2, captured)
  let pos2 := step.1
  let captured := step.2
  let pos3 := pos2.updateOccupied
  let pos3 := { pos3 with
    halfmoveClock :=
      if pt = PieceType.Pawn || m.isCapture then 0 else pos3.halfmoveClock + 1 }
  let pos3 := { pos3 with
    fullmoveNumber :=
      if us = Color.Black then pos3.fullmoveNumber + 1 else pos3.fullmoveNumber }
  let pos3 := { pos3 with
    castlingRights := updateCastlingRightsForMove pos3.castlingRights us m movedPiece }
  let newEp : Nat :=
    if pt = PieceType.Pawn then
      if ((getRank toSq : Int) - (getRank fromSq : Int)).natAbs = 2 then
        makeSquare (getFile fromSq)
          ((getRank fromSq + (if us = Color.White then 1 else 255)) % 256)
      else SQUARE_NONE
    else SQUARE_NONE
  let pos3 := { pos3 with enPassantSquare := newEp }
  let h2 := pos3.hash ^^^ T.castlingKeys pos3.castlingRights
  let h3 := if newEp ≠ SQUARE_NONE then h2 ^^^ T.enPassantKeys (getFile newEp) else h2
  let h4 := h3 ^^^ T.sideKey
  let pos4 := { pos3 with hash := h4, sideToMove := us.other }
  (pos4, ⟨captured, pos.castlingRights, pos.enPassantSquare, pos.halfmoveClock, pos.hash⟩)

/-- `Position::unmakeMove` (Position.cpp lines 210-265). -/
def Position.unmakeMove (T : Tables) (pos : Position) (m : Move) (undo : UndoInfo) :
    Position :=
  let pos0 := { pos with sideToMove := pos.sideToMove.other }
  let us := pos0.sideToMove
  let them := us.other
  let fromSq := m.fromSq
  let toSq := m.toSq
  let pos1 :=
    if m.isCastling then
      let p := pos0.movePieceBB T toSq fromSq PieceType.King us
      let p := { p with kingSquare := fun c => if c = us then fromSq else p.kingSquare c }
      let rank := getRank fromSq
      let rookFrom := if getFile toSq = FILE_G then makeSquare FILE_H rank
                      else makeSquare FILE_A rank
      let rookTo := if getFile toSq = FILE_G then makeSquare FILE_F rank
                    else makeSquare FILE_D rank
      p.movePieceBB T rookTo rookFrom PieceType.Rook us
    else if m.isEnPassant then
      let p := pos0.movePieceBB T toSq fromSq PieceType.Pawn us
      let captureRank := (getRank toSq + (if us = Color.White then 255 else 1)) % 256
      let capturedSq := makeSquare (getFile toSq) captureRank
      p.putPieceBB T capturedSq PieceType.Pawn them
    else
      let p :=
        if m.isPromotion then
          (pos0.removePieceBB T toSq m.promotion us).putPieceBB T fromSq PieceType.Pawn us
        else
          let pt := (pos0.board toSq).type
          let q := pos0.movePieceBB T toSq fromSq pt us
          if pt = PieceType.King then
            { q with kingSquare := fun c => if c = us then fromSq else q.kingSquare c }
          else q
      if undo.capturedPiece.type ≠ PieceType.None then
        p.putPieceBB T toSq undo.capturedPiece.type them
      else p
  let pos2 := pos1.updateOccupied
  let pos2 := { pos2 with
    castlingRights := undo.castlingRights
    enPassantSquare := undo.enPassantSquare
    halfmoveClock := undo.halfmoveClock
    hash := undo.hash }
  if pos2.sideToMove = Color.Black then
    { pos2 with fullmoveNumber := pos2.fullmoveNumber - 1 }
  else pos2

/-! ## Attack tables (core/movegen/AttackTables.cpp).

Leaper tables are computed from the offset lists exactly as in
`initAttackTables`.  The magic lookup tables are filled by `findMagic` with
`computeSlidingAttacks(sq, occ & mask)` for every subset of the relevant
mask, and a magic is accepted only when colliding indices carry equal
attack sets, so `rookAttacks`/`bishopAttacks` below return exactly the
table value of the source. -/

def leaperAttacks (offs : List (Int × Int)) (sq : Nat) : Nat :=
  offs.foldl (fun bb off =>
    let nf : Int := (getFile sq : Int) + off.1
    let nr : Int := (getRank sq : Int) + off.2
    if 0 ≤ nf ∧ nf ≤ 7 ∧ 0 ≤ nr ∧ nr ≤ 7 then
      bb ||| squareBB (makeSquare nf.toNat nr.toNat)
    else bb) BB_EMPTY

def KNIGHT_ATTACKS (sq : Nat) : Nat :=
  leaperAttacks [(2, 1), (2, -1), (-2, 1), (-2, -1), (1, 2), (1, -2), (-1, 2), (-1, -2)] sq

def KING_ATTACKS (sq : Nat) : Nat :=
  leaperAttacks [(1, 0), (-1, 0), (0, 1), (0, -1), (1, 1), (1, -1), (-1, 1), (-1, -1)] sq

/-- One ray of `computeSlidingAttacks`: step by (df, dr) until the edge of
the board or a blocker; the blocker square itself is included.  At most 7
steps fit on the board, so fuel 8 never runs out. -/
def slideRay (occ : Nat) (df dr : Int) : Nat → Int → Int → Nat
  | 0, _, _ => BB_EMPTY
  | fuel + 1, f, r =>
    if 0 ≤ f ∧ f ≤ 7 ∧ 0 ≤ r ∧ r ≤ 7 then
      let s := makeSquare f.toNat r.toNat
      if testBit occ s then squareBB s
      else squareBB s ||| slideRay occ df dr fuel (f + df) (r + dr)
    else BB_EMPTY

def ROOK_DIRECTIONS : List (Int × Int) := [(1, 0), (-1, 0), (0, 1), (0, -1)]
def BISHOP_DIRECTIONS : List (Int × Int) := [(1, 1), (1, -1), (-1, 1), (-1, -1)]

def computeSlidingAttacks (sq : Nat) (occ : Nat) (diagonal : Bool) : Nat :=
  let dirs := if diagonal then BISHOP_DIRECTIONS else ROOK_DIRECTIONS
  dirs.foldl (fun bb d =>
    bb ||| slideRay occ d.1 d.2 8 ((getFile sq : Int) + d.1) ((getRank sq : Int) + d.2))
    BB_EMPTY

/-- `computeRookMask`: same file and rank, excluding the edges and the
square itself. -/
def computeRookMask (sq : Nat) : Nat :=
  let f := getFile sq
  let r := getRank sq
  (List.range 8).foldl (fun bb i =>
    let bb := if r < i ∧ i ≤ 6 then bb ||| squareBB (makeSquare f i) else bb
    let bb := if 1 ≤ i ∧ i < r then bb ||| squareBB (makeSquare f i) else bb
    let bb := if f < i ∧ i ≤ 6 then bb ||| squareBB (makeSquare i r) else bb
    if 1 ≤ i ∧ i < f then bb ||| squareBB (makeSquare i r) else bb) BB_EMPTY

/-- `computeBishopMask`: the four diagonals, stopping before the edges. -/
def computeBishopMask (sq : Nat) : Nat :=
  let f := (getFile sq : Int)
  let r := (getRank sq : Int)
  BISHOP_DIRECTIONS.foldl (fun bb d =>
    (List.range 8).foldl (fun bb i =>
      let nf := f + d.1 * ((i : Int) + 1)
      let nr := r + d.2 * ((i : Int) + 1)
      if 1 ≤ nf ∧ nf ≤ 6 ∧ 1 ≤ nr ∧ nr ≤ 6 then
        bb ||| squareBB (makeSquare nf.toNat nr.toNat)
      else bb) bb) BB_EMPTY

/-- `rookAttacks(sq, occ)`: the magic table entry for `occ & ROOK_MASKS[sq]`. -/
def rookAttacks (sq : Nat) (occupied : Nat) : Nat :=
  computeSlidingAttacks sq (occupied &&& computeRookMask sq) false

/-- `bishopAttacks(sq, occ)`: the magic table entry for `occ & BISHOP_MASKS[sq]`. -/
def bishopAttacks (sq : Nat) (occupied : Nat) : Nat :=
  computeSlidingAttacks sq (occupied &&& computeBishopMask sq) true

/-! ## Move generator (core/movegen/MoveGenerator.cpp) -/

/-- `MoveGenerator::generatePawnMoves`. -/
def generatePawnMoves (pos : Position) (fromSq : Nat) : List Move :=
  let us := (pos.pieceAt fromSq).color
  let fromFile := getFile fromSq
  let fromRank := getRank fromSq
  let direction : Int := if us = Color.White then 1 else -1
  let startRank := if us = Color.White then RANK_2 else RANK_7
  let promotionRank := if us = Color.White then RANK_8 else RANK_1
  let r : Int := (fromRank : Int) + direction
  let forward : List Move :=
    if 0 ≤ r ∧ r ≤ 7 then
      let occupied := pos.occupied
      let toSq := makeSquare fromFile r.toNat
      if testBit occupied toSq = false then
        if r.toNat = promotionRank then
          [Move.makePromotion fromSq toSq PieceType.Queen,
           Move.makePromotion fromSq toSq PieceType.Rook,
           Move.makePromotion fromSq toSq PieceType.Bishop,
           Move.makePromotion fromSq toSq PieceType.Knight]
        else
          let single := [Move.mk2 fromSq toSq MoveType.Normal]
          if fromRank = startRank then
            let r2 := r + direction
            let doubleTo := makeSquare fromFile r2.toNat
            if testBit occupied doubleTo = false then
              single ++ [Move.mk2 fromSq doubleTo MoveType.Normal]
            else single
          else single
      else []
    else []
  let captures : List Move :=
    let captureRank : Int := (fromRank : Int) + direction
    if 0 ≤ captureRank ∧ captureRank ≤ 7 then
      let enemies := pos.piecesC us.other
      ([-1, 1] : List Int).flatMap (fun df =>
        let f : Int := (fromFile : Int) + df
        if 0 ≤ f ∧ f ≤ 7 then
          let toSq := makeSquare f.toNat captureRank.toNat
          let caps :=
            if testBit enemies toSq then
              if captureRank.toNat = promotionRank then
                [Move.makePromotionCapture fromSq toSq PieceType.Queen,
                 Move.makePromotionCapture fromSq toSq PieceType.Rook,
                 Move.makePromotionCapture fromSq toSq PieceType.Bishop,
                 Move.makePromotionCapture fromSq toSq PieceType.Knight]
              else [Move.mk2 fromSq toSq MoveType.Capture]
            else []
          let eps :=
            if toSq = pos.enPassantSquare then [Move.makeEnPassant fromSq toSq] else []
          caps ++ eps
        else [])
    else []
  forward ++ captures

/-- `MoveGenerator::pieceAttacks`. -/
def pieceAttacks (pt : PieceType) (sq : Nat) (occupied : Nat) : Nat :=
  match pt with
  | .Knight => KNIGHT_ATTACKS sq
  | .Bishop => bishopAttacks sq occupied
  | .Rook => rookAttacks sq occupied
  | .Queen => rookAttacks sq occupied ||| bishopAttacks sq occupied
  | .King => KING_ATTACKS sq
  | _ => BB_EMPTY

/-- `MoveGenerator::serializeMoves`: captures first, then quiet moves, in
least-significant-bit order. -/
def serializeMoves (fromSq : Nat) (targets enemies : Nat) : List Move :=
  let caps := targets &&& enemies
  let quiets := targets ^^^ caps
  (squaresOf caps).map (fun s => Move.mk2 fromSq s MoveType.Capture) ++
    (squaresOf quiets).map (fun s => Move.mk2 fromSq s MoveType.Normal)

/-- `MoveGenerator::generatePieceMoves`. -/
def generatePieceMoves (pos : Position) (fromSq : Nat) : List Move :=
  let piece := pos.pieceAt fromSq
  let occupied := pos.occupied
  let targets := pieceAttacks piece.type fromSq occupied &&& bbNot (pos.piecesC piece.color)
  serializeMoves fromSq targets (pos.piecesC piece.color.other)

/-- `MoveGenerator::isSquareAttacked`. -/
def isSquareAttacked (pos : Position) (sq : Nat) (byColor : Color) : Bool :=
  if KNIGHT_ATTACKS sq &&& pos.piecesTC PieceType.Knight byColor ≠ 0 then true
  else if KING_ATTACKS sq &&& pos.piecesTC PieceType.King byColor ≠ 0 then true
  else
    let pawns := pos.piecesTC PieceType.Pawn byColor
    let pawnHit :=
      if pawns ≠ 0 then
        let sqBB := squareBB sq
        if byColor = Color.White then
          (shiftNorthEast pawns ||| shiftNorthWest pawns) &&& sqBB ≠ 0
        else
          (shiftSouthEast pawns ||| shiftSouthWest pawns) &&& sqBB ≠ 0
      else false
    if pawnHit then true
    else
      let occupied := pos.occupied
      let bishopsQueens :=
        pos.piecesTC PieceType.Bishop byColor ||| pos.piecesTC PieceType.Queen byColor
      if bishopAttacks sq occupied &&& bishopsQueens ≠ 0 then true
      else
        let rooksQueens :=
          pos.piecesTC PieceType.Rook byColor ||| pos.piecesTC PieceType.Queen byColor
        rookAttacks sq occupied &&& rooksQueens ≠ 0

/-- `MoveGenerator::isInCheck`. -/
def isInCheck (pos : Position) (side : Color) : Bool :=
  let kingSq := pos.kingSquare side
  kingSq ≠ SQUARE_NONE && isSquareAttacked pos kingSq side.other

/-- `MoveGenerator::generateCastlingMoves`. -/
def generateCastlingMoves (pos : Position) : List Move :=
  let us := pos.sideToMove
  let kingSquare := pos.kingSquare us
  if kingSquare = SQUARE_NONE then []
  else if isInCheck pos us then []
  else
    let occupied := pos.occupied
    let rank := if us = Color.White then RANK_1 else RANK_8
    let kingsideRight := if us = Color.White then WHITE_KINGSIDE else BLACK_KINGSIDE
    let short : List Move :=
      if pos.castlingRights &&& kingsideRight ≠ 0 then
        let f1 := makeSquare FILE_F rank
        let g1 := makeSquare FILE_G rank
        if testBit occupied f1 = false ∧ testBit occupied g1 = false then
          if isSquareAttacked pos f1 us.other = false ∧
              isSquareAttacked pos g1 us.other = false then
            [Move.makeCastling kingSquare g1]
          else []
        else []
      else []
    let queensideRight := if us = Color.White then WHITE_QUEENSIDE else BLACK_QUEENSIDE
    let long : List Move :=
      if pos.castlingRights &&& queensideRight ≠ 0 then
        let d1 := makeSquare FILE_D rank
        let c1 := makeSquare FILE_C rank
        let b1 := makeSquare FILE_B rank
        if testBit occupied d1 = false ∧ testBit occupied c1 = false ∧
            testBit occupied b1 = false then
          if isSquareAttacked pos d1 us.other = false ∧
              isSquareAttacked pos c1 us.other = false then
            [Move.makeCastling kingSquare c1]
          else []
        else []
      else []
    short ++ long

/-- `MoveGenerator::generatePseudoLegalMoves`. -/
def generatePseudoLegalMoves (pos : Position) : List Move :=
  let us := pos.sideToMove
  ((squaresOf (pos.piecesC us)).flatMap (fun sq =>
    if (pos.pieceAt sq).type = PieceType.Pawn then generatePawnMoves pos sq
    else generatePieceMoves pos sq)) ++
    generateCastlingMoves pos

/-- `MoveGenerator::moveLeavesKingInCheck`, which mutates the position it is
given and unmakes before returning: here it returns the verdict together
with the position left behind by the unmake. -/
def moveLeavesKingInCheck (T : Tables) (pos : Position) (m : Move) : Bool × Position :=
  let us := pos.sideToMove
  let mk := pos.makeMove T m
  let inChk := isInCheck mk.1 us
  (inChk, mk.1.unmakeMove T m mk.2)

/-- The `copy_if` filter of `generateLegalMoves`, threading the single
workspace position through the successive `moveLeavesKingInCheck` calls. -/
def legalFilterGo (T : Tables) : Position → List Move → List Move
  | _, [] => []
  | w, m :: ms =>
    let step := moveLeavesKingInCheck T w m
    if step.1 then legalFilterGo T step.2 ms
    else m :: legalFilterGo T step.2 ms

/-- `MoveGenerator::generateLegalMoves`. -/
def generateLegalMoves (T : Tables) (pos : Position) : List Move :=
  legalFilterGo T pos (generatePseudoLegalMoves pos)

/-- `MoveGenerator::isLegal`: pseudo-legal membership, then a check test on
a fresh workspace copy. -/
def isLegal (T : Tables) (pos : Position) (m : Move) : Bool :=
  if (generatePseudoLegalMoves pos).contains m then
    !(moveLeavesKingInCheck T pos m).1
  else false

/-- `Board::makeMove` (core/Board.cpp lines 63-69): reject illegal moves,
otherwise apply.  Returns the success flag and the resulting position. -/
def boardMakeMove (T : Tables) (pos : Position) (m : Move) : Bool × Position :=
  if isLegal T pos m = false then (false, pos)
  else (true, (pos.makeMove T m).1)

/-! ## Position construction (Position::clear, Position::setPiece,
Position::computeHash), the path used by the FEN parser to build positions. -/

/-- The cleared position (`Position::Position` followed by `clear()`). -/
def Position.emptyPos : Position where
  board := fun _ => Piece.empty
  pieceBB := fun _ => BB_EMPTY
  colorBB := fun _ => BB_EMPTY
  occupied := BB_EMPTY
  kingSquare := fun _ => SQUARE_NONE
  psqt := Score.zero
  sideToMove := Color.White
  castlingRights := NO_CASTLING
  enPassantSquare := SQUARE_NONE
  halfmoveClock := 0
  fullmoveNumber := 1
  hash := 0

/-- `Position::setPiece`. -/
def Position.setPiece (pos : Position) (sq : Nat) (piece : Piece) : Position :=
  let old := pos.board sq
  let pos1 :=
    if old.isEmpty = false then
      { pos with
        pieceBB := fun p =>
          if p = old.type then pos.pieceBB p &&& bbNot (squareBB sq) else pos.pieceBB p
        colorBB := fun c =>
          if c = old.color then pos.colorBB c &&& bbNot (squareBB sq) else pos.colorBB c }
    else pos
  let pos2 := { pos1 with board := fun s => if s = sq then piece else pos1.board s }
  let pos3 :=
    if piece.isEmpty = false then
      let p :=
        { pos2 with
          pieceBB := fun p =>
            if p = piece.type then pos2.pieceBB p ||| squareBB sq else pos2.pieceBB p
          colorBB := fun c =>
            if c = piece.color then pos2.colorBB c ||| squareBB sq else pos2.colorBB c }
      if piece.type = PieceType.King then
        { p with kingSquare := fun c => if c = piece.color then sq else p.kingSquare c }
      else p
    else pos2
  { pos3 with occupied := pos3.colorBB Color.White ||| pos3.colorBB Color.Black }

/-- `Position::computeHash`: recompute `hash` and `psqt` from scratch. -/
def Position.computeHash (T : Tables) (pos : Position) : Position :=
  let hp := (List.range 64).foldl
    (fun (hp : Nat × Score) sq =>
      let p := pos.board sq
      if p.isEmpty = false then
        (hp.1 ^^^ T.pieceKeys p.color p.type sq, hp.2 + T.pst p.type p.color sq)
      else hp)
    (0, Score.zero)
  let h := if pos.sideToMove = Color.Black then hp.1 ^^^ T.sideKey else hp.1
  let h := h ^^^ T.castlingKeys pos.castlingRights
  let h :=
    if pos.enPassantSquare ≠ SQUARE_NONE then
      h ^^^ T.enPassantKeys (getFile pos.enPassantSquare)
    else h
  { pos with hash := h, psqt := hp.2 }

/-- Build a position the way the FEN parser does: place the pieces with
`setPiece`, set the game-state fields, then `computeHash`. -/
def mkPosition (T : Tables) (pieces : List (Nat × Piece)) (stm : Color) (cr : Nat)
    (ep : Nat) (halfmove : Int) (fullmove : Int) : Position :=
  let p := pieces.foldl (fun pos sp => pos.setPiece sp.1 sp.2) Position.emptyPos
  let p := { p with
    sideToMove := stm
    castlingRights := cr
    enPassantSquare := ep
    halfmoveClock := halfmove
    fullmoveNumber := fullmove }
  p.computeHash T

/-! ## Transposition table (ai/TranspositionTable.h / .cpp).

A cluster is the list of its four 10-byte entries; the table maps cluster
indices to clusters.  The `int16_t` casts of score and depth wrap mod 2^16
into the signed range. -/

inductive TTBound
  | NONE
  | EXACT
  | LOWER
  | UPPER
deriving DecidableEq, Repr

def TTBound.toNat : TTBound → Nat
  | .NONE => 0
  | .EXACT => 1
  | .LOWER => 2
  | .UPPER => 3

def TTBound.fromNat (n : Nat) : TTBound :=
  if n = 1 then .EXACT else if n = 2 then .LOWER else if n = 3 then .UPPER else .NONE

/-- Two-complement wrap of an integer into the `int16_t` range. -/
def toInt16 (x : Int) : Int := (x + 2 ^ 15) % 2 ^ 16 - 2 ^ 15

structure TTEntry where
  hashVerify : Nat
  score : Int
  move16 : Nat
  depth : Int
  genBound : Nat
deriving DecidableEq, Repr

def TTEntry.bound (e : TTEntry) : TTBound := TTBound.fromNat (e.genBound &&& 3)

def TTEntry.generation (e : TTEntry) : Nat := e.genBound >>> 2

def TTEntry.isEmpty (e : TTEntry) : Bool := e.genBound = 0

/-- The enum values of `MoveType` (Move.h). -/
def MoveType.toNat : MoveType → Nat
  | .Normal => 0
  | .Capture => 1
  | .EnPassant => 2
  | .Castling => 3
  | .Promotion => 4
  | .PromotionCapture => 5

def MoveType.fromNat (n : Nat) : MoveType :=
  if n = 1 then .Capture else if n = 2 then .EnPassant else if n = 3 then .Castling
  else .Normal

/-- The 4-bit type/promotion field of the TT move encoding: move types 0-3
directly, 4-7 promotion with piece index Q/N/B/R, 8-11 promotion capture. -/
def typePromoOf (ty : MoveType) (pr : PieceType) : Nat :=
  if ty = MoveType.Promotion ∨ ty = MoveType.PromotionCapture then
    let base : Nat := if ty = MoveType.PromotionCapture then 8 else 4
    let promoIdx : Nat :=
      match pr with
      | .Knight => 1
      | .Bishop => 2
      | .Rook => 3
      | _ => 0
    base + promoIdx
  else ty.toNat

/-- `TTEntry::setMove`: encode a move into 16 bits
(from:6 | to:6 | typePromo:4); the final `uint16_t` cast masks to 16 bits. -/
def encodeMove16 (m : Move) : Nat :=
  if m.isNull then 0
  else ((m.fromSq <<< 10) ||| (m.toSq <<< 4) ||| typePromoOf m.type m.promotion) &&& 0xFFFF

/-- The `promoTable` of `TTEntry::bestMove`. -/
def promoTableFn (i : Nat) : PieceType :=
  if i = 0 then .Queen else if i = 1 then .Knight else if i = 2 then .Bishop else .Rook

/-- `TTEntry::bestMove`: decode `move16`. -/
def decodeMove16 (w : Nat) : Move :=
  if w = 0 then Move.null
  else
    let fromSq := (w >>> 10) &&& 0x3F
    let toSq := (w >>> 4) &&& 0x3F
    let typePromo := w &&& 0xF
    if typePromo ≥ 8 then ⟨fromSq, toSq, .PromotionCapture, promoTableFn (typePromo - 8)⟩
    else if typePromo ≥ 4 then ⟨fromSq, toSq, .Promotion, promoTableFn (typePromo - 4)⟩
    else ⟨fromSq, toSq, MoveType.fromNat typePromo, .None⟩

def emptyEntry : TTEntry := ⟨0, 0, 0, 0, 0⟩

def emptyCluster : List TTEntry := [emptyEntry, emptyEntry, emptyEntry, emptyEntry]

structure TranspositionTable where
  clusters : Nat → List TTEntry
  mask : Nat
  generation : Nat

def clusterIndexOf (tt : TranspositionTable) (hash : Nat) : Nat := hash &&& tt.mask

/-- `verifyKey`: the upper 16 bits of the 64-bit hash. -/
def verifyKey (hash : Nat) : Nat := (hash >>> 48) &&& 0xFFFF

/-- `TranspositionTable::probe` restricted to one cluster: the first
non-empty entry whose verification key matches. -/
def probeCluster (key16 : Nat) : List TTEntry → Option TTEntry
  | [] => none
  | e :: es =>
    if e.hashVerify = key16 ∧ e.isEmpty = false then some e else probeCluster key16 es

def TranspositionTable.probe (tt : TranspositionTable) (hash : Nat) : Option TTEntry :=
  probeCluster (verifyKey hash) (tt.clusters (clusterIndexOf tt hash))

/-- `(generation_ - e.generation()) & 0x3F` on `uint8_t` arithmetic. -/
def entryAge (generation : Nat) (e : TTEntry) : Nat :=
  ((generation + 256 - e.generation) % 256) &&& 0x3F

/-- The replacement scan of `TranspositionTable::store` (lines 32-63): one
pass over the cluster carrying the best candidate so far; `none` for the
running best plays the role of `replaceScore = INT_MAX`.  Returns `none`
when the store aborts, otherwise the index of the slot to write. -/
def chooseSlotGo (generation : Nat) (depth : Int) (bound : TTBound) (key16 : Nat) :
    List TTEntry → Nat → Option (Nat × Int) → Option Nat
  | [], _, best =>
    match best with
    | some b => some b.1
    | none => some 0
  | e :: es, i, best =>
    if e.isEmpty = false ∧ e.hashVerify = key16 then
      if depth < e.depth ∧ bound ≠ TTBound.EXACT then none
      else some i
    else if e.isEmpty then some i
    else
      let age : Int := entryAge generation e
      let scoreVal : Int := e.depth - age * 4
      let best2 :=
        match best with
        | none => some (i, scoreVal)
        | some b => if scoreVal < b.2 then some (i, scoreVal) else some b
      chooseSlotGo generation depth bound key16 es (i + 1) best2

def chooseSlot (generation : Nat) (depth : Int) (bound : TTBound) (key16 : Nat)
    (cluster : List TTEntry) : Option Nat :=
  chooseSlotGo generation depth bound key16 cluster 0 none

/-- The entry written by `store`. -/
def mkStoreEntry (generation key16 : Nat) (score depth : Int) (bound : TTBound)
    (bestMove : Move) : TTEntry :=
  { hashVerify := key16
    score := toInt16 score
    move16 := encodeMove16 bestMove
    depth := toInt16 depth
    genBound := (generation <<< 2) ||| bound.toNat }

def storeCluster (generation key16 : Nat) (score depth : Int) (bound : TTBound)
    (bestMove : Move) (cluster : List TTEntry) : List TTEntry :=
  match chooseSlot generation depth bound key16 cluster with
  | none => cluster
  | some i => cluster.set i (mkStoreEntry generation key16 score depth bound bestMove)

/-- `TranspositionTable::store`. -/
def TranspositionTable.store (tt : TranspositionTable) (hash : Nat) (score depth : Int)
    (bound : TTBound) (bestMove : Move) : TranspositionTable :=
  let key16 := verifyKey hash
  let idx := clusterIndexOf tt hash
  { tt with
    clusters := fun i =>
      if i = idx then storeCluster tt.generation key16 score depth bound bestMove (tt.clusters i)
      else tt.clusters i }

/-- `TranspositionTable::clear`. -/
def TranspositionTable.clear (tt : TranspositionTable) : TranspositionTable :=
  { tt with clusters := fun _ => emptyCluster, generation := 0 }

/-- `TranspositionTable::newSearch`: bump the 6-bit generation. -/
def TranspositionTable.newSearch (tt : TranspositionTable) : TranspositionTable :=
  { tt with generation := (tt.generation + 1) &&& 0x3F }

/-! ## Move ordering (ai/MoveOrder.cpp) -/

/-- `MVV_LVA_VALUE`, indexed by piece type (P, N, B, R, Q, K). -/
def MVV_LVA_VALUE : PieceType → Int
  | .Pawn => 100
  | .Knight => 300
  | .Bishop => 300
  | .Rook => 500
  | .Queen => 900
  | .King => 0
  | .None => 0

def KILLER1_SCORE : Int := 8000
def KILLER2_SCORE : Int := 7000

/-- `MoveOrder::score`. -/
def MoveOrder.score (m : Move) (pos : Position) : Int :=
  let s : Int :=
    if m.isCapture then
      if m.isEnPassant then MVV_LVA_VALUE PieceType.Pawn * 10
      else
        let victim := (pos.pieceAt m.toSq).type
        let attacker := (pos.pieceAt m.fromSq).type
        MVV_LVA_VALUE victim * 10 - MVV_LVA_VALUE attacker
    else 0
  if m.isPromotion then s + MVV_LVA_VALUE m.promotion * 10 else s

/-- One step of the insertion sort of MoveOrder.cpp: the new element moves
left past strictly smaller keys and stops at the first key at least as
large, keeping the sort stable.  In list form the element is inserted
before the first element with a strictly smaller key. -/
def insertDesc (key : α → Int) (x : α) : List α → List α
  | [] => [x]
  | y :: ys => if key y < key x then x :: y :: ys else y :: insertDesc key x ys

/-- The insertion sort over precomputed keys used by all `MoveOrder::sort`
overloads: processes the list left to right, inserting each element into
the sorted prefix. -/
def insertionSortDesc (key : α → Int) (l : List α) : List α :=
  l.foldl (fun acc x => insertDesc key x acc) []

/-- `matchesTTMove`. -/
def matchesTTMove (m ttMove : Move) : Bool := !ttMove.isNull && m = ttMove

/-- `MoveOrder::sort(moves, pos)`. -/
def MoveOrder.sortPlain (moves : List Move) (pos : Position) : List Move :=
  insertionSortDesc (fun m => MoveOrder.score m pos) moves

/-- `MoveOrder::sort(moves, pos, ttMove)`: swap the TT move to the front
and insertion-sort the remainder; when the TT move is absent, plain sort. -/
def MoveOrder.sortTT (moves : List Move) (pos : Position) (ttMove : Move) : List Move :=
  match moves.findIdx? (fun mm => matchesTTMove mm ttMove) with
  | none => MoveOrder.sortPlain moves pos
  | some i =>
    let m0 := moves.getD 0 Move.null
    let mi := moves.getD i Move.null
    let swapped := (moves.set 0 mi).set i m0
    match swapped with
    | [] => []
    | h :: t => h :: insertionSortDesc (fun m => MoveOrder.score m pos) t

/-- The score array of `MoveOrder::sort(moves, pos, ttMove, killers)`. -/
def killerMoveScore (m : Move) (pos : Position) (ttMove killer0 killer1 : Move) : Int :=
  if matchesTTMove m ttMove then 1000000
  else
    let s := MoveOrder.score m pos
    if !m.isCapture && !m.isPromotion then
      if !killer0.isNull && m = killer0 then KILLER1_SCORE
      else if !killer1.isNull && m = killer1 then KILLER2_SCORE
      else s
    else s

/-- `MoveOrder::sort(moves, pos, ttMove, killers)`. -/
def MoveOrder.sortKillers (moves : List Move) (pos : Position)
    (ttMove killer0 killer1 : Move) : List Move :=
  insertionSortDesc (fun m => killerMoveScore m pos ttMove killer0 killer1) moves

/-! ## King safety (ai/Eval.cpp lines 348-426) -/

def SHELTER_PAWN_BONUS : Score := S 15 0
def SHELTER_STORM_PENALTY : Score := S (-10) 0
def KING_SEMI_OPEN_FILE_PENALTY : Score := S (-20) 0
def KING_OPEN_FILE_PENALTY : Score := S (-10) 0

def KING_ATTACKER_WEIGHT : PieceType → Nat
  | .Pawn => 0
  | .Knight => 7
  | .Bishop => 5
  | .Rook => 4
  | .Queen => 4
  | _ => 0

def KING_DANGER_DIVIDER : Nat := 8

/-- The per-color per-piece attack map filled during the mobility pass and
read by `kingSafety` (struct `EvalState` of Eval.h); color index 0 is
White, 1 is Black. -/
structure EvalState where
  attackedBy : Nat → PieceType → Nat

/-- 3x3 king zone. -/
def kingZone (kingSq : Nat) : Nat := KING_ATTACKS kingSq ||| squareBB kingSq

/-- The two ranks immediately ahead of the king (`aheadRanks` of
`kingSafety`); the loops run over increasing rank indices. -/
def aheadRanksOf (ci : Nat) (kRank : Nat) : Nat :=
  if ci = 0 then
    (List.range 8).foldl
      (fun bb r => if kRank + 1 ≤ r ∧ r ≤ min 7 (kRank + 2) then bb ||| RANK_BBarr r else bb)
      BB_EMPTY
  else
    (List.range 8).foldl
      (fun bb r => if max 0 (kRank - 2) ≤ r ∧ r < kRank then bb ||| RANK_BBarr r else bb)
      BB_EMPTY

/-- The shelter/storm counting loop of `kingSafety`: per file of the king
file and its neighbours, bump the shelter counter when an own pawn stands
in the file inside the ahead region and the storm counter when an enemy
pawn does. -/
def shelterStormCounts (ownPawns enemyPawns : Nat) (kFile : Nat)
    (aheadRanks : Nat) : Nat × Nat :=
  let fileStart := max 0 (kFile - 1)
  let fileEnd := min 7 (kFile + 1)
  (List.range 8).foldl
    (fun acc f =>
      if fileStart ≤ f ∧ f ≤ fileEnd then
        let fileMask := FILE_BBarr f
        let acc1 :=
          if ownPawns &&& fileMask &&& aheadRanks ≠ 0 then (acc.1 + 1, acc.2) else acc
        if enemyPawns &&& fileMask &&& aheadRanks ≠ 0 then (acc1.1, acc1.2 + 1) else acc1
      else acc)
    (0, 0)

/-- The shelter/storm term of `kingSafety`
(`shelterBonus * SHELTER_PAWN_BONUS + stormPenalty * SHELTER_STORM_PENALTY`). -/
def termShelterOf (ownPawns enemyPawns : Nat) (kFile : Nat)
    (aheadRanks : Nat) : Score :=
  let sb := shelterStormCounts ownPawns enemyPawns kFile aheadRanks
  ((sb.1 : Int) * SHELTER_PAWN_BONUS) + ((sb.2 : Int) * SHELTER_STORM_PENALTY)

/-- The open/semi-open file term of `kingSafety`. -/
def termFilesOf (ownPawns enemyPawns : Nat) (kFile : Nat) : Score :=
  let fileStart := max 0 (kFile - 1)
  let fileEnd := min 7 (kFile + 1)
  (List.range 8).foldl
    (fun acc f =>
      if fileStart ≤ f ∧ f ≤ fileEnd then
        let fileMask := FILE_BBarr f
        if ownPawns &&& fileMask = 0 then
          acc + (if enemyPawns &&& fileMask ≠ 0 then KING_SEMI_OPEN_FILE_PENALTY
                 else KING_OPEN_FILE_PENALTY)
        else acc
      else acc)
    Score.zero

/-- One side of `eval::kingSafety`; `ci` is 0 for White, 1 for Black. -/
def kingSafetySide (pos : Position) (wp bp : Nat) (state : EvalState) (ci : Nat) :
    Score :=
  let us := if ci = 0 then Color.White else Color.Black
  let them := ci ^^^ 1
  let kSq := pos.kingSquare us
  let kFile := getFile kSq
  let kRank := getRank kSq
  let zone := kingZone kSq
  let ownPawns := if ci = 0 then wp else bp
  let enemyPawns := if ci = 0 then bp else wp
  let aheadRanks := aheadRanksOf ci kRank
  let termShelter := termShelterOf ownPawns enemyPawns kFile aheadRanks
  let termFiles := termFilesOf ownPawns enemyPawns kFile
  let danger : Nat :=
    KING_ATTACKER_WEIGHT PieceType.Knight * popCount (state.attackedBy them PieceType.Knight &&& zone) +
    KING_ATTACKER_WEIGHT PieceType.Bishop * popCount (state.attackedBy them PieceType.Bishop &&& zone) +
    KING_ATTACKER_WEIGHT PieceType.Rook * popCount (state.attackedBy them PieceType.Rook &&& zone) +
    KING_ATTACKER_WEIGHT PieceType.Queen * popCount (state.attackedBy them PieceType.Queen &&& zone)
  let dangerPenalty : Nat := danger * danger / KING_DANGER_DIVIDER
  let termDanger := S (-(dangerPenalty : Int)) 0
  termShelter + termFiles + termDanger

/-- `eval::kingSafety`: White total added, Black total subtracted. -/
def kingSafety (pos : Position) (wp bp : Nat) (state : EvalState) : Score :=
  kingSafetySide pos wp bp state 0 - kingSafetySide pos wp bp state 1

/-! ## Iterative deepening root loop (ai/Search.cpp lines 167-256).

The root loop is modelled over an abstract record of what the recursive
searches did: `score i` is the value returned by the negamax call(s) for
the i-th root move at the current depth, and `stopHit i` says whether the
stop flag became set during the search of that move (`stopped_` is
monotone: once set it never clears, and the loop breaks at its first
observation).  The transposition table, the info callback and the PV
extraction do not influence which move is returned and are omitted. -/

def SCORE_MATE : Int := 100000
def SCORE_INFINITY : Int := 200000

structure RootIterResult where
  depthBest : Move
  bestScore : Int
  stopped : Bool
deriving Repr, DecidableEq

/-- The per-depth root move loop: make, search, unmake, then
`if (stopped_) break;` and only afterwards the best-move update — so the
move during whose search the stop flag was raised never updates the best
move of the iteration. -/
def rootLoopGo (score : Nat → Int) (stopHit : Nat → Bool) :
    List Move → Nat → RootIterResult → RootIterResult
  | [], _, st => st
  | m :: ms, i, st =>
    if st.stopped then st
    else if stopHit i then { st with stopped := true }
    else
      let st2 :=
        if score i > st.bestScore then { st with bestScore := score i, depthBest := m }
        else st
      rootLoopGo score stopHit ms (i + 1) st2

def rootIter (score : Nat → Int) (stopHit : Nat → Bool) (moves : List Move) :
    RootIterResult :=
  rootLoopGo score stopHit moves 0 ⟨Move.null, -SCORE_INFINITY, false⟩

/-- The depth loop of `findBestMove`: on a stopped iteration the previous
best move is returned (`if (stopped_) break;` before `bestMove = depthBest`);
otherwise the iteration's best replaces it, with the early exits on an
empty move list and on a forced mate score.  The loop runs for depths
`d, d+1, ..., maxDepth`; the first argument is structural fuel covering the
remaining depths. -/
def idLoop (maxDepth : Nat) (movesAt : Nat → List Move) (scoreAt : Nat → Nat → Int)
    (stopHit : Nat → Nat → Bool) : Nat → Nat → Move → Move
  | 0, _, best => best
  | fuel + 1, d, best =>
    if d > maxDepth then best
    else if movesAt d = [] then best
    else
      let r := rootIter (scoreAt d) (stopHit d) (movesAt d)
      if r.stopped then best
      else if r.bestScore ≥ SCORE_MATE - maxDepth then r.depthBest
      else idLoop maxDepth movesAt scoreAt stopHit fuel (d + 1) r.depthBest

/-- `Search::findBestMove`, root-level control flow. -/
def findBestMove (maxDepth : Nat) (movesAt : Nat → List Move)
    (scoreAt : Nat → Nat → Int) (stopHit : Nat → Nat → Bool) : Move :=
  idLoop maxDepth movesAt scoreAt stopHit (maxDepth + 1) 1 Move.null

/-! # Claims -/

/-! ## C8: move-order score of en-passant captures -/

/-- Claim C8, as stated (corrected): the counterexample.  The code scores an
en-passant capture as `MVV_LVA_VALUE[Pawn] * 10 = 1000` and never subtracts
the attacker value, so the claimed value `100 * 10 - 100 = 900` is wrong. -/
theorem claim_C8_counterexample :
    ¬ (MoveOrder.score (Move.makeEnPassant 33 42) Position.emptyPos =
        MVV_LVA_VALUE PieceType.Pawn * 10 - MVV_LVA_VALUE PieceType.Pawn) := by
  decide

/-- Claim C8 (amended): for every position and every en-passant capture
move, `MoveOrder::score` returns `victimValue * 10` with the victim taken
to be a Pawn and no attacker deduction, i.e. 1000. -/
theorem claim_C8_amended (pos : Position) (m : Move)
    (h : m.type = MoveType.EnPassant) : MoveOrder.score m pos = 1000 := by
  simp [MoveOrder.score, Move.isCapture, Move.isEnPassant, Move.isPromotion, h,
    MVV_LVA_VALUE]

/-- Witness for the amended C8 at a concrete en-passant move. -/
theorem claim_C8_witness :
    (Move.makeEnPassant 33 42).type = MoveType.EnPassant ∧
      MoveOrder.score (Move.makeEnPassant 33 42) Position.emptyPos = 1000 :=
  ⟨rfl, claim_C8_amended Position.emptyPos (Move.makeEnPassant 33 42) rfl⟩

/-! ## C7: the shelter/storm term of king safety -/

/-- The shelter region as the claim describes it: the king file and its
neighbours, restricted to the two ranks immediately ahead of the king. -/
def claimShelterRegion (kFile : Nat) (aheadRanks : Nat) : Nat :=
  let fileStart := max 0 (kFile - 1)
  let fileEnd := min 7 (kFile + 1)
  ((List.range 8).foldl
    (fun bb f => if fileStart ≤ f ∧ f ≤ fileEnd then bb ||| FILE_BBarr f else bb)
    BB_EMPTY) &&& aheadRanks

/-- The claimed per-pawn value of the shelter/storm term: +15 middlegame
points for each own pawn in the region, -10 for each enemy pawn, counting
every pawn individually. -/
def claimShelterValue (ownPawns enemyPawns : Nat) (kFile : Nat)
    (aheadRanks : Nat) : Score :=
  S (15 * (popCount (ownPawns &&& claimShelterRegion kFile aheadRanks) : Int) -
     10 * (popCount (enemyPawns &&& claimShelterRegion kFile aheadRanks) : Int)) 0

/-- Claim C7, as stated (corrected): the counterexample.  White king on g1
with own pawns on g2 and g3: both pawns stand on the king file within two
ranks ahead, so the claim predicts +30 middlegame points, but the code
counts per file, not per pawn, and awards +15. -/
theorem claim_C7_counterexample :
    ¬ (termShelterOf (squareBB 14 ||| squareBB 22) BB_EMPTY (getFile 6)
        (aheadRanksOf 0 (getRank 6)) =
       claimShelterValue (squareBB 14 ||| squareBB 22) BB_EMPTY (getFile 6)
        (aheadRanksOf 0 (getRank 6))) := by
  decide
/-- Helper: the shelter/storm counting fold adds, to any starting
accumulator, one per file satisfying the per-file presence predicate. -/
theorem shelterStorm_foldl_aux (own enemy ahead : Nat) (fs fe : Nat) :
    ∀ (l : List Nat) (a b : Nat),
      (l.foldl (fun acc f =>
        if fs ≤ f ∧ f ≤ fe then
          let fileMask := FILE_BBarr f
          let acc1 :=
            if own &&& fileMask &&& ahead ≠ 0 then (acc.1 + 1, acc.2) else acc
          if enemy &&& fileMask &&& ahead ≠ 0 then (acc1.1, acc1.2 + 1) else acc1
        else acc) (a, b)) =
      (a + l.countP (fun f =>
          decide (fs ≤ f ∧ f ≤ fe ∧ own &&& FILE_BBarr f &&& ahead ≠ 0)),
       b + l.countP (fun f =>
          decide (fs ≤ f ∧ f ≤ fe ∧ enemy &&& FILE_BBarr f &&& ahead ≠ 0)))
  | [], a, b => by simp
  | f :: l, a, b => by
    simp only [List.foldl_cons, List.countP_cons]
    by_cases h1 : fs ≤ f ∧ f ≤ fe
    · by_cases h2 : own &&& FILE_BBarr f &&& ahead ≠ 0
      · by_cases h3 : enemy &&& FILE_BBarr f &&& ahead ≠ 0
        · simp only [if_pos h1, if_pos h2, if_pos h3,
            shelterStorm_foldl_aux own enemy ahead fs fe l]
          simp [h1, h2, h3]
          exact ⟨by omega, by omega⟩
        · simp only [if_pos h1, if_pos h2, if_neg h3,
            shelterStorm_foldl_aux own enemy ahead fs fe l]
          simp [h1, h2, h3]
          omega
      · by_cases h3 : enemy &&& FILE_BBarr f &&& ahead ≠ 0
        · simp only [if_pos h1, if_neg h2, if_pos h3,
            shelterStorm_foldl_aux own enemy ahead fs fe l]
          simp [h1, h2, h3]
          omega
        · simp only [if_pos h1, if_neg h2, if_neg h3,
            shelterStorm_foldl_aux own enemy ahead fs fe l]
          simp [h1, h2, h3]
    · simp only [if_neg h1, shelterStorm_foldl_aux own enemy ahead fs fe l]
      have hpo : ¬(fs ≤ f ∧ f ≤ fe ∧ own &&& FILE_BBarr f &&& ahead ≠ 0) :=
        fun hx => h1 ⟨hx.1, hx.2.1⟩
      have hpe : ¬(fs ≤ f ∧ f ≤ fe ∧ enemy &&& FILE_BBarr f &&& ahead ≠ 0) :=
        fun hx => h1 ⟨hx.1, hx.2.1⟩
      simp [hpo, hpe]

/-- Claim C7 (amended): the shelter/storm term awards +15 middlegame points
per file — among the king file and its two neighbours — that holds at least
one own pawn within the two ranks immediately ahead of the king, and -10
middlegame points per such file holding at least one enemy pawn; several
pawns on the same file in the region count once. -/
theorem claim_C7_amended (own enemy : Nat) (kFile : Nat) (ahead : Nat) :
    termShelterOf own enemy kFile ahead =
      S (15 * ((List.range 8).countP (fun f =>
            decide (max 0 (kFile - 1) ≤ f ∧ f ≤ min 7 (kFile + 1) ∧
              own &&& FILE_BBarr f &&& ahead ≠ 0)) : Int) -
         10 * ((List.range 8).countP (fun f =>
            decide (max 0 (kFile - 1) ≤ f ∧ f ≤ min 7 (kFile + 1) ∧
              enemy &&& FILE_BBarr f &&& ahead ≠ 0)) : Int)) 0 := by
  unfold termShelterOf shelterStormCounts
  rw [shelterStorm_foldl_aux own enemy ahead (max 0 (kFile - 1)) (min 7 (kFile + 1))
    (List.range 8) 0 0]
  simp only [Nat.zero_add]
  show Score.mk _ _ + Score.mk _ _ = _
  simp only [S, SHELTER_PAWN_BONUS, SHELTER_STORM_PENALTY]
  show Score.mk _ _ = _
  congr 1
  ring

/-! ## C4: iterative deepening and the stop flag -/

def c4moveA : Move := Move.mk2 12 28 MoveType.Normal
def c4moveB : Move := Move.mk2 11 27 MoveType.Normal
def c4movesAt : Nat → List Move := fun _ => [c4moveA, c4moveB]
def c4scoreAt : Nat → Nat → Int := fun d i =>
  if d = 1 then (if i = 0 then 0 else 5) else (if i = 0 then 10 else 0)
def c4stopHit : Nat → Nat → Bool := fun d i => d = 2 && i = 1

/-- Claim C4, as stated (corrected): the counterexample.  Depth 1 completes
and selects move B.  At depth 2 the first root move A completes its search
(score 10) before the stop flag is set during the second move; the claim
says A then replaces the previous best and is returned, but the root loop
breaks on the stop flag before `bestMove = depthBest`, so the whole partial
iteration is discarded and B is returned. -/
theorem claim_C4_counterexample :
    findBestMove 2 c4movesAt c4scoreAt c4stopHit = c4moveB ∧ c4moveB ≠ c4moveA :=
  ⟨rfl, by decide⟩

/-- Helper for C4: running the depth loop from depth `s` with accumulated
best `best`, where iterations `s..d-1` complete cleanly and iteration `d`
is stopped, yields `best` when `s = d` and the best move of iteration
`d - 1` otherwise. -/
theorem idLoop_stop_aux (maxDepth : Nat) (movesAt : Nat → List Move)
    (scoreAt : Nat → Nat → Int) (stopHit : Nat → Nat → Bool) (d : Nat)
    (hdm : d ≤ maxDepth)
    (hstop : (rootIter (scoreAt d) (stopHit d) (movesAt d)).stopped = true)
    (hne : movesAt d ≠ []) (fuel : Nat) :
    ∀ (s : Nat) (best : Move), s ≤ d → maxDepth + 1 - s ≤ fuel →
    (∀ e, s ≤ e → e < d →
      movesAt e ≠ [] ∧
      (rootIter (scoreAt e) (stopHit e) (movesAt e)).stopped = false ∧
      (rootIter (scoreAt e) (stopHit e) (movesAt e)).bestScore < SCORE_MATE - maxDepth) →
    idLoop maxDepth movesAt scoreAt stopHit fuel s best =
      (if s = d then best
       else (rootIter (scoreAt (d - 1)) (stopHit (d - 1)) (movesAt (d - 1))).depthBest) := by
  induction fuel with
  | zero =>
    intro s best hs hfuel hclean
    omega
  | succ fuel ih =>
    intro s best hs hfuel hclean
    have hsmax : ¬ (s > maxDepth) := by omega
    by_cases hsd : s = d
    · subst hsd
      simp only [idLoop, if_neg hsmax, if_neg hne, hstop, if_pos rfl, if_true]
    · have hslt : s < d := by omega
      have hcs := hclean s (Nat.le_refl s) hslt
      have hne2 : ¬ (movesAt s = []) := hcs.1
      have hnstop : ¬ ((rootIter (scoreAt s) (stopHit s) (movesAt s)).stopped = true) := by
        simp [hcs.2.1]
      have hnmate :
          ¬ ((rootIter (scoreAt s) (stopHit s) (movesAt s)).bestScore ≥
            SCORE_MATE - maxDepth) := by
        have := hcs.2.2
        omega
      simp only [idLoop, if_neg hsmax, if_neg hne2, if_neg hnstop, if_neg hnmate]
      rw [ih (s + 1) (rootIter (scoreAt s) (stopHit s) (movesAt s)).depthBest
        (by omega) (by omega) (fun e he1 he2 => hclean e (by omega) he2)]
      by_cases hsd1 : s + 1 = d
      · have hsd1e : s = d - 1 := by omega
        have hd1d : ¬ (d - 1 = d) := by omega
        simp [if_pos hsd1, if_neg hsd, hsd1e, hd1d]
      · simp [if_neg hsd1, if_neg hsd]

/-- Claim C4 (amended): in iterative deepening, whenever the stop flag
becomes set during the iteration at depth d — regardless of whether any
root move completed its search at that depth — the partial iteration is
discarded and the previous iteration's best move is returned (the null
move when d = 1). -/
theorem claim_C4_amended (maxDepth : Nat) (movesAt : Nat → List Move)
    (scoreAt : Nat → Nat → Int) (stopHit : Nat → Nat → Bool) (d : Nat)
    (hd1 : 1 ≤ d) (hdm : d ≤ maxDepth)
    (hprev : ∀ e, 1 ≤ e → e < d →
      movesAt e ≠ [] ∧
      (rootIter (scoreAt e) (stopHit e) (movesAt e)).stopped = false ∧
      (rootIter (scoreAt e) (stopHit e) (movesAt e)).bestScore < SCORE_MATE - maxDepth)
    (hstop : (rootIter (scoreAt d) (stopHit d) (movesAt d)).stopped = true)
    (hne : movesAt d ≠ []) :
    findBestMove maxDepth movesAt scoreAt stopHit =
      (if 1 = d then Move.null
       else (rootIter (scoreAt (d - 1)) (stopHit (d - 1)) (movesAt (d - 1))).depthBest) := by
  unfold findBestMove
  exact idLoop_stop_aux maxDepth movesAt scoreAt stopHit d hdm hstop hne (maxDepth + 1) 1
    Move.null hd1 (by omega) hprev

/-- Witness for the amended C4 at the concrete schedule of the
counterexample (stop during the second root move of depth 2). -/
theorem claim_C4_witness :
    findBestMove 2 c4movesAt c4scoreAt c4stopHit =
      (if 1 = 2 then Move.null
       else (rootIter (c4scoreAt (2 - 1)) (c4stopHit (2 - 1)) (c4movesAt (2 - 1))).depthBest) :=
  claim_C4_amended 2 c4movesAt c4scoreAt c4stopHit 2 (by omega) (by omega)
    (fun e he1 he2 => by
      have he : e = 1 := by omega
      subst he
      exact ⟨by decide, by decide, by decide⟩)
    (by decide) (by decide)

/-! ## C10: the sort overloads permute their input -/

theorem insertDesc_perm (key : α → Int) (x : α) :
    ∀ l : List α, (insertDesc key x l).Perm (x :: l)
  | [] => List.Perm.refl _
  | y :: ys => by
    unfold insertDesc
    by_cases h : key y < key x
    · simp [h]
    · simp only [if_neg h]
      exact ((insertDesc_perm key x ys).cons y).trans (List.Perm.swap x y ys)

theorem insertionSortDesc_foldl_perm (key : α → Int) :
    ∀ (l acc : List α), (l.foldl (fun acc x => insertDesc key x acc) acc).Perm (l ++ acc)
  | [], acc => by simp
  | x :: xs, acc => by
    simp only [List.foldl_cons, List.cons_append]
    have h1 := insertionSortDesc_foldl_perm key xs (insertDesc key x acc)
    have h2 : (xs ++ insertDesc key x acc).Perm (xs ++ x :: acc) :=
      List.Perm.append_left xs (insertDesc_perm key x acc)
    have h3 : (xs ++ x :: acc).Perm (x :: (xs ++ acc)) := List.perm_middle
    exact (h1.trans h2).trans h3

theorem insertionSortDesc_perm (key : α → Int) (l : List α) :
    (insertionSortDesc key l).Perm l := by
  have := insertionSortDesc_foldl_perm key l []
  simpa [insertionSortDesc] using this

/-- The from-the-front swap used by the TT-move sort overload permutes the
list: pulling element i to position 0 and pushing the old head to position
i is a transposition. -/
theorem getD_set_perm (d : α) :
    ∀ (t : List α) (j : Nat), j < t.length → ∀ a : α, (t.getD j d :: t.set j a).Perm (a :: t)
  | [], j, hj, a => by simp at hj
  | x :: t, 0, hj, a => by
    simp [List.getD]
    exact List.Perm.swap a x t
  | x :: t, j + 1, hj, a => by
    have hj2 : j < t.length := by simpa using hj
    have ih := getD_set_perm d t j hj2 a
    simp only [List.getD_cons_succ, List.set_cons_succ]
    have s1 : (t.getD j d :: x :: t.set j a).Perm (x :: t.getD j d :: t.set j a) :=
      List.Perm.swap x (t.getD j d) _
    have s2 : (x :: t.getD j d :: t.set j a).Perm (x :: a :: t) := ih.cons x
    have s3 : (x :: a :: t).Perm (a :: x :: t) := List.Perm.swap a x t
    exact (s1.trans s2).trans s3

theorem swapFront_perm (d : α) (l : List α) (i : Nat) (hi : i < l.length) :
    ((l.set 0 (l.getD i d)).set i (l.getD 0 d)).Perm l := by
  match l, i with
  | [], _ => simp at hi
  | x :: t, 0 => simp [List.getD]
  | x :: t, j + 1 =>
    have hj : j < t.length := by simpa using hi
    simp only [List.getD_cons_succ, List.getD_cons_zero, List.set_cons_zero,
      List.set_cons_succ]
    exact getD_set_perm d t j hj x

theorem sortPlain_perm (moves : List Move) (pos : Position) :
    (MoveOrder.sortPlain moves pos).Perm moves :=
  insertionSortDesc_perm _ moves

theorem sortTT_perm (moves : List Move) (pos : Position) (ttMove : Move) :
    (MoveOrder.sortTT moves pos ttMove).Perm moves := by
  unfold MoveOrder.sortTT
  cases hidx : moves.findIdx? (fun mm => matchesTTMove mm ttMove) with
  | none => exact sortPlain_perm moves pos
  | some i =>
    have hi : i < moves.length := by
      have := (List.findIdx?_eq_some_iff_findIdx_eq).1 hidx
      exact this.1
    simp only []
    have hswap := swapFront_perm Move.null moves i hi
    cases hsl : (moves.set 0 (moves.getD i Move.null)).set i (moves.getD 0 Move.null) with
    | nil =>
      rw [hsl] at hswap
      have := hswap.symm.eq_nil
      simp [this] at hi
    | cons h t =>
      rw [hsl] at hswap
      have hperm : (h :: insertionSortDesc (fun m => MoveOrder.score m pos) t).Perm (h :: t) :=
        (insertionSortDesc_perm _ t).cons h
      exact hperm.trans hswap

theorem sortKillers_perm (moves : List Move) (pos : Position)
    (ttMove killer0 killer1 : Move) :
    (MoveOrder.sortKillers moves pos ttMove killer0 killer1).Perm moves :=
  insertionSortDesc_perm _ moves

/-- Claim C10 (confirmed): every MoveOrder::sort overload — the plain
MVV-LVA sort, the sort with a TT move, and the sort with a TT move and two
killer moves — returns a permutation of its input list: same length, same
multiset of moves, nothing dropped, added or duplicated. -/
theorem claim_C10_sort_permutation (moves : List Move) (pos : Position)
    (ttMove killer0 killer1 : Move) (hlen : moves.length ≤ 256) :
    (MoveOrder.sortPlain moves pos).Perm moves ∧
      (MoveOrder.sortTT moves pos ttMove).Perm moves ∧
      (MoveOrder.sortKillers moves pos ttMove killer0 killer1).Perm moves :=
  ⟨sortPlain_perm moves pos, sortTT_perm moves pos ttMove,
    sortKillers_perm moves pos ttMove killer0 killer1⟩

/-- Witness for C10 on a concrete three-move list with a TT move and a
killer move among them. -/
theorem claim_C10_witness :
    ([Move.mk2 1 2 MoveType.Capture, Move.mk2 3 4 MoveType.Normal,
        Move.mk2 5 6 MoveType.Normal] : List Move).length ≤ 256 ∧
    ((MoveOrder.sortPlain [Move.mk2 1 2 MoveType.Capture, Move.mk2 3 4 MoveType.Normal,
        Move.mk2 5 6 MoveType.Normal] Position.emptyPos).Perm
      [Move.mk2 1 2 MoveType.Capture, Move.mk2 3 4 MoveType.Normal,
        Move.mk2 5 6 MoveType.Normal] ∧
     (MoveOrder.sortTT [Move.mk2 1 2 MoveType.Capture, Move.mk2 3 4 MoveType.Normal,
        Move.mk2 5 6 MoveType.Normal] Position.emptyPos (Move.mk2 3 4 MoveType.Normal)).Perm
      [Move.mk2 1 2 MoveType.Capture, Move.mk2 3 4 MoveType.Normal,
        Move.mk2 5 6 MoveType.Normal] ∧
     (MoveOrder.sortKillers [Move.mk2 1 2 MoveType.Capture, Move.mk2 3 4 MoveType.Normal,
        Move.mk2 5 6 MoveType.Normal] Position.emptyPos (Move.mk2 3 4 MoveType.Normal)
        (Move.mk2 5 6 MoveType.Normal) Move.null).Perm
      [Move.mk2 1 2 MoveType.Capture, Move.mk2 3 4 MoveType.Normal,
        Move.mk2 5 6 MoveType.Normal]) :=
  ⟨by decide,
   claim_C10_sort_permutation _ Position.emptyPos (Move.mk2 3 4 MoveType.Normal)
     (Move.mk2 5 6 MoveType.Normal) Move.null (by decide)⟩

/-! ## C6: transposition-table store/probe round trip -/

/-- A freshly constructed (or cleared) table with the given index mask:
every cluster empty, generation 0. -/
def TranspositionTable.freshTT (mask : Nat) : TranspositionTable :=
  ⟨fun _ => emptyCluster, mask, 0⟩

theorem pack_fields (a b c : Nat) (ha : a < 64) (hb : b < 64) (hc : c < 16) :
    ((a <<< 10) ||| (b <<< 4) ||| c) &&& 0xFFFF = a * 1024 + b * 16 + c := by
  have h1 : a <<< 10 = a * 1024 := by rw [Nat.shiftLeft_eq]
  have h2 : b <<< 4 = b * 16 := by rw [Nat.shiftLeft_eq]
  have h3 : (a * 1024) ||| (b * 16) = a * 1024 + b * 16 := by
    have e1 : a * 1024 = 2 ^ 10 * a := by ring
    have e2 : b * 16 < 2 ^ 10 := by omega
    rw [e1]
    exact (Nat.mul_add_lt_is_or e2 a).symm
  have h4 : (a * 1024 + b * 16) ||| c = a * 1024 + b * 16 + c := by
    have e1 : a * 1024 + b * 16 = 2 ^ 4 * (a * 64 + b) := by ring
    have e2 : c < 2 ^ 4 := by omega
    rw [e1]
    have := (Nat.mul_add_lt_is_or e2 (a * 64 + b)).symm
    rw [this]
  have h5 : a * 1024 + b * 16 + c < 2 ^ 16 := by omega
  have h6 : (0xFFFF : Nat) = 2 ^ 16 - 1 := by norm_num
  rw [h1, h2, h3, h4, h6]
  exact Nat.and_pow_two_sub_one_of_lt_two_pow h5

theorem decode_field_from (a b c : Nat) (ha : a < 64) (hb : b < 64) (hc : c < 16) :
    ((a * 1024 + b * 16 + c) >>> 10) &&& 0x3F = a := by
  rw [Nat.shiftRight_eq_div_pow]
  have h63 : (0x3F : Nat) = 2 ^ 6 - 1 := by norm_num
  rw [h63, Nat.and_pow_two_sub_one_eq_mod]
  omega

theorem decode_field_to (a b c : Nat) (ha : a < 64) (hb : b < 64) (hc : c < 16) :
    ((a * 1024 + b * 16 + c) >>> 4) &&& 0x3F = b := by
  rw [Nat.shiftRight_eq_div_pow]
  have h63 : (0x3F : Nat) = 2 ^ 6 - 1 := by norm_num
  rw [h63, Nat.and_pow_two_sub_one_eq_mod]
  omega

theorem decode_field_tp (a b c : Nat) (ha : a < 64) (hb : b < 64) (hc : c < 16) :
    (a * 1024 + b * 16 + c) &&& 0xF = c := by
  have h15 : (0xF : Nat) = 2 ^ 4 - 1 := by norm_num
  rw [h15, Nat.and_pow_two_sub_one_eq_mod]
  omega

/-- The moves whose 16-bit encoding round-trips: either null (encoded as 0),
or with genuine 6-bit squares, a promotion piece from the four the encoding
can carry when the kind is a promotion, the default None promotion piece
otherwise, and not the a1-to-a1 normal move whose encoding collides with
the null encoding. -/
def movePackOk (m : Move) : Prop :=
  m.isNull = true ∨
    (m.fromSq < 64 ∧ m.toSq < 64 ∧
     ((m.type = MoveType.Promotion ∨ m.type = MoveType.PromotionCapture) →
        m.promotion = PieceType.Queen ∨ m.promotion = PieceType.Knight ∨
          m.promotion = PieceType.Bishop ∨ m.promotion = PieceType.Rook) ∧
     (¬(m.type = MoveType.Promotion ∨ m.type = MoveType.PromotionCapture) →
        m.promotion = PieceType.None) ∧
     ¬(m.fromSq = 0 ∧ m.toSq = 0 ∧ m.type = MoveType.Normal))


theorem encode_nonnull (f t : Nat) (ty : MoveType) (pr : PieceType)
    (hf : f < 64) (ht : t < 64) :
    encodeMove16 ⟨f, t, ty, pr⟩ =
      ((f <<< 10) ||| (t <<< 4) ||| typePromoOf ty pr) &&& 0xFFFF := by
  have h1 : f ≠ 64 := by omega
  have h2 : t ≠ 64 := by omega
  have hnn : (Move.mk f t ty pr).isNull = false := by
    simp [Move.isNull, SQUARE_NONE, h1, h2]
  simp [encodeMove16, hnn]

theorem decode_encode_core (f t tp : Nat) (hf : f < 64) (ht : t < 64) (htp : tp < 16)
    (hnz : ¬(f = 0 ∧ t = 0 ∧ tp = 0)) :
    decodeMove16 (((f <<< 10) ||| (t <<< 4) ||| tp) &&& 0xFFFF) =
      (if tp ≥ 8 then ⟨f, t, .PromotionCapture, promoTableFn (tp - 8)⟩
       else if tp ≥ 4 then ⟨f, t, .Promotion, promoTableFn (tp - 4)⟩
       else ⟨f, t, MoveType.fromNat tp, .None⟩) := by
  rw [pack_fields f t tp hf ht htp]
  have hne : ¬ (f * 1024 + t * 16 + tp = 0) := by omega
  simp only [decodeMove16, if_neg hne]
  rw [decode_field_from f t tp hf ht htp, decode_field_to f t tp hf ht htp,
    decode_field_tp f t tp hf ht htp]

/-- The TT move encoding round-trips on all moves in `movePackOk`: a stored
null move decodes to the null move, every other such move decodes to
itself. -/
theorem decode_encode (m : Move) (h : movePackOk m) :
    decodeMove16 (encodeMove16 m) = if m.isNull then Move.null else m := by
  rcases h with hnull | ⟨ha, hb, hpro, hnp, hnz⟩
  · simp [encodeMove16, hnull, decodeMove16]
  · obtain ⟨f, t, ty, pr⟩ := m
    have ha : f < 64 := ha
    have hb : t < 64 := hb
    have hpro : (ty = MoveType.Promotion ∨ ty = MoveType.PromotionCapture) →
        pr = PieceType.Queen ∨ pr = PieceType.Knight ∨ pr = PieceType.Bishop ∨
          pr = PieceType.Rook := hpro
    have hnp : ¬(ty = MoveType.Promotion ∨ ty = MoveType.PromotionCapture) →
        pr = PieceType.None := hnp
    have hnz : ¬(f = 0 ∧ t = 0 ∧ ty = MoveType.Normal) := hnz
    have h1 : f ≠ 64 := by omega
    have h2 : t ≠ 64 := by omega
    have hnn : (Move.mk f t ty pr).isNull = false := by
      simp [Move.isNull, SQUARE_NONE, h1, h2]
    rw [encode_nonnull f t ty pr ha hb]
    simp only [hnn, Bool.false_eq_true, if_false]
    cases ty with
    | Normal =>
      have hpr := hnp (by simp)
      subst hpr
      rw [show typePromoOf MoveType.Normal PieceType.None = 0 from rfl]
      rw [decode_encode_core f t 0 ha hb (by omega)
        (fun hx => hnz ⟨hx.1, hx.2.1, rfl⟩)]
      simp [MoveType.fromNat]
    | Capture =>
      have hpr := hnp (by simp)
      subst hpr
      rw [show typePromoOf MoveType.Capture PieceType.None = 1 from rfl]
      rw [decode_encode_core f t 1 ha hb (by omega) (by omega)]
      simp [MoveType.fromNat]
    | EnPassant =>
      have hpr := hnp (by simp)
      subst hpr
      rw [show typePromoOf MoveType.EnPassant PieceType.None = 2 from rfl]
      rw [decode_encode_core f t 2 ha hb (by omega) (by omega)]
      simp [MoveType.fromNat]
    | Castling =>
      have hpr := hnp (by simp)
      subst hpr
      rw [show typePromoOf MoveType.Castling PieceType.None = 3 from rfl]
      rw [decode_encode_core f t 3 ha hb (by omega) (by omega)]
      simp [MoveType.fromNat]
    | Promotion =>
      rcases hpro (Or.inl rfl) with hq | hq | hq | hq <;> subst hq
      · rw [show typePromoOf MoveType.Promotion PieceType.Queen = 4 from rfl]
        rw [decode_encode_core f t 4 ha hb (by omega) (by omega)]
        simp [promoTableFn]
      · rw [show typePromoOf MoveType.Promotion PieceType.Knight = 5 from rfl]
        rw [decode_encode_core f t 5 ha hb (by omega) (by omega)]
        simp [promoTableFn]
      · rw [show typePromoOf MoveType.Promotion PieceType.Bishop = 6 from rfl]
        rw [decode_encode_core f t 6 ha hb (by omega) (by omega)]
        simp [promoTableFn]
      · rw [show typePromoOf MoveType.Promotion PieceType.Rook = 7 from rfl]
        rw [decode_encode_core f t 7 ha hb (by omega) (by omega)]
        simp [promoTableFn]
    | PromotionCapture =>
      rcases hpro (Or.inr rfl) with hq | hq | hq | hq <;> subst hq
      · rw [show typePromoOf MoveType.PromotionCapture PieceType.Queen = 8 from rfl]
        rw [decode_encode_core f t 8 ha hb (by omega) (by omega)]
        simp [promoTableFn]
      · rw [show typePromoOf MoveType.PromotionCapture PieceType.Knight = 9 from rfl]
        rw [decode_encode_core f t 9 ha hb (by omega) (by omega)]
        simp [promoTableFn]
      · rw [show typePromoOf MoveType.PromotionCapture PieceType.Bishop = 10 from rfl]
        rw [decode_encode_core f t 10 ha hb (by omega) (by omega)]
        simp [promoTableFn]
      · rw [show typePromoOf MoveType.PromotionCapture PieceType.Rook = 11 from rfl]
        rw [decode_encode_core f t 11 ha hb (by omega) (by omega)]
        simp [promoTableFn]

theorem toInt16_id (x : Int) (h1 : -(2 ^ 15) ≤ x) (h2 : x < 2 ^ 15) : toInt16 x = x := by
  unfold toInt16
  have e1 : (2 : Int) ^ 15 = 32768 := by norm_num
  have e2 : (2 : Int) ^ 16 = 65536 := by norm_num
  rw [e1, e2]
  rw [e1] at h1 h2
  omega

/-- Claim C6, as stated (corrected): the counterexample.  The a1-to-a1
normal move has from = to = 0 and typePromo = 0, so it encodes to
`move16 = 0` — the null-move encoding — and a store/probe round trip on a
cleared table decodes it as the null move, not as the stored move. -/
theorem claim_C6_counterexample :
    (((TranspositionTable.freshTT 0).store 0 5 3 TTBound.EXACT
        (Move.mk2 0 0 MoveType.Normal)).probe 0).map (fun e => decodeMove16 e.move16) =
      some Move.null ∧ Move.null ≠ Move.mk2 0 0 MoveType.Normal :=
  ⟨rfl, by decide⟩

/-- Claim C6 (amended): starting from a cleared table, for every hash,
every score and depth representable in a signed 16-bit integer with depth
at least 0, every bound among EXACT, LOWER and UPPER, and every stored
best move that is either null or has 6-bit from and to squares, promotion
piece in {Queen, Knight, Bishop, Rook} when its kind is a promotion, the
default None promotion piece otherwise, and is not the a1-to-a1 normal
move (whose encoding collides with the null encoding), store then probe
finds an entry carrying exactly the stored score, depth and bound, whose
decoded move equals the stored move, with the null move decoded from
`move16 = 0`. -/
theorem claim_C6_amended (mask hash : Nat) (score depth : Int) (bound : TTBound)
    (move : Move)
    (hs1 : -(2 ^ 15) ≤ score) (hs2 : score < 2 ^ 15)
    (hd1 : 0 ≤ depth) (hd2 : depth < 2 ^ 15)
    (hb : bound = TTBound.EXACT ∨ bound = TTBound.LOWER ∨ bound = TTBound.UPPER)
    (hm : movePackOk move) :
    ∃ e : TTEntry,
      ((TranspositionTable.freshTT mask).store hash score depth bound move).probe hash =
        some e ∧
      e.score = score ∧ e.depth = depth ∧ e.bound = bound ∧
      decodeMove16 e.move16 = (if move.isNull then Move.null else move) := by
  refine ⟨mkStoreEntry 0 (verifyKey hash) score depth bound move, ?_, ?_, ?_, ?_, ?_⟩
  · have hchoose : chooseSlot 0 depth bound (verifyKey hash) emptyCluster = some 0 := by
      simp [chooseSlot, chooseSlotGo, emptyCluster, emptyEntry, TTEntry.isEmpty]
    have hgb : ((0 : Nat) <<< 2) ||| bound.toNat ≠ 0 := by
      rcases hb with h | h | h <;> subst h <;> decide
    simp only [TranspositionTable.probe, TranspositionTable.store,
      TranspositionTable.freshTT, clusterIndexOf, if_pos rfl, storeCluster, hchoose,
      emptyCluster, List.set_cons_zero, probeCluster]
    have hcond : (mkStoreEntry 0 (verifyKey hash) score depth bound move).hashVerify =
        verifyKey hash ∧
        (mkStoreEntry 0 (verifyKey hash) score depth bound move).isEmpty = false := by
      refine ⟨rfl, ?_⟩
      simp only [mkStoreEntry, TTEntry.isEmpty, decide_eq_false_iff_not]
      simpa [Nat.shiftLeft_eq] using hgb
    rw [if_pos hcond]
  · exact toInt16_id score hs1 hs2
  · exact toInt16_id depth (by omega) hd2
  · have hgb2 : (mkStoreEntry 0 (verifyKey hash) score depth bound move).genBound =
        bound.toNat := by
      simp [mkStoreEntry, Nat.shiftLeft_eq]
    unfold TTEntry.bound
    rw [hgb2]
    rcases hb with h | h | h <;> subst h <;> rfl
  · exact decode_encode move hm

/-- Witness for the amended C6: a concrete promotion-capture move stored
and probed on a one-cluster table. -/
theorem claim_C6_witness :
    (-(2 ^ 15) : Int) ≤ 77 ∧ (77 : Int) < 2 ^ 15 ∧ (0 : Int) ≤ 9 ∧ (9 : Int) < 2 ^ 15 ∧
    movePackOk (Move.makePromotionCapture 52 61 PieceType.Knight) ∧
    (∃ e : TTEntry,
      ((TranspositionTable.freshTT 3).store 12345 77 9 TTBound.LOWER
          (Move.makePromotionCapture 52 61 PieceType.Knight)).probe 12345 = some e ∧
      e.score = 77 ∧ e.depth = 9 ∧ e.bound = TTBound.LOWER ∧
      decodeMove16 e.move16 =
        (if (Move.makePromotionCapture 52 61 PieceType.Knight).isNull then Move.null
         else Move.makePromotionCapture 52 61 PieceType.Knight)) :=
  ⟨by norm_num, by norm_num, by norm_num, by norm_num,
   Or.inr ⟨by decide, by decide, fun _ => by simp [Move.makePromotionCapture],
     fun h => absurd (Or.inr rfl) h, by decide⟩,
   claim_C6_amended 3 12345 77 9 TTBound.LOWER
     (Move.makePromotionCapture 52 61 PieceType.Knight)
     (by norm_num) (by norm_num) (by norm_num) (by norm_num)
     (Or.inr (Or.inl rfl))
     (Or.inr ⟨by decide, by decide, fun _ => by simp [Move.makePromotionCapture],
       fun h => absurd (Or.inr rfl) h, by decide⟩)⟩

/-! ## C5: the store replacement policy -/

/-- `depth - age * 4`, the replacement score of a stored entry. -/
def svOf (generation : Nat) (e : TTEntry) : Int :=
  e.depth - (entryAge generation e : Int) * 4

/-- The running-best update of the replacement scan. -/
def bestUpd (generation : Nat) : Option (Nat × Int) → Nat → TTEntry → Option (Nat × Int)
  | none, i, e => some (i, svOf generation e)
  | some b, i, e => if svOf generation e < b.2 then some (i, svOf generation e) else some b

theorem chooseSlotGo_step_nonmatch (g : Nat) (depth : Int) (bound : TTBound) (key16 : Nat)
    (x : TTEntry) (xs : List TTEntry) (i : Nat) (best : Option (Nat × Int))
    (hne : x.isEmpty = false) (hnm : x.hashVerify ≠ key16) :
    chooseSlotGo g depth bound key16 (x :: xs) i best =
      chooseSlotGo g depth bound key16 xs (i + 1) (bestUpd g best i x) := by
  have hc1 : ¬ (x.isEmpty = false ∧ x.hashVerify = key16) := fun hx => hnm hx.2
  have hc2 : ¬ (x.isEmpty = true) := by simp [hne]
  cases best <;> simp only [chooseSlotGo, if_neg hc1, if_neg hc2, bestUpd, svOf, entryAge]

theorem chooseSlotGo_match (g : Nat) (depth : Int) (bound : TTBound) (key16 : Nat) :
    ∀ (xs : List TTEntry) (e : TTEntry) (rest : List TTEntry) (i : Nat)
      (best : Option (Nat × Int)),
    (∀ x ∈ xs, x.isEmpty = false ∧ x.hashVerify ≠ key16) →
    e.isEmpty = false → e.hashVerify = key16 →
    chooseSlotGo g depth bound key16 (xs ++ e :: rest) i best =
      (if depth < e.depth ∧ bound ≠ TTBound.EXACT then none else some (i + xs.length))
  | [], e, rest, i, best => by
    intro _ hne hm
    simp only [List.nil_append, chooseSlotGo]
    rw [if_pos (And.intro hne hm)]
    simp
  | x :: xs, e, rest, i, best => by
    intro hxs hne hm
    have hx := hxs x (List.mem_cons_self x xs)
    rw [List.cons_append,
      chooseSlotGo_step_nonmatch g depth bound key16 x _ i best hx.1 hx.2,
      chooseSlotGo_match g depth bound key16 xs e rest (i + 1)
        (bestUpd g best i x) (fun y hy => hxs y (List.mem_cons_of_mem x hy)) hne hm]
    simp only [List.length_cons]
    by_cases hd : depth < e.depth ∧ bound ≠ TTBound.EXACT
    · simp [hd]
    · simp only [if_neg hd]
      have : i + 1 + xs.length = i + (xs.length + 1) := by omega
      rw [this]

theorem chooseSlotGo_empty (g : Nat) (depth : Int) (bound : TTBound) (key16 : Nat) :
    ∀ (xs : List TTEntry) (e : TTEntry) (rest : List TTEntry) (i : Nat)
      (best : Option (Nat × Int)),
    (∀ x ∈ xs, x.isEmpty = false ∧ x.hashVerify ≠ key16) →
    e.isEmpty = true →
    chooseSlotGo g depth bound key16 (xs ++ e :: rest) i best = some (i + xs.length)
  | [], e, rest, i, best => by
    intro _ hemp
    have hc1 : ¬ (e.isEmpty = false ∧ e.hashVerify = key16) := by simp [hemp]
    simp only [List.nil_append, chooseSlotGo, if_neg hc1, if_pos hemp, List.length_nil,
      Nat.add_zero]
  | x :: xs, e, rest, i, best => by
    intro hxs hemp
    have hx := hxs x (List.mem_cons_self x xs)
    rw [List.cons_append,
      chooseSlotGo_step_nonmatch g depth bound key16 x _ i best hx.1 hx.2,
      chooseSlotGo_empty g depth bound key16 xs e rest (i + 1)
        (bestUpd g best i x) (fun y hy => hxs y (List.mem_cons_of_mem x hy)) hemp]
    simp only [List.length_cons]
    have : i + 1 + xs.length = i + (xs.length + 1) := by omega
    rw [this]

theorem bestUpd_none (g i : Nat) (e : TTEntry) :
    bestUpd g none i e = some (i, svOf g e) := rfl

theorem bestUpd_some (g i : Nat) (e : TTEntry) (b : Nat × Int) :
    bestUpd g (some b) i e =
      if svOf g e < b.2 then some (i, svOf g e) else some b := rfl

theorem chooseSlotGo_nil_some (g : Nat) (depth : Int) (bound : TTBound) (key16 i : Nat)
    (b : Nat × Int) : chooseSlotGo g depth bound key16 [] i (some b) = some b.1 := rfl

theorem chooseSlot_full (g : Nat) (depth : Int) (bound : TTBound) (key16 : Nat)
    (e0 e1 e2 e3 : TTEntry)
    (h0 : e0.isEmpty = false ∧ e0.hashVerify ≠ key16)
    (h1 : e1.isEmpty = false ∧ e1.hashVerify ≠ key16)
    (h2 : e2.isEmpty = false ∧ e2.hashVerify ≠ key16)
    (h3 : e3.isEmpty = false ∧ e3.hashVerify ≠ key16) :
    ∃ j, chooseSlot g depth bound key16 [e0, e1, e2, e3] = some j ∧ j < 4 ∧
      (∀ m, m < 4 → svOf g ([e0, e1, e2, e3].getD j emptyEntry) ≤
        svOf g ([e0, e1, e2, e3].getD m emptyEntry)) ∧
      (∀ m, m < j → svOf g ([e0, e1, e2, e3].getD j emptyEntry) <
        svOf g ([e0, e1, e2, e3].getD m emptyEntry)) := by
  unfold chooseSlot
  rw [show ([e0, e1, e2, e3] : List TTEntry) = e0 :: [e1, e2, e3] from rfl,
    chooseSlotGo_step_nonmatch g depth bound key16 e0 _ 0 none h0.1 h0.2]
  rw [show ([e1, e2, e3] : List TTEntry) = e1 :: [e2, e3] from rfl,
    chooseSlotGo_step_nonmatch g depth bound key16 e1 _ 1 _ h1.1 h1.2]
  rw [show ([e2, e3] : List TTEntry) = e2 :: [e3] from rfl,
    chooseSlotGo_step_nonmatch g depth bound key16 e2 _ 2 _ h2.1 h2.2]
  rw [show ([e3] : List TTEntry) = e3 :: [] from rfl,
    chooseSlotGo_step_nonmatch g depth bound key16 e3 _ 3 _ h3.1 h3.2]
  rw [bestUpd_none, bestUpd_some]
  by_cases c1 : svOf g e1 < svOf g e0
  · rw [if_pos c1, bestUpd_some]
    by_cases c2 : svOf g e2 < svOf g e1
    · rw [if_pos c2, bestUpd_some]
      by_cases c3 : svOf g e3 < svOf g e2
      · rw [if_pos c3, chooseSlotGo_nil_some]
        refine ⟨3, rfl, by omega, ?_, ?_⟩ <;> intro m hm <;> interval_cases m <;>
          simp only [List.getD_cons_zero, List.getD_cons_succ] <;> omega
      · rw [if_neg c3, chooseSlotGo_nil_some]
        refine ⟨2, rfl, by omega, ?_, ?_⟩ <;> intro m hm <;> interval_cases m <;>
          simp only [List.getD_cons_zero, List.getD_cons_succ] <;> omega
    · rw [if_neg c2, bestUpd_some]
      by_cases c3 : svOf g e3 < svOf g e1
      · rw [if_pos c3, chooseSlotGo_nil_some]
        refine ⟨3, rfl, by omega, ?_, ?_⟩ <;> intro m hm <;> interval_cases m <;>
          simp only [List.getD_cons_zero, List.getD_cons_succ] <;> omega
      · rw [if_neg c3, chooseSlotGo_nil_some]
        refine ⟨1, rfl, by omega, ?_, ?_⟩ <;> intro m hm <;> interval_cases m <;>
          simp only [List.getD_cons_zero, List.getD_cons_succ] <;> omega
  · rw [if_neg c1, bestUpd_some]
    by_cases c2 : svOf g e2 < svOf g e0
    · rw [if_pos c2, bestUpd_some]
      by_cases c3 : svOf g e3 < svOf g e2
      · rw [if_pos c3, chooseSlotGo_nil_some]
        refine ⟨3, rfl, by omega, ?_, ?_⟩ <;> intro m hm <;> interval_cases m <;>
          simp only [List.getD_cons_zero, List.getD_cons_succ] <;> omega
      · rw [if_neg c3, chooseSlotGo_nil_some]
        refine ⟨2, rfl, by omega, ?_, ?_⟩ <;> intro m hm <;> interval_cases m <;>
          simp only [List.getD_cons_zero, List.getD_cons_succ] <;> omega
    · rw [if_neg c2, bestUpd_some]
      by_cases c3 : svOf g e3 < svOf g e0
      · rw [if_pos c3, chooseSlotGo_nil_some]
        refine ⟨3, rfl, by omega, ?_, ?_⟩ <;> intro m hm <;> interval_cases m <;>
          simp only [List.getD_cons_zero, List.getD_cons_succ] <;> omega
      · rw [if_neg c3, chooseSlotGo_nil_some]
        refine ⟨0, rfl, by omega, ?_, ?_⟩ <;> intro m hm <;> interval_cases m <;>
          simp only [List.getD_cons_zero, List.getD_cons_succ] <;> omega

theorem ttEqOfFields (a b : TranspositionTable)
    (h1 : a.clusters = b.clusters) (h2 : a.mask = b.mask)
    (h3 : a.generation = b.generation) : a = b := by
  cases a
  cases b
  simp_all

/-- The invariant every reachable cluster satisfies: empty slots form a
suffix, and the non-empty entries carry pairwise distinct verification
keys.  It holds for a cleared cluster and is preserved by `store`
(`clusterOk4_empty`, `clusterOk4_store` below). -/
def clusterOk4 (e0 e1 e2 e3 : TTEntry) : Prop :=
  (e1.isEmpty = false → e0.isEmpty = false) ∧
  (e2.isEmpty = false → e1.isEmpty = false) ∧
  (e3.isEmpty = false → e2.isEmpty = false) ∧
  (e0.isEmpty = false → e1.isEmpty = false → e0.hashVerify ≠ e1.hashVerify) ∧
  (e0.isEmpty = false → e2.isEmpty = false → e0.hashVerify ≠ e2.hashVerify) ∧
  (e0.isEmpty = false → e3.isEmpty = false → e0.hashVerify ≠ e3.hashVerify) ∧
  (e1.isEmpty = false → e2.isEmpty = false → e1.hashVerify ≠ e2.hashVerify) ∧
  (e1.isEmpty = false → e3.isEmpty = false → e1.hashVerify ≠ e3.hashVerify) ∧
  (e2.isEmpty = false → e3.isEmpty = false → e2.hashVerify ≠ e3.hashVerify)

/-- Claim C5 (confirmed): for every reachable transposition-table state
(the cluster indexed by the hash satisfies the reachable-cluster
invariant), a `store` with bound not NONE and depth at least 0 touches only
the cluster indexed by the hash, and the written slot there is chosen by
the first matching priority: (1) a non-empty entry whose verification key
equals the top 16 bits of the hash — replaced if the incoming depth is at
least the stored depth or the incoming bound is EXACT, and otherwise the
store aborts leaving the whole table unchanged; (2) the first empty slot;
(3) otherwise a slot minimizing `depth - 4 * age` over the cluster, the
first such slot in scan order. -/
theorem claim_C5_store_policy (tt : TranspositionTable) (hash : Nat)
    (score depth : Int) (bound : TTBound) (move : Move) (e0 e1 e2 e3 : TTEntry)
    (hcl : tt.clusters (clusterIndexOf tt hash) = [e0, e1, e2, e3])
    (hok : clusterOk4 e0 e1 e2 e3)
    (hbound : bound ≠ TTBound.NONE) (hdepth : 0 ≤ depth) :
    (∀ i, i ≠ clusterIndexOf tt hash →
      (tt.store hash score depth bound move).clusters i = tt.clusters i) ∧
    (tt.store hash score depth bound move).mask = tt.mask ∧
    (tt.store hash score depth bound move).generation = tt.generation ∧
    (tt.store hash score depth bound move).clusters (clusterIndexOf tt hash) =
      storeCluster tt.generation (verifyKey hash) score depth bound move
        [e0, e1, e2, e3] ∧
    (∀ j, j < 4 →
      ([e0, e1, e2, e3].getD j emptyEntry).isEmpty = false →
      ([e0, e1, e2, e3].getD j emptyEntry).hashVerify = verifyKey hash →
      ((depth ≥ ([e0, e1, e2, e3].getD j emptyEntry).depth ∨ bound = TTBound.EXACT) →
        storeCluster tt.generation (verifyKey hash) score depth bound move
            [e0, e1, e2, e3] =
          [e0, e1, e2, e3].set j
            (mkStoreEntry tt.generation (verifyKey hash) score depth bound move)) ∧
      ((depth < ([e0, e1, e2, e3].getD j emptyEntry).depth ∧ bound ≠ TTBound.EXACT) →
        tt.store hash score depth bound move = tt)) ∧
    ((∀ j, j < 4 →
        ¬(([e0, e1, e2, e3].getD j emptyEntry).isEmpty = false ∧
          ([e0, e1, e2, e3].getD j emptyEntry).hashVerify = verifyKey hash)) →
      (∀ j, j < 4 →
        ([e0, e1, e2, e3].getD j emptyEntry).isEmpty = true →
        (∀ m, m < j → ([e0, e1, e2, e3].getD m emptyEntry).isEmpty = false) →
        storeCluster tt.generation (verifyKey hash) score depth bound move
            [e0, e1, e2, e3] =
          [e0, e1, e2, e3].set j
            (mkStoreEntry tt.generation (verifyKey hash) score depth bound move)) ∧
      ((∀ j, j < 4 → ([e0, e1, e2, e3].getD j emptyEntry).isEmpty = false) →
        ∃ j, j < 4 ∧
          storeCluster tt.generation (verifyKey hash) score depth bound move
              [e0, e1, e2, e3] =
            [e0, e1, e2, e3].set j
              (mkStoreEntry tt.generation (verifyKey hash) score depth bound move) ∧
          (∀ m, m < 4 → svOf tt.generation ([e0, e1, e2, e3].getD j emptyEntry) ≤
            svOf tt.generation ([e0, e1, e2, e3].getD m emptyEntry)) ∧
          (∀ m, m < j → svOf tt.generation ([e0, e1, e2, e3].getD j emptyEntry) <
            svOf tt.generation ([e0, e1, e2, e3].getD m emptyEntry)))) := by
  obtain ⟨hp1, hp2, hp3, hd01, hd02, hd03, hd12, hd13, hd23⟩ := hok
  refine ⟨?_, rfl, rfl, ?_, ?_, ?_⟩
  · intro i hi
    simp only [TranspositionTable.store]
    exact if_neg hi
  · simp only [TranspositionTable.store, if_true]
    rw [hcl]
  · intro j hj hne hmt
    constructor
    · intro hrepl
      have hnabort : ¬(depth < ([e0, e1, e2, e3].getD j emptyEntry).depth ∧
          bound ≠ TTBound.EXACT) := by
        rcases hrepl with h | h
        · intro hx
          omega
        · intro hx
          exact hx.2 h
      unfold storeCluster
      interval_cases j
      · simp only [List.getD_cons_zero] at hne hmt hnabort
        rw [show ([e0, e1, e2, e3] : List TTEntry) = [] ++ e0 :: [e1, e2, e3] from rfl,
          show chooseSlot tt.generation depth bound (verifyKey hash)
              ([] ++ e0 :: [e1, e2, e3]) =
            chooseSlotGo tt.generation depth bound (verifyKey hash)
              ([] ++ e0 :: [e1, e2, e3]) 0 none from rfl,
          chooseSlotGo_match _ _ _ _ [] e0 [e1, e2, e3] 0 none (by simp) hne hmt,
          if_neg hnabort]
        rfl
      · simp only [List.getD_cons_zero, List.getD_cons_succ] at hne hmt hnabort
        have he0 : e0.isEmpty = false := hp1 hne
        have hn0 : e0.hashVerify ≠ verifyKey hash := by
          intro hx
          exact hd01 he0 hne (hx.trans hmt.symm)
        rw [show ([e0, e1, e2, e3] : List TTEntry) = [e0] ++ e1 :: [e2, e3] from rfl,
          show chooseSlot tt.generation depth bound (verifyKey hash)
              ([e0] ++ e1 :: [e2, e3]) =
            chooseSlotGo tt.generation depth bound (verifyKey hash)
              ([e0] ++ e1 :: [e2, e3]) 0 none from rfl,
          chooseSlotGo_match _ _ _ _ [e0] e1 [e2, e3] 0 none
            (by simp [he0, hn0]) hne hmt,
          if_neg hnabort]
        rfl
      · simp only [List.getD_cons_zero, List.getD_cons_succ] at hne hmt hnabort
        have he1 : e1.isEmpty = false := hp2 hne
        have he0 : e0.isEmpty = false := hp1 he1
        have hn0 : e0.hashVerify ≠ verifyKey hash := by
          intro hx
          exact hd02 he0 hne (hx.trans hmt.symm)
        have hn1 : e1.hashVerify ≠ verifyKey hash := by
          intro hx
          exact hd12 he1 hne (hx.trans hmt.symm)
        rw [show ([e0, e1, e2, e3] : List TTEntry) = [e0, e1] ++ e2 :: [e3] from rfl,
          show chooseSlot tt.generation depth bound (verifyKey hash)
              ([e0, e1] ++ e2 :: [e3]) =
            chooseSlotGo tt.generation depth bound (verifyKey hash)
              ([e0, e1] ++ e2 :: [e3]) 0 none from rfl,
          chooseSlotGo_match _ _ _ _ [e0, e1] e2 [e3] 0 none
            (by simp [he0, hn0, he1, hn1]) hne hmt,
          if_neg hnabort]
        rfl
      · simp only [List.getD_cons_zero, List.getD_cons_succ] at hne hmt hnabort
        have he2 : e2.isEmpty = false := hp3 hne
        have he1 : e1.isEmpty = false := hp2 he2
        have he0 : e0.isEmpty = false := hp1 he1
        have hn0 : e0.hashVerify ≠ verifyKey hash := by
          intro hx
          exact hd03 he0 hne (hx.trans hmt.symm)
        have hn1 : e1.hashVerify ≠ verifyKey hash := by
          intro hx
          exact hd13 he1 hne (hx.trans hmt.symm)
        have hn2 : e2.hashVerify ≠ verifyKey hash := by
          intro hx
          exact hd23 he2 hne (hx.trans hmt.symm)
        rw [show ([e0, e1, e2, e3] : List TTEntry) = [e0, e1, e2] ++ e3 :: [] from rfl,
          show chooseSlot tt.generation depth bound (verifyKey hash)
              ([e0, e1, e2] ++ e3 :: []) =
            chooseSlotGo tt.generation depth bound (verifyKey hash)
              ([e0, e1, e2] ++ e3 :: []) 0 none from rfl,
          chooseSlotGo_match _ _ _ _ [e0, e1, e2] e3 [] 0 none
            (by simp [he0, hn0, he1, hn1, he2, hn2]) hne hmt,
          if_neg hnabort]
        rfl
    · intro habort
      have hchoose : chooseSlot tt.generation depth bound (verifyKey hash)
          [e0, e1, e2, e3] = none := by
        interval_cases j
        · simp only [List.getD_cons_zero] at hne hmt habort
          rw [show ([e0, e1, e2, e3] : List TTEntry) = [] ++ e0 :: [e1, e2, e3] from rfl,
            show chooseSlot tt.generation depth bound (verifyKey hash)
                ([] ++ e0 :: [e1, e2, e3]) =
              chooseSlotGo tt.generation depth bound (verifyKey hash)
                ([] ++ e0 :: [e1, e2, e3]) 0 none from rfl,
            chooseSlotGo_match _ _ _ _ [] e0 [e1, e2, e3] 0 none (by simp) hne hmt,
            if_pos habort]
        · simp only [List.getD_cons_zero, List.getD_cons_succ] at hne hmt habort
          have he0 : e0.isEmpty = false := hp1 hne
          have hn0 : e0.hashVerify ≠ verifyKey hash := by
            intro hx
            exact hd01 he0 hne (hx.trans hmt.symm)
          rw [show ([e0, e1, e2, e3] : List TTEntry) = [e0] ++ e1 :: [e2, e3] from rfl,
            show chooseSlot tt.generation depth bound (verifyKey hash)
                ([e0] ++ e1 :: [e2, e3]) =
              chooseSlotGo tt.generation depth bound (verifyKey hash)
                ([e0] ++ e1 :: [e2, e3]) 0 none from rfl,
            chooseSlotGo_match _ _ _ _ [e0] e1 [e2, e3] 0 none
              (by simp [he0, hn0]) hne hmt,
            if_pos habort]
        · simp only [List.getD_cons_zero, List.getD_cons_succ] at hne hmt habort
          have he1 : e1.isEmpty = false := hp2 hne
          have he0 : e0.isEmpty = false := hp1 he1
          have hn0 : e0.hashVerify ≠ verifyKey hash := by
            intro hx
            exact hd02 he0 hne (hx.trans hmt.symm)
          have hn1 : e1.hashVerify ≠ verifyKey hash := by
            intro hx
            exact hd12 he1 hne (hx.trans hmt.symm)
          rw [show ([e0, e1, e2, e3] : List TTEntry) = [e0, e1] ++ e2 :: [e3] from rfl,
            show chooseSlot tt.generation depth bound (verifyKey hash)
                ([e0, e1] ++ e2 :: [e3]) =
              chooseSlotGo tt.generation depth bound (verifyKey hash)
                ([e0, e1] ++ e2 :: [e3]) 0 none from rfl,
            chooseSlotGo_match _ _ _ _ [e0, e1] e2 [e3] 0 none
              (by simp [he0, hn0, he1, hn1]) hne hmt,
            if_pos habort]
        · simp only [List.getD_cons_zero, List.getD_cons_succ] at hne hmt habort
          have he2 : e2.isEmpty = false := hp3 hne
          have he1 : e1.isEmpty = false := hp2 he2
          have he0 : e0.isEmpty = false := hp1 he1
          have hn0 : e0.hashVerify ≠ verifyKey hash := by
            intro hx
            exact hd03 he0 hne (hx.trans hmt.symm)
          have hn1 : e1.hashVerify ≠ verifyKey hash := by
            intro hx
            exact hd13 he1 hne (hx.trans hmt.symm)
          have hn2 : e2.hashVerify ≠ verifyKey hash := by
            intro hx
            exact hd23 he2 hne (hx.trans hmt.symm)
          rw [show ([e0, e1, e2, e3] : List TTEntry) = [e0, e1, e2] ++ e3 :: [] from rfl,
            show chooseSlot tt.generation depth bound (verifyKey hash)
                ([e0, e1, e2] ++ e3 :: []) =
              chooseSlotGo tt.generation depth bound (verifyKey hash)
                ([e0, e1, e2] ++ e3 :: []) 0 none from rfl,
            chooseSlotGo_match _ _ _ _ [e0, e1, e2] e3 [] 0 none
              (by simp [he0, hn0, he1, hn1, he2, hn2]) hne hmt,
            if_pos habort]
      apply ttEqOfFields
      · funext i
        simp only [TranspositionTable.store]
        by_cases hi : i = clusterIndexOf tt hash
        · subst hi
          simp [storeCluster, hcl, hchoose]
        · simp [if_neg hi]
      · rfl
      · rfl
  · intro hnomatch
    constructor
    · intro j hj hemp hpref
      unfold storeCluster
      interval_cases j
      · simp only [List.getD_cons_zero] at hemp
        rw [show ([e0, e1, e2, e3] : List TTEntry) = [] ++ e0 :: [e1, e2, e3] from rfl,
          show chooseSlot tt.generation depth bound (verifyKey hash)
              ([] ++ e0 :: [e1, e2, e3]) =
            chooseSlotGo tt.generation depth bound (verifyKey hash)
              ([] ++ e0 :: [e1, e2, e3]) 0 none from rfl,
          chooseSlotGo_empty _ _ _ _ [] e0 [e1, e2, e3] 0 none (by simp) hemp]
        rfl
      · simp only [List.getD_cons_zero, List.getD_cons_succ] at hemp
        have he0 : e0.isEmpty = false := by
          have := hpref 0 (by omega)
          simpa using this
        have hn0 : e0.hashVerify ≠ verifyKey hash := by
          intro hx
          exact (hnomatch 0 (by omega)) (by simp [he0, hx])
        rw [show ([e0, e1, e2, e3] : List TTEntry) = [e0] ++ e1 :: [e2, e3] from rfl,
          show chooseSlot tt.generation depth bound (verifyKey hash)
              ([e0] ++ e1 :: [e2, e3]) =
            chooseSlotGo tt.generation depth bound (verifyKey hash)
              ([e0] ++ e1 :: [e2, e3]) 0 none from rfl,
          chooseSlotGo_empty _ _ _ _ [e0] e1 [e2, e3] 0 none (by simp [he0, hn0]) hemp]
        rfl
      · simp only [List.getD_cons_zero, List.getD_cons_succ] at hemp
        have he0 : e0.isEmpty = false := by
          have := hpref 0 (by omega)
          simpa using this
        have he1 : e1.isEmpty = false := by
          have := hpref 1 (by omega)
          simpa using this
        have hn0 : e0.hashVerify ≠ verifyKey hash := by
          intro hx
          exact (hnomatch 0 (by omega)) (by simp [he0, hx])
        have hn1 : e1.hashVerify ≠ verifyKey hash := by
          intro hx
          exact (hnomatch 1 (by omega)) (by simp [he1, hx])
        rw [show ([e0, e1, e2, e3] : List TTEntry) = [e0, e1] ++ e2 :: [e3] from rfl,
          show chooseSlot tt.generation depth bound (verifyKey hash)
              ([e0, e1] ++ e2 :: [e3]) =
            chooseSlotGo tt.generation depth bound (verifyKey hash)
              ([e0, e1] ++ e2 :: [e3]) 0 none from rfl,
          chooseSlotGo_empty _ _ _ _ [e0, e1] e2 [e3] 0 none
            (by simp [he0, hn0, he1, hn1]) hemp]
        rfl
      · simp only [List.getD_cons_zero, List.getD_cons_succ] at hemp
        have he0 : e0.isEmpty = false := by
          have := hpref 0 (by omega)
          simpa using this
        have he1 : e1.isEmpty = false := by
          have := hpref 1 (by omega)
          simpa using this
        have he2 : e2.isEmpty = false := by
          have := hpref 2 (by omega)
          simpa using this
        have hn0 : e0.hashVerify ≠ verifyKey hash := by
          intro hx
          exact (hnomatch 0 (by omega)) (by simp [he0, hx])
        have hn1 : e1.hashVerify ≠ verifyKey hash := by
          intro hx
          exact (hnomatch 1 (by omega)) (by simp [he1, hx])
        have hn2 : e2.hashVerify ≠ verifyKey hash := by
          intro hx
          exact (hnomatch 2 (by omega)) (by simp [he2, hx])
        rw [show ([e0, e1, e2, e3] : List TTEntry) = [e0, e1, e2] ++ e3 :: [] from rfl,
          show chooseSlot tt.generation depth bound (verifyKey hash)
              ([e0, e1, e2] ++ e3 :: []) =
            chooseSlotGo tt.generation depth bound (verifyKey hash)
              ([e0, e1, e2] ++ e3 :: []) 0 none from rfl,
          chooseSlotGo_empty _ _ _ _ [e0, e1, e2] e3 [] 0 none
            (by simp [he0, hn0, he1, hn1, he2, hn2]) hemp]
        rfl
    · intro hfull
      have he0 : e0.isEmpty = false := by simpa using hfull 0 (by omega)
      have he1 : e1.isEmpty = false := by simpa using hfull 1 (by omega)
      have he2 : e2.isEmpty = false := by simpa using hfull 2 (by omega)
      have he3 : e3.isEmpty = false := by simpa using hfull 3 (by omega)
      have hn0 : e0.hashVerify ≠ verifyKey hash := by
        intro hx
        exact (hnomatch 0 (by omega)) (by simp [he0, hx])
      have hn1 : e1.hashVerify ≠ verifyKey hash := by
        intro hx
        exact (hnomatch 1 (by omega)) (by simp [he1, hx])
      have hn2 : e2.hashVerify ≠ verifyKey hash := by
        intro hx
        exact (hnomatch 2 (by omega)) (by simp [he2, hx])
      have hn3 : e3.hashVerify ≠ verifyKey hash := by
        intro hx
        exact (hnomatch 3 (by omega)) (by simp [he3, hx])
      obtain ⟨j, hcj, hj4, hmin, hfirst⟩ :=
        chooseSlot_full tt.generation depth bound (verifyKey hash) e0 e1 e2 e3
          ⟨he0, hn0⟩ ⟨he1, hn1⟩ ⟨he2, hn2⟩ ⟨he3, hn3⟩
      refine ⟨j, hj4, ?_, hmin, hfirst⟩
      unfold storeCluster
      rw [hcj]

theorem claim_C5_witness :
    clusterOk4 emptyEntry emptyEntry emptyEntry emptyEntry ∧
    ((TranspositionTable.freshTT 0).store 7 5 3 TTBound.EXACT Move.null).clusters
        (clusterIndexOf (TranspositionTable.freshTT 0) 7) =
      storeCluster (TranspositionTable.freshTT 0).generation (verifyKey 7) 5 3
        TTBound.EXACT Move.null [emptyEntry, emptyEntry, emptyEntry, emptyEntry] :=
  ⟨by simp [clusterOk4, TTEntry.isEmpty, emptyEntry],
   (claim_C5_store_policy (TranspositionTable.freshTT 0) 7 5 3 TTBound.EXACT Move.null
      emptyEntry emptyEntry emptyEntry emptyEntry rfl
      (by simp [clusterOk4, TTEntry.isEmpty, emptyEntry])
      (by decide) (by decide)).2.2.2.1⟩

/-- Cleared tables establish the reachable-cluster invariant: every cluster
is four empty entries, and an all-empty cluster satisfies `clusterOk4`. -/
theorem clear_clusterOk (tt : TranspositionTable) (i : Nat) :
    tt.clear.clusters i = [emptyEntry, emptyEntry, emptyEntry, emptyEntry] ∧
    clusterOk4 emptyEntry emptyEntry emptyEntry emptyEntry :=
  ⟨rfl, by simp [clusterOk4, TTEntry.isEmpty, emptyEntry]⟩

/-! ## Castling emission (claim C3) -/

/-- The rank whose F/G (resp. D/C/B) squares `generateCastlingMoves`
inspects: `RANK_1` for White and `RANK_8` for Black, regardless of where
the king stands. -/
def homeRankOf (us : Color) : Nat := if us = Color.White then RANK_1 else RANK_8

def kingsideRightOf (us : Color) : Nat :=
  if us = Color.White then WHITE_KINGSIDE else BLACK_KINGSIDE

def queensideRightOf (us : Color) : Nat :=
  if us = Color.White then WHITE_QUEENSIDE else BLACK_QUEENSIDE

/-- The exact guard under which the short castling move is emitted. -/
def shortCastleOK (pos : Position) : Prop :=
  pos.kingSquare pos.sideToMove ≠ SQUARE_NONE ∧
  isInCheck pos pos.sideToMove = false ∧
  pos.castlingRights &&& kingsideRightOf pos.sideToMove ≠ 0 ∧
  testBit pos.occupied (makeSquare FILE_F (homeRankOf pos.sideToMove)) = false ∧
  testBit pos.occupied (makeSquare FILE_G (homeRankOf pos.sideToMove)) = false ∧
  isSquareAttacked pos (makeSquare FILE_F (homeRankOf pos.sideToMove))
    pos.sideToMove.other = false ∧
  isSquareAttacked pos (makeSquare FILE_G (homeRankOf pos.sideToMove))
    pos.sideToMove.other = false

/-- The exact guard under which the long castling move is emitted: the B
square must be empty but its attack status is never tested. -/
def longCastleOK (pos : Position) : Prop :=
  pos.kingSquare pos.sideToMove ≠ SQUARE_NONE ∧
  isInCheck pos pos.sideToMove = false ∧
  pos.castlingRights &&& queensideRightOf pos.sideToMove ≠ 0 ∧
  testBit pos.occupied (makeSquare FILE_D (homeRankOf pos.sideToMove)) = false ∧
  testBit pos.occupied (makeSquare FILE_C (homeRankOf pos.sideToMove)) = false ∧
  testBit pos.occupied (makeSquare FILE_B (homeRankOf pos.sideToMove)) = false ∧
  isSquareAttacked pos (makeSquare FILE_D (homeRankOf pos.sideToMove))
    pos.sideToMove.other = false ∧
  isSquareAttacked pos (makeSquare FILE_C (homeRankOf pos.sideToMove))
    pos.sideToMove.other = false

theorem mem_generateCastlingMoves (pos : Position) (m : Move) :
    m ∈ generateCastlingMoves pos ↔
      (shortCastleOK pos ∧ m = Move.makeCastling (pos.kingSquare pos.sideToMove)
          (makeSquare FILE_G (homeRankOf pos.sideToMove))) ∨
      (longCastleOK pos ∧ m = Move.makeCastling (pos.kingSquare pos.sideToMove)
          (makeSquare FILE_C (homeRankOf pos.sideToMove))) := by
  simp only [generateCastlingMoves, shortCastleOK, longCastleOK, homeRankOf,
    kingsideRightOf, queensideRightOf]
  split_ifs <;>
    simp_all [List.mem_append]

theorem pieceMoves_not_castling (pos : Position) (fromSq : Nat) (m : Move)
    (h : m ∈ generatePieceMoves pos fromSq) : m.type ≠ MoveType.Castling := by
  simp only [generatePieceMoves, serializeMoves, List.mem_append, List.mem_map] at h
  rcases h with ⟨s, _, rfl⟩ | ⟨s, _, rfl⟩ <;> simp [Move.mk2]

theorem pawnMoves_not_castling (pos : Position) (fromSq : Nat) :
    ∀ m ∈ generatePawnMoves pos fromSq, m.type ≠ MoveType.Castling := by
  simp only [generatePawnMoves, List.flatMap_cons, List.flatMap_nil, List.append_nil]
  rw [List.forall_mem_append]
  constructor
  · split_ifs <;>
      simp [List.forall_mem_cons, Move.makePromotion, Move.mk2]
  · split_ifs <;>
      simp [List.forall_mem_append, List.forall_mem_cons, Move.makePromotionCapture,
        Move.makeEnPassant, Move.mk2]

/-- A castling-typed move in the pseudo-legal list comes from
`generateCastlingMoves`: the pawn and piece generators never emit one. -/
theorem pseudo_castling_mem (pos : Position) (m : Move)
    (h : m ∈ generatePseudoLegalMoves pos) (ht : m.type = MoveType.Castling) :
    m ∈ generateCastlingMoves pos := by
  simp only [generatePseudoLegalMoves, List.mem_append, List.mem_flatMap] at h
  rcases h with ⟨sq, _, hm⟩ | h
  · by_cases hp : (pos.pieceAt sq).type = PieceType.Pawn
    · rw [if_pos hp] at hm
      exact absurd ht (pawnMoves_not_castling pos sq m hm)
    · rw [if_neg hp] at hm
      exact absurd ht (pieceMoves_not_castling pos sq m hm)
  · exact h

theorem castling_mem_pseudo (pos : Position) (m : Move)
    (h : m ∈ generateCastlingMoves pos) : m ∈ generatePseudoLegalMoves pos := by
  simp only [generatePseudoLegalMoves, List.mem_append]
  exact Or.inr h

theorem gFile_ne_cFile (us : Color) :
    makeSquare FILE_G (homeRankOf us) ≠ makeSquare FILE_C (homeRankOf us) := by
  cases us <;> decide

/-- White king on e5 (square 36, rank 4), white pawn on f5 (square 37),
black king on a8, White to move with the white kingside right set. -/
def c3pos : Position :=
  mkPosition Tables.trivialT
    [(36, ⟨PieceType.King, Color.White⟩), (37, ⟨PieceType.Pawn, Color.White⟩),
     (56, ⟨PieceType.King, Color.Black⟩)]
    Color.White WHITE_KINGSIDE SQUARE_NONE 0 1

/-- Claim C3 counterexample: `generatePseudoLegalMoves` emits the short
castling move (to g1, square 6) although the F square of the king's rank
(f5, square 37) is occupied — the generator checks the F and G squares of
the color's home rank, not of the king's rank, so the claim's "exactly
when" biconditional fails. -/
theorem claim_C3_counterexample :
    Move.makeCastling 36 6 ∈ generatePseudoLegalMoves c3pos ∧
    getRank (c3pos.kingSquare c3pos.sideToMove) = 4 ∧
    testBit c3pos.occupied (makeSquare FILE_F 4) = true := by decide

/-- Claim C3 (amended): every castling-typed move in the pseudo-legal list
is the king-to-G or king-to-C move of the side's home rank (rank 1 for
White, rank 8 for Black) from the king's current square, and each of those
two moves is emitted exactly when the side's king exists, the side is not
in check, the matching right is present, the relevant home-rank squares
(F,G kingside; D,C,B queenside) are empty, and the squares the king would
traverse on the home rank (F,G resp. D,C — never B) are unattacked; the
king's own rank is never consulted. -/
theorem claim_C3_amended (pos : Position) :
    (∀ m, m ∈ generatePseudoLegalMoves pos → m.type = MoveType.Castling →
        m = Move.makeCastling (pos.kingSquare pos.sideToMove)
              (makeSquare FILE_G (homeRankOf pos.sideToMove)) ∨
        m = Move.makeCastling (pos.kingSquare pos.sideToMove)
              (makeSquare FILE_C (homeRankOf pos.sideToMove))) ∧
    (Move.makeCastling (pos.kingSquare pos.sideToMove)
        (makeSquare FILE_G (homeRankOf pos.sideToMove)) ∈ generatePseudoLegalMoves pos ↔
      shortCastleOK pos) ∧
    (Move.makeCastling (pos.kingSquare pos.sideToMove)
        (makeSquare FILE_C (homeRankOf pos.sideToMove)) ∈ generatePseudoLegalMoves pos ↔
      longCastleOK pos) := by
  refine ⟨?_, ⟨?_, ?_⟩, ⟨?_, ?_⟩⟩
  · intro m hm ht
    rcases (mem_generateCastlingMoves pos m).1 (pseudo_castling_mem pos m hm ht) with
      ⟨_, rfl⟩ | ⟨_, rfl⟩
    · exact Or.inl rfl
    · exact Or.inr rfl
  · intro hm
    rcases (mem_generateCastlingMoves pos _).1 (pseudo_castling_mem pos _ hm rfl) with
      ⟨hs, _⟩ | ⟨_, he⟩
    · exact hs
    · have : makeSquare FILE_G (homeRankOf pos.sideToMove) =
          makeSquare FILE_C (homeRankOf pos.sideToMove) := congrArg Move.toSq he
      exact absurd this (gFile_ne_cFile pos.sideToMove)
  · intro hs
    exact castling_mem_pseudo pos _
      ((mem_generateCastlingMoves pos _).2 (Or.inl ⟨hs, rfl⟩))
  · intro hm
    rcases (mem_generateCastlingMoves pos _).1 (pseudo_castling_mem pos _ hm rfl) with
      ⟨_, he⟩ | ⟨hl, _⟩
    · have : makeSquare FILE_C (homeRankOf pos.sideToMove) =
          makeSquare FILE_G (homeRankOf pos.sideToMove) := congrArg Move.toSq he
      exact absurd this.symm (gFile_ne_cFile pos.sideToMove)
    · exact hl
  · intro hl
    exact castling_mem_pseudo pos _
      ((mem_generateCastlingMoves pos _).2 (Or.inr ⟨hl, rfl⟩))

/-- White king on e1, black king on a8, white kingside right set: the
short castling guard holds. -/
def c3wpos : Position :=
  mkPosition Tables.trivialT
    [(4, ⟨PieceType.King, Color.White⟩), (56, ⟨PieceType.King, Color.Black⟩)]
    Color.White WHITE_KINGSIDE SQUARE_NONE 0 1

theorem claim_C3_witness :
    shortCastleOK c3wpos ∧
    Move.makeCastling (c3wpos.kingSquare c3wpos.sideToMove)
        (makeSquare FILE_G (homeRankOf c3wpos.sideToMove)) ∈
      generatePseudoLegalMoves c3wpos :=
  ⟨by unfold shortCastleOK; decide, (claim_C3_amended c3wpos).2.1.mpr (by unfold shortCastleOK; decide)⟩

/-! ## Make/unmake restoration and the data-model invariants
(claims C1, C2, C9) -/

theorem posEqOfFields (a b : Position)
    (h1 : a.board = b.board) (h2 : a.pieceBB = b.pieceBB)
    (h3 : a.colorBB = b.colorBB) (h4 : a.occupied = b.occupied)
    (h5 : a.kingSquare = b.kingSquare) (h6 : a.psqt = b.psqt)
    (h7 : a.sideToMove = b.sideToMove) (h8 : a.castlingRights = b.castlingRights)
    (h9 : a.enPassantSquare = b.enPassantSquare)
    (h10 : a.halfmoveClock = b.halfmoveClock)
    (h11 : a.fullmoveNumber = b.fullmoveNumber) (h12 : a.hash = b.hash) : a = b := by
  cases a
  cases b
  simp_all

theorem scoreEqOfFields (a b : Score) (h1 : a.mg = b.mg) (h2 : a.eg = b.eg) : a = b := by
  cases a
  cases b
  simp_all

theorem Score.add_def (a b : Score) : a + b = ⟨a.mg + b.mg, a.eg + b.eg⟩ := rfl

theorem Score.sub_def (a b : Score) : a - b = ⟨a.mg - b.mg, a.eg - b.eg⟩ := rfl

theorem Color.other_other (c : Color) : c.other.other = c := by
  cases c <;> rfl

theorem xor_left_comm (a b c : Nat) : a ^^^ (b ^^^ c) = b ^^^ (a ^^^ c) := by
  rw [← Nat.xor_assoc, Nat.xor_comm a b, Nat.xor_assoc]

theorem xor_cancel_l (a b : Nat) : a ^^^ (a ^^^ b) = b := by
  rw [← Nat.xor_assoc, Nat.xor_self, Nat.zero_xor]

theorem unmake_occ (T : Tables) (pos : Position) (m : Move) (undo : UndoInfo) :
    (pos.unmakeMove T m undo).occupied =
      (pos.unmakeMove T m undo).colorBB Color.White |||
        (pos.unmakeMove T m undo).colorBB Color.Black := by
  simp only [Position.unmakeMove, Position.updateOccupied,
    apply_ite Position.occupied, apply_ite Position.colorBB, ite_self]


/-! Bridges between the engine bit operations and `Nat.testBit`. -/

theorem squareBB_eq_pow (sq : Nat) : squareBB sq = 2 ^ sq := by
  simp [squareBB, Nat.shiftLeft_eq]

theorem testBit_eq (b sq : Nat) : testBit b sq = Nat.testBit b sq := by
  have h2 : (2 : Nat) ^ sq ≠ 0 := pow_ne_zero sq (by norm_num)
  rw [testBit, squareBB_eq_pow]
  rcases h : Nat.testBit b sq with _ | _
  · simp [Nat.and_two_pow, h]
  · simp [Nat.and_two_pow, h, h2]

theorem getFile_lt (sq : Nat) : getFile sq < 8 := by
  rw [getFile_eq_mod]
  omega

theorem getFile_makeSquare (f r : Nat) (hf : f < 8) : getFile (makeSquare f r) = f := by
  rw [getFile_eq_mod, makeSquare_eq f r hf]
  omega

theorem getRank_makeSquare (f r : Nat) (hf : f < 8) : getRank (makeSquare f r) = r := by
  rw [getRank_eq_div, makeSquare_eq f r hf]
  omega

theorem makeSquare_lt (f r : Nat) (hf : f < 8) (hr : r < 8) : makeSquare f r < 64 := by
  rw [makeSquare_eq f r hf]
  omega


theorem makeSquare_lt_iff (f r : Nat) (hf : f < 8) : makeSquare f r < 64 ↔ r < 8 := by
  rw [makeSquare_eq f r hf]
  omega

theorem mem_squaresOf (b sq : Nat) :
    sq ∈ squaresOf b ↔ sq < 64 ∧ testBit b sq = true := by
  simp [squaresOf, List.mem_filter, List.mem_range]

theorem testBit_and (a b sq : Nat) :
    testBit (a &&& b) sq = (testBit a sq && testBit b sq) := by
  simp [testBit_eq, Nat.testBit_and]

theorem testBit_xor (a b sq : Nat) :
    testBit (a ^^^ b) sq = (testBit a sq).xor (testBit b sq) := by
  simp [testBit_eq, Nat.testBit_xor]

theorem testBit_or (a b sq : Nat) :
    testBit (a ||| b) sq = (testBit a sq || testBit b sq) := by
  simp [testBit_eq, Nat.testBit_or]

theorem testBit_bbNot (b sq : Nat) (h : sq < 64) :
    testBit (bbNot b) sq = !(testBit b sq) := by
  simp only [bbNot, BB_ALL, testBit_eq, Nat.testBit_xor]
  rw [Nat.testBit_two_pow_sub_one]
  simp [h]

/-! The data-model invariants of `Position` (spec section on the Position
data model), phrased per square over the redundant representations. -/

structure Inv (pos : Position) : Prop where
  occ_union : pos.occupied = pos.colorBB Color.White ||| pos.colorBB Color.Black
  stm_ok : pos.sideToMove = Color.White ∨ pos.sideToMove = Color.Black
  sync_type : ∀ sq, sq < 64 → ∀ pt, (testBit (pos.pieceBB pt) sq = true ↔
    ((pos.board sq).type = pt ∧ pt ≠ PieceType.None))
  sync_color : ∀ sq, sq < 64 → ∀ c, (testBit (pos.colorBB c) sq = true ↔
    ((pos.board sq).color = c ∧ (pos.board sq).type ≠ PieceType.None))
  board_empty : ∀ sq, sq < 64 → (pos.board sq).type = PieceType.None →
    pos.board sq = Piece.empty
  board_color : ∀ sq, sq < 64 → (pos.board sq).type ≠ PieceType.None →
    (pos.board sq).color = Color.White ∨ (pos.board sq).color = Color.Black
  king_eq : ∀ sq, sq < 64 → ∀ c, pos.board sq = Piece.mk PieceType.King c →
    pos.kingSquare c = sq
  king_at : ∀ c, c = Color.White ∨ c = Color.Black →
    pos.kingSquare c < 64 ∧ pos.board (pos.kingSquare c) = Piece.mk PieceType.King c
  pbb_lt : ∀ pt, pos.pieceBB pt < 2 ^ 64
  cbb_lt : ∀ c, pos.colorBB c < 2 ^ 64

theorem Inv.board_of_color {pos : Position} (hInv : Inv pos) {sq : Nat} (h : sq < 64)
    {c : Color} (hb : testBit (pos.colorBB c) sq = true) :
    (pos.board sq).color = c ∧ (pos.board sq).type ≠ PieceType.None :=
  (hInv.sync_color sq h c).1 hb

theorem Inv.empty_of_not_colors {pos : Position} (hInv : Inv pos) {sq : Nat}
    (h : sq < 64) (hW : testBit (pos.colorBB Color.White) sq = false)
    (hB : testBit (pos.colorBB Color.Black) sq = false) :
    pos.board sq = Piece.empty := by
  by_cases ht : (pos.board sq).type = PieceType.None
  · exact hInv.board_empty sq h ht
  · rcases hInv.board_color sq h ht with hc | hc
    · have := (hInv.sync_color sq h Color.White).2 ⟨hc, ht⟩
      rw [hW] at this
      cases this
    · have := (hInv.sync_color sq h Color.Black).2 ⟨hc, ht⟩
      rw [hB] at this
      cases this

theorem Inv.empty_of_not_occ {pos : Position} (hInv : Inv pos) {sq : Nat}
    (h : sq < 64) (ho : testBit pos.occupied sq = false) :
    pos.board sq = Piece.empty := by
  rw [hInv.occ_union, testBit_or, Bool.or_eq_false_iff] at ho
  exact hInv.empty_of_not_colors h ho.1 ho.2

theorem serializeMoves_facts (fromSq targets enemies : Nat) (m : Move)
    (h : m ∈ serializeMoves fromSq targets enemies) :
    m.fromSq = fromSq ∧ m.toSq < 64 ∧ m.promotion = PieceType.None ∧
    testBit targets m.toSq = true ∧
    ((m.type = MoveType.Capture ∧ testBit enemies m.toSq = true) ∨
      (m.type = MoveType.Normal ∧ testBit enemies m.toSq = false)) := by
  simp only [serializeMoves, List.mem_append, List.mem_map] at h
  rcases h with ⟨s, hs, rfl⟩ | ⟨s, hs, rfl⟩
  · rw [mem_squaresOf] at hs
    have hb := hs.2
    rw [testBit_and, Bool.and_eq_true] at hb
    exact ⟨rfl, hs.1, rfl, hb.1, Or.inl ⟨rfl, hb.2⟩⟩
  · rw [mem_squaresOf] at hs
    have hb := hs.2
    rw [testBit_xor, testBit_and] at hb
    have hpair : testBit targets s = true ∧ testBit enemies s = false := by
      cases ht : testBit targets s <;> cases he : testBit enemies s <;>
        simp [ht, he] at hb ⊢
    exact ⟨rfl, hs.1, rfl, hpair.1, Or.inr ⟨rfl, hpair.2⟩⟩

theorem pieceMoves_facts (pos : Position) (fromSq : Nat) (m : Move)
    (h : m ∈ generatePieceMoves pos fromSq) :
    m.fromSq = fromSq ∧ m.toSq < 64 ∧ m.promotion = PieceType.None ∧
    testBit (pos.colorBB (pos.board fromSq).color) m.toSq = false ∧
    ((m.type = MoveType.Capture ∧
        testBit (pos.colorBB (pos.board fromSq).color.other) m.toSq = true) ∨
      (m.type = MoveType.Normal ∧
        testBit (pos.colorBB (pos.board fromSq).color.other) m.toSq = false)) := by
  have hf := serializeMoves_facts _ _ _ m h
  rcases hf with ⟨h1, h2, h3, htg, hd⟩
  rw [testBit_and, Bool.and_eq_true] at htg
  have hown := htg.2
  rw [testBit_bbNot _ _ h2, Bool.not_eq_true'] at hown
  exact ⟨h1, h2, h3, hown, hd⟩

theorem getRank_lt8 (sq : Nat) (h : sq < 64) : getRank sq < 8 := by
  rw [getRank_eq_div]
  omega

theorem capSide_facts (pos : Position) (fromSq : Nat) (enemies : Nat) (f r : Int) (pr : Nat)
    (hr : 0 ≤ r ∧ r ≤ 7)
    (hfne : 0 ≤ f → f ≤ 7 → f.toNat ≠ getFile fromSq) :
    ∀ m ∈ (if 0 ≤ f ∧ f ≤ 7 then
        ((if testBit enemies
              (makeSquare f.toNat r.toNat) = true then
            (if r.toNat = pr then
              [Move.makePromotionCapture fromSq (makeSquare f.toNat r.toNat) PieceType.Queen,
               Move.makePromotionCapture fromSq (makeSquare f.toNat r.toNat) PieceType.Rook,
               Move.makePromotionCapture fromSq (makeSquare f.toNat r.toNat) PieceType.Bishop,
               Move.makePromotionCapture fromSq (makeSquare f.toNat r.toNat) PieceType.Knight]
             else [Move.mk2 fromSq (makeSquare f.toNat r.toNat) MoveType.Capture])
          else []) ++
         (if makeSquare f.toNat r.toNat = pos.enPassantSquare then
            [Move.makeEnPassant fromSq (makeSquare f.toNat r.toNat)] else []))
      else []),
      m.fromSq = fromSq ∧ m.toSq < 64 ∧
      ((m.type = MoveType.Normal ∨ m.type = MoveType.Promotion) →
        testBit pos.occupied m.toSq = false ∧ getFile m.toSq = getFile fromSq ∧
        getRank m.toSq ≠ getRank fromSq) ∧
      ((m.type = MoveType.Capture ∨ m.type = MoveType.PromotionCapture) →
        testBit enemies m.toSq = true) ∧
      (m.type = MoveType.EnPassant →
        getFile m.toSq < 8 ∧ getRank m.toSq < 8 ∧ getFile m.toSq ≠ getFile fromSq ∧
        (getRank m.toSq : Int) = r) := by
  by_cases hfrange : 0 ≤ f ∧ f ≤ 7
  · rw [if_pos hfrange]
    have hf8 : f.toNat < 8 := by omega
    have hr8 : r.toNat < 8 := by omega
    have hlt : makeSquare f.toNat r.toNat < 64 := makeSquare_lt _ _ hf8 hr8
    intro m hm
    rw [List.mem_append] at hm
    rcases hm with hm | hm
    · by_cases he : testBit enemies
          (makeSquare f.toNat r.toNat) = true
      · rw [if_pos he] at hm
        by_cases hpr : r.toNat = pr
        · rw [if_pos hpr] at hm
          simp only [List.mem_cons, List.not_mem_nil, or_false] at hm
          rcases hm with rfl | rfl | rfl | rfl <;>
            exact ⟨rfl, hlt, by simp [Move.makePromotionCapture],
              fun _ => he, by simp [Move.makePromotionCapture]⟩
        · rw [if_neg hpr] at hm
          simp only [List.mem_cons, List.not_mem_nil, or_false] at hm
          subst hm
          exact ⟨rfl, hlt, by simp [Move.mk2], fun _ => he, by simp [Move.mk2]⟩
      · rw [if_neg he] at hm
        cases hm
    · by_cases hep : makeSquare f.toNat r.toNat = pos.enPassantSquare
      · rw [if_pos hep] at hm
        simp only [List.mem_cons, List.not_mem_nil, or_false] at hm
        subst hm
        refine ⟨rfl, hlt, by simp [Move.makeEnPassant], by simp [Move.makeEnPassant], ?_⟩
        intro _
        simp only [Move.makeEnPassant]
        refine ⟨getFile_lt _, getRank_lt8 _ hlt, ?_, ?_⟩
        · rw [getFile_makeSquare _ _ hf8]
          exact hfne hfrange.1 hfrange.2
        · rw [getRank_makeSquare _ _ hf8]
          omega
      · rw [if_neg hep] at hm
        cases hm
  · rw [if_neg hfrange]
    intro m hm
    cases hm

theorem pawnMoves_facts (pos : Position) (fromSq : Nat) :
    ∀ m ∈ generatePawnMoves pos fromSq,
      m.fromSq = fromSq ∧ m.toSq < 64 ∧
      ((m.type = MoveType.Normal ∨ m.type = MoveType.Promotion) →
        testBit pos.occupied m.toSq = false ∧ getFile m.toSq = getFile fromSq ∧
        getRank m.toSq ≠ getRank fromSq) ∧
      ((m.type = MoveType.Capture ∨ m.type = MoveType.PromotionCapture) →
        testBit (pos.colorBB (pos.board fromSq).color.other) m.toSq = true) ∧
      (m.type = MoveType.EnPassant →
        getFile m.toSq < 8 ∧ getRank m.toSq < 8 ∧ getFile m.toSq ≠ getFile fromSq ∧
        (getRank m.toSq : Int) = (getRank fromSq : Int) +
          (if (pos.board fromSq).color = Color.White then 1 else -1)) := by
  simp only [generatePawnMoves, Position.pieceAt, Position.piecesC,
    List.flatMap_cons, List.flatMap_nil, List.append_nil]
  rw [List.forall_mem_append]
  constructor
  · split_ifs <;>
      simp_all [List.forall_mem_cons, Move.makePromotion, Move.mk2,
        getFile_makeSquare, getRank_makeSquare, makeSquare_lt, makeSquare_lt_iff,
        getFile_lt, RANK_1, RANK_2, RANK_7, RANK_8] <;>
      first
        | omega
        | (refine ⟨by omega, ?_, by omega⟩
           have h0 : ((getRank fromSq : Int) + -1).toNat = 0 := by omega
           rw [h0]
           assumption)
  · by_cases hw : (pos.board fromSq).color = Color.White
    · simp only [hw, if_true, ite_true]
      by_cases hcr : ((0 : Int) ≤ (getRank fromSq : Int) + 1 ∧ (getRank fromSq : Int) + 1 ≤ 7)
      · rw [if_pos hcr, List.forall_mem_append]
        refine ⟨capSide_facts pos fromSq _ _ _ _ hcr ?_,
          capSide_facts pos fromSq _ _ _ _ hcr ?_⟩ <;>
          · intro h1 h2
            omega
      · rw [if_neg hcr]
        intro m hm
        cases hm
    · simp only [hw, if_false, ite_false]
      by_cases hcr : ((0 : Int) ≤ (getRank fromSq : Int) + -1 ∧ (getRank fromSq : Int) + -1 ≤ 7)
      · rw [if_pos hcr, List.forall_mem_append]
        refine ⟨capSide_facts pos fromSq _ _ _ _ hcr ?_,
          capSide_facts pos fromSq _ _ _ _ hcr ?_⟩ <;>
          · intro h1 h2
            omega
      · rw [if_neg hcr]
        intro m hm
        cases hm
theorem restore_quiet (T : Tables) (pos : Position) (m : Move)
    (hty : m.type = MoveType.Normal)
    (hne : m.fromSq ≠ m.toSq)
    (hto : pos.board m.toSq = Piece.empty)
    (hks : (pos.board m.fromSq).type = PieceType.King →
      pos.kingSquare pos.sideToMove = m.fromSq)
    (hocc : pos.occupied = pos.colorBB Color.White ||| pos.colorBB Color.Black) :
    ((pos.makeMove T m).1).unmakeMove T m (pos.makeMove T m).2 = pos := by
  have hcast : m.isCastling = false := by simp [Move.isCastling, hty]
  have hep : m.isEnPassant = false := by simp [Move.isEnPassant, hty]
  have hcap : m.isCapture = false := by simp [Move.isCapture, hty]
  have hprom : m.isPromotion = false := by simp [Move.isPromotion, hty]
  have hne2 : ¬(m.toSq = m.fromSq) := fun h => hne h.symm
  have hcapty : (pos.board m.toSq).type = PieceType.None := by rw [hto]; rfl
  refine posEqOfFields _ _ ?_ ?_ ?_ ?_ ?_ ?_ ?_ ?_ ?_ ?_ ?_ ?_ <;>
    simp only [Position.makeMove, Position.unmakeMove, Position.movePieceBB,
      Position.removePieceBB, Position.putPieceBB, Position.updateOccupied,
      Position.setHash, hcast, hep, hcap, hprom, hcapty, hne2, Bool.false_eq_true,
      if_false, ite_true, ite_false, ne_eq, not_true, not_false_iff,
      apply_ite Position.board, apply_ite Position.pieceBB, apply_ite Position.colorBB,
      apply_ite Position.occupied, apply_ite Position.kingSquare,
      apply_ite Position.psqt, apply_ite Position.sideToMove,
      apply_ite Position.castlingRights, apply_ite Position.enPassantSquare,
      apply_ite Position.halfmoveClock, apply_ite Position.fullmoveNumber,
      apply_ite Position.hash, apply_ite Prod.fst, apply_ite Prod.snd, ite_self,
      Color.other_other]
  · funext s
    by_cases h1 : s = m.toSq
    · subst h1
      simp [hne2, hto]
    · by_cases h2 : s = m.fromSq
      · subst h2
        simp [hne2, h1]
      · simp [h1, h2]
  · funext p
    by_cases h1 : p = (pos.board m.fromSq).type
    · rw [if_pos h1, if_pos h1, Nat.or_comm (squareBB m.toSq), Nat.xor_cancel_right]
    · rw [if_neg h1, if_neg h1]
  · funext cc
    by_cases h1 : cc = pos.sideToMove
    · rw [if_pos h1, if_pos h1, Nat.or_comm (squareBB m.toSq), Nat.xor_cancel_right]
    · rw [if_neg h1, if_neg h1]
  · have hcc : ∀ cc : Color,
        ((if cc = pos.sideToMove then
            (if cc = pos.sideToMove then
              pos.colorBB cc ^^^ (squareBB m.fromSq ||| squareBB m.toSq)
             else pos.colorBB cc) ^^^ (squareBB m.toSq ||| squareBB m.fromSq)
          else
            if cc = pos.sideToMove then
              pos.colorBB cc ^^^ (squareBB m.fromSq ||| squareBB m.toSq)
            else pos.colorBB cc)) = pos.colorBB cc := by
      intro cc
      by_cases hc : cc = pos.sideToMove
      · rw [if_pos hc, if_pos hc, Nat.or_comm (squareBB m.toSq), Nat.xor_cancel_right]
      · rw [if_neg hc, if_neg hc]
    rw [hcc, hcc, hocc]
  · by_cases hk : (pos.board m.fromSq).type = PieceType.King
    · rw [if_pos hk, if_pos hk]
      funext c
      by_cases hc : c = pos.sideToMove
      · simp [hc, hks hk]
      · simp [hc]
    · rw [if_neg hk, if_neg hk]
  · apply scoreEqOfFields <;> simp [Score.add_def, Score.sub_def]
  · by_cases hb : pos.sideToMove = Color.Black <;> simp [hb]

theorem restore_capture (T : Tables) (pos : Position) (m : Move)
    (hty : m.type = MoveType.Capture)
    (hne : m.fromSq ≠ m.toSq)
    (hvc : (pos.board m.toSq).color = pos.sideToMove.other)
    (hvt : (pos.board m.toSq).type ≠ PieceType.None)
    (hks : (pos.board m.fromSq).type = PieceType.King →
      pos.kingSquare pos.sideToMove = m.fromSq)
    (hocc : pos.occupied = pos.colorBB Color.White ||| pos.colorBB Color.Black) :
    ((pos.makeMove T m).1).unmakeMove T m (pos.makeMove T m).2 = pos := by
  have hcast : m.isCastling = false := by simp [Move.isCastling, hty]
  have hepf : m.isEnPassant = false := by simp [Move.isEnPassant, hty]
  have hcap : m.isCapture = true := by simp [Move.isCapture, hty]
  have hprom : m.isPromotion = false := by simp [Move.isPromotion, hty]
  have hne2 : ¬(m.toSq = m.fromSq) := fun h => hne h.symm
  have hcolor : ((pos.makeMove T m).1.unmakeMove T m (pos.makeMove T m).2).colorBB =
      pos.colorBB := by
    simp only [Position.makeMove, Position.unmakeMove, Position.movePieceBB,
      Position.removePieceBB, Position.putPieceBB, Position.updateOccupied,
      Position.setHash, hcast, hepf, hcap, hprom, hvt, hne, hne2, Bool.false_eq_true,
      Bool.true_eq_false, if_false, if_true, ite_true, ite_false, ne_eq, not_true,
      not_false_iff,
      apply_ite Position.board, apply_ite Position.pieceBB, apply_ite Position.colorBB,
      apply_ite Position.occupied, apply_ite Position.kingSquare,
      apply_ite Position.psqt, apply_ite Position.sideToMove,
      apply_ite Position.castlingRights, apply_ite Position.enPassantSquare,
      apply_ite Position.halfmoveClock, apply_ite Position.fullmoveNumber,
      apply_ite Position.hash, apply_ite Prod.fst, apply_ite Prod.snd, ite_self,
      Color.other_other]
    funext cc
    by_cases h1 : cc = pos.sideToMove.other
    · subst h1
      by_cases h2 : pos.sideToMove.other = pos.sideToMove <;>
        simp [h2, Nat.or_comm, Nat.xor_assoc, Nat.xor_comm, xor_left_comm,
        xor_cancel_l, Nat.xor_cancel_right, Nat.xor_self, Nat.xor_zero, Nat.zero_xor]
    · by_cases h2 : cc = pos.sideToMove
      · subst h2
        simp [h1, Nat.or_comm, Nat.xor_assoc, Nat.xor_comm, xor_left_comm,
        xor_cancel_l, Nat.xor_cancel_right, Nat.xor_self, Nat.xor_zero, Nat.zero_xor]
      · simp [h1, h2]
  refine posEqOfFields _ _ ?_ ?_ hcolor ?_ ?_ ?_ ?_ ?_ ?_ ?_ ?_ ?_
  · simp only [Position.makeMove, Position.unmakeMove, Position.movePieceBB,
      Position.removePieceBB, Position.putPieceBB, Position.updateOccupied,
      Position.setHash, hcast, hepf, hcap, hprom, hvt, hne, hne2, Bool.false_eq_true,
      Bool.true_eq_false, if_false, if_true, ite_true, ite_false, ne_eq, not_true,
      not_false_iff,
      apply_ite Position.board, apply_ite Position.pieceBB, apply_ite Position.colorBB,
      apply_ite Position.occupied, apply_ite Position.kingSquare,
      apply_ite Position.psqt, apply_ite Position.sideToMove,
      apply_ite Position.castlingRights, apply_ite Position.enPassantSquare,
      apply_ite Position.halfmoveClock, apply_ite Position.fullmoveNumber,
      apply_ite Position.hash, apply_ite Prod.fst, apply_ite Prod.snd, ite_self,
      Color.other_other]
    funext s
    by_cases h1 : s = m.toSq
    · subst h1
      simp [hne, hne2, ← hvc]
    · by_cases h2 : s = m.fromSq
      · subst h2
        simp [hne, hne2, h1]
      · simp [h1, h2]
  · simp only [Position.makeMove, Position.unmakeMove, Position.movePieceBB,
      Position.removePieceBB, Position.putPieceBB, Position.updateOccupied,
      Position.setHash, hcast, hepf, hcap, hprom, hvt, hne, hne2, Bool.false_eq_true,
      Bool.true_eq_false, if_false, if_true, ite_true, ite_false, ne_eq, not_true,
      not_false_iff,
      apply_ite Position.board, apply_ite Position.pieceBB, apply_ite Position.colorBB,
      apply_ite Position.occupied, apply_ite Position.kingSquare,
      apply_ite Position.psqt, apply_ite Position.sideToMove,
      apply_ite Position.castlingRights, apply_ite Position.enPassantSquare,
      apply_ite Position.halfmoveClock, apply_ite Position.fullmoveNumber,
      apply_ite Position.hash, apply_ite Prod.fst, apply_ite Prod.snd, ite_self,
      Color.other_other]
    funext p
    by_cases h1 : p = (pos.board m.toSq).type
    · subst h1
      by_cases h2 : (pos.board m.toSq).type = (pos.board m.fromSq).type <;>
        simp [h2, Nat.or_comm, Nat.xor_assoc, Nat.xor_comm, xor_left_comm,
        xor_cancel_l, Nat.xor_cancel_right, Nat.xor_self, Nat.xor_zero, Nat.zero_xor]
    · by_cases h2 : p = (pos.board m.fromSq).type
      · subst h2
        simp [h1, Nat.or_comm, Nat.xor_assoc, Nat.xor_comm, xor_left_comm,
        xor_cancel_l, Nat.xor_cancel_right, Nat.xor_self, Nat.xor_zero, Nat.zero_xor]
      · simp [h1, h2]
  · rw [unmake_occ, hcolor, hocc]
  · simp only [Position.makeMove, Position.unmakeMove, Position.movePieceBB,
      Position.removePieceBB, Position.putPieceBB, Position.updateOccupied,
      Position.setHash, hcast, hepf, hcap, hprom, hvt, hne, hne2, Bool.false_eq_true,
      Bool.true_eq_false, if_false, if_true, ite_true, ite_false, ne_eq, not_true,
      not_false_iff,
      apply_ite Position.board, apply_ite Position.pieceBB, apply_ite Position.colorBB,
      apply_ite Position.occupied, apply_ite Position.kingSquare,
      apply_ite Position.psqt, apply_ite Position.sideToMove,
      apply_ite Position.castlingRights, apply_ite Position.enPassantSquare,
      apply_ite Position.halfmoveClock, apply_ite Position.fullmoveNumber,
      apply_ite Position.hash, apply_ite Prod.fst, apply_ite Prod.snd, ite_self,
      Color.other_other]
    by_cases hk : (pos.board m.fromSq).type = PieceType.King
    · rw [if_pos hk, if_pos hk]
      funext c
      by_cases hc : c = pos.sideToMove
      · simp [hc, hks hk]
      · simp [hc]
    · rw [if_neg hk, if_neg hk]
  · simp only [Position.makeMove, Position.unmakeMove, Position.movePieceBB,
      Position.removePieceBB, Position.putPieceBB, Position.updateOccupied,
      Position.setHash, hcast, hepf, hcap, hprom, hvt, hne, hne2, Bool.false_eq_true,
      Bool.true_eq_false, if_false, if_true, ite_true, ite_false, ne_eq, not_true,
      not_false_iff,
      apply_ite Position.board, apply_ite Position.pieceBB, apply_ite Position.colorBB,
      apply_ite Position.occupied, apply_ite Position.kingSquare,
      apply_ite Position.psqt, apply_ite Position.sideToMove,
      apply_ite Position.castlingRights, apply_ite Position.enPassantSquare,
      apply_ite Position.halfmoveClock, apply_ite Position.fullmoveNumber,
      apply_ite Position.hash, apply_ite Prod.fst, apply_ite Prod.snd, ite_self,
      Color.other_other]
    apply scoreEqOfFields <;> simp [Score.add_def, Score.sub_def]
  · simp only [Position.makeMove, Position.unmakeMove, Position.movePieceBB,
      Position.removePieceBB, Position.putPieceBB, Position.updateOccupied,
      Position.setHash, hcast, hepf, hcap, hprom, hvt, hne, hne2, Bool.false_eq_true,
      Bool.true_eq_false, if_false, if_true, ite_true, ite_false, ne_eq, not_true,
      not_false_iff,
      apply_ite Position.board, apply_ite Position.pieceBB, apply_ite Position.colorBB,
      apply_ite Position.occupied, apply_ite Position.kingSquare,
      apply_ite Position.psqt, apply_ite Position.sideToMove,
      apply_ite Position.castlingRights, apply_ite Position.enPassantSquare,
      apply_ite Position.halfmoveClock, apply_ite Position.fullmoveNumber,
      apply_ite Position.hash, apply_ite Prod.fst, apply_ite Prod.snd, ite_self,
      Color.other_other]
  · simp only [Position.makeMove, Position.unmakeMove, Position.movePieceBB,
      Position.removePieceBB, Position.putPieceBB, Position.updateOccupied,
      Position.setHash, hcast, hepf, hcap, hprom, hvt, hne, hne2, Bool.false_eq_true,
      Bool.true_eq_false, if_false, if_true, ite_true, ite_false, ne_eq, not_true,
      not_false_iff,
      apply_ite Position.board, apply_ite Position.pieceBB, apply_ite Position.colorBB,
      apply_ite Position.occupied, apply_ite Position.kingSquare,
      apply_ite Position.psqt, apply_ite Position.sideToMove,
      apply_ite Position.castlingRights, apply_ite Position.enPassantSquare,
      apply_ite Position.halfmoveClock, apply_ite Position.fullmoveNumber,
      apply_ite Position.hash, apply_ite Prod.fst, apply_ite Prod.snd, ite_self,
      Color.other_other]
  · simp only [Position.makeMove, Position.unmakeMove, Position.movePieceBB,
      Position.removePieceBB, Position.putPieceBB, Position.updateOccupied,
      Position.setHash, hcast, hepf, hcap, hprom, hvt, hne, hne2, Bool.false_eq_true,
      Bool.true_eq_false, if_false, if_true, ite_true, ite_false, ne_eq, not_true,
      not_false_iff,
      apply_ite Position.board, apply_ite Position.pieceBB, apply_ite Position.colorBB,
      apply_ite Position.occupied, apply_ite Position.kingSquare,
      apply_ite Position.psqt, apply_ite Position.sideToMove,
      apply_ite Position.castlingRights, apply_ite Position.enPassantSquare,
      apply_ite Position.halfmoveClock, apply_ite Position.fullmoveNumber,
      apply_ite Position.hash, apply_ite Prod.fst, apply_ite Prod.snd, ite_self,
      Color.other_other]
  · simp only [Position.makeMove, Position.unmakeMove, Position.movePieceBB,
      Position.removePieceBB, Position.putPieceBB, Position.updateOccupied,
      Position.setHash, hcast, hepf, hcap, hprom, hvt, hne, hne2, Bool.false_eq_true,
      Bool.true_eq_false, if_false, if_true, ite_true, ite_false, ne_eq, not_true,
      not_false_iff,
      apply_ite Position.board, apply_ite Position.pieceBB, apply_ite Position.colorBB,
      apply_ite Position.occupied, apply_ite Position.kingSquare,
      apply_ite Position.psqt, apply_ite Position.sideToMove,
      apply_ite Position.castlingRights, apply_ite Position.enPassantSquare,
      apply_ite Position.halfmoveClock, apply_ite Position.fullmoveNumber,
      apply_ite Position.hash, apply_ite Prod.fst, apply_ite Prod.snd, ite_self,
      Color.other_other]
  · simp only [Position.makeMove, Position.unmakeMove, Position.movePieceBB,
      Position.removePieceBB, Position.putPieceBB, Position.updateOccupied,
      Position.setHash, hcast, hepf, hcap, hprom, hvt, hne, hne2, Bool.false_eq_true,
      Bool.true_eq_false, if_false, if_true, ite_true, ite_false, ne_eq, not_true,
      not_false_iff,
      apply_ite Position.board, apply_ite Position.pieceBB, apply_ite Position.colorBB,
      apply_ite Position.occupied, apply_ite Position.kingSquare,
      apply_ite Position.psqt, apply_ite Position.sideToMove,
      apply_ite Position.castlingRights, apply_ite Position.enPassantSquare,
      apply_ite Position.halfmoveClock, apply_ite Position.fullmoveNumber,
      apply_ite Position.hash, apply_ite Prod.fst, apply_ite Prod.snd, ite_self,
      Color.other_other]
    by_cases hb : pos.sideToMove = Color.Black <;> simp [hb]
  · simp only [Position.makeMove, Position.unmakeMove, Position.movePieceBB,
      Position.removePieceBB, Position.putPieceBB, Position.updateOccupied,
      Position.setHash, hcast, hepf, hcap, hprom, hvt, hne, hne2, Bool.false_eq_true,
      Bool.true_eq_false, if_false, if_true, ite_true, ite_false, ne_eq, not_true,
      not_false_iff,
      apply_ite Position.board, apply_ite Position.pieceBB, apply_ite Position.colorBB,
      apply_ite Position.occupied, apply_ite Position.kingSquare,
      apply_ite Position.psqt, apply_ite Position.sideToMove,
      apply_ite Position.castlingRights, apply_ite Position.enPassantSquare,
      apply_ite Position.halfmoveClock, apply_ite Position.fullmoveNumber,
      apply_ite Position.hash, apply_ite Prod.fst, apply_ite Prod.snd, ite_self,
      Color.other_other]

theorem restore_promo (T : Tables) (pos : Position) (m : Move)
    (hty : m.type = MoveType.Promotion)
    (hne : m.fromSq ≠ m.toSq)
    (hto : pos.board m.toSq = Piece.empty)
    (hf : pos.board m.fromSq = Piece.mk PieceType.Pawn pos.sideToMove)
    (hocc : pos.occupied = pos.colorBB Color.White ||| pos.colorBB Color.Black) :
    ((pos.makeMove T m).1).unmakeMove T m (pos.makeMove T m).2 = pos := by
  have hcast : m.isCastling = false := by simp [Move.isCastling, hty]
  have hepf : m.isEnPassant = false := by simp [Move.isEnPassant, hty]
  have hcap : m.isCapture = false := by simp [Move.isCapture, hty]
  have hprom : m.isPromotion = true := by simp [Move.isPromotion, hty]
  have hne2 : ¬(m.toSq = m.fromSq) := fun h => hne h.symm
  have hcapty : (pos.board m.toSq).type = PieceType.None := by rw [hto]; rfl
  have hcolor : ((pos.makeMove T m).1.unmakeMove T m (pos.makeMove T m).2).colorBB =
      pos.colorBB := by
    simp only [Position.makeMove, Position.unmakeMove, Position.movePieceBB,
      Position.removePieceBB, Position.putPieceBB, Position.updateOccupied,
      Position.setHash, hcast, hepf, hcap, hprom, hcapty, hne, hne2, Bool.false_eq_true,
      Bool.true_eq_false, if_false, if_true, ite_true, ite_false, ne_eq, not_true,
      not_false_iff,
      apply_ite Position.board, apply_ite Position.pieceBB, apply_ite Position.colorBB,
      apply_ite Position.occupied, apply_ite Position.kingSquare,
      apply_ite Position.psqt, apply_ite Position.sideToMove,
      apply_ite Position.castlingRights, apply_ite Position.enPassantSquare,
      apply_ite Position.halfmoveClock, apply_ite Position.fullmoveNumber,
      apply_ite Position.hash, apply_ite Prod.fst, apply_ite Prod.snd, ite_self,
      Color.other_other]
    funext cc
    by_cases h1 : cc = pos.sideToMove
    · subst h1
      simp [Nat.or_comm, Nat.xor_assoc, Nat.xor_comm, xor_left_comm,
        xor_cancel_l, Nat.xor_cancel_right, Nat.xor_self, Nat.xor_zero, Nat.zero_xor]
    · simp [h1]
  refine posEqOfFields _ _ ?_ ?_ hcolor ?_ ?_ ?_ ?_ ?_ ?_ ?_ ?_ ?_
  · simp only [Position.makeMove, Position.unmakeMove, Position.movePieceBB,
      Position.removePieceBB, Position.putPieceBB, Position.updateOccupied,
      Position.setHash, hcast, hepf, hcap, hprom, hcapty, hne, hne2, Bool.false_eq_true,
      Bool.true_eq_false, if_false, if_true, ite_true, ite_false, ne_eq, not_true,
      not_false_iff,
      apply_ite Position.board, apply_ite Position.pieceBB, apply_ite Position.colorBB,
      apply_ite Position.occupied, apply_ite Position.kingSquare,
      apply_ite Position.psqt, apply_ite Position.sideToMove,
      apply_ite Position.castlingRights, apply_ite Position.enPassantSquare,
      apply_ite Position.halfmoveClock, apply_ite Position.fullmoveNumber,
      apply_ite Position.hash, apply_ite Prod.fst, apply_ite Prod.snd, ite_self,
      Color.other_other]
    funext s
    by_cases h1 : s = m.toSq
    · subst h1
      simp [hne, hne2, hto]
    · by_cases h2 : s = m.fromSq
      · subst h2
        simp [hne, hne2, h1, hf]
      · simp [h1, h2]
  · simp only [Position.makeMove, Position.unmakeMove, Position.movePieceBB,
      Position.removePieceBB, Position.putPieceBB, Position.updateOccupied,
      Position.setHash, hcast, hepf, hcap, hprom, hcapty, hne, hne2, Bool.false_eq_true,
      Bool.true_eq_false, if_false, if_true, ite_true, ite_false, ne_eq, not_true,
      not_false_iff,
      apply_ite Position.board, apply_ite Position.pieceBB, apply_ite Position.colorBB,
      apply_ite Position.occupied, apply_ite Position.kingSquare,
      apply_ite Position.psqt, apply_ite Position.sideToMove,
      apply_ite Position.castlingRights, apply_ite Position.enPassantSquare,
      apply_ite Position.halfmoveClock, apply_ite Position.fullmoveNumber,
      apply_ite Position.hash, apply_ite Prod.fst, apply_ite Prod.snd, ite_self,
      Color.other_other]
    funext p
    by_cases h1 : p = PieceType.Pawn
    · subst h1
      by_cases h2 : PieceType.Pawn = m.promotion <;>
        simp [h2, Nat.or_comm, Nat.xor_assoc, Nat.xor_comm, xor_left_comm,
        xor_cancel_l, Nat.xor_cancel_right, Nat.xor_self, Nat.xor_zero, Nat.zero_xor]
    · by_cases h2 : p = m.promotion
      · subst h2
        simp [h1, Nat.or_comm, Nat.xor_assoc, Nat.xor_comm, xor_left_comm,
        xor_cancel_l, Nat.xor_cancel_right, Nat.xor_self, Nat.xor_zero, Nat.zero_xor]
      · simp [h1, h2]
  · rw [unmake_occ, hcolor, hocc]
  · simp only [Position.makeMove, Position.unmakeMove, Position.movePieceBB,
      Position.removePieceBB, Position.putPieceBB, Position.updateOccupied,
      Position.setHash, hcast, hepf, hcap, hprom, hcapty, hne, hne2, Bool.false_eq_true,
      Bool.true_eq_false, if_false, if_true, ite_true, ite_false, ne_eq, not_true,
      not_false_iff,
      apply_ite Position.board, apply_ite Position.pieceBB, apply_ite Position.colorBB,
      apply_ite Position.occupied, apply_ite Position.kingSquare,
      apply_ite Position.psqt, apply_ite Position.sideToMove,
      apply_ite Position.castlingRights, apply_ite Position.enPassantSquare,
      apply_ite Position.halfmoveClock, apply_ite Position.fullmoveNumber,
      apply_ite Position.hash, apply_ite Prod.fst, apply_ite Prod.snd, ite_self,
      Color.other_other]
  · simp only [Position.makeMove, Position.unmakeMove, Position.movePieceBB,
      Position.removePieceBB, Position.putPieceBB, Position.updateOccupied,
      Position.setHash, hcast, hepf, hcap, hprom, hcapty, hne, hne2, Bool.false_eq_true,
      Bool.true_eq_false, if_false, if_true, ite_true, ite_false, ne_eq, not_true,
      not_false_iff,
      apply_ite Position.board, apply_ite Position.pieceBB, apply_ite Position.colorBB,
      apply_ite Position.occupied, apply_ite Position.kingSquare,
      apply_ite Position.psqt, apply_ite Position.sideToMove,
      apply_ite Position.castlingRights, apply_ite Position.enPassantSquare,
      apply_ite Position.halfmoveClock, apply_ite Position.fullmoveNumber,
      apply_ite Position.hash, apply_ite Prod.fst, apply_ite Prod.snd, ite_self,
      Color.other_other]
    apply scoreEqOfFields <;> simp [Score.add_def, Score.sub_def]
  · simp only [Position.makeMove, Position.unmakeMove, Position.movePieceBB,
      Position.removePieceBB, Position.putPieceBB, Position.updateOccupied,
      Position.setHash, hcast, hepf, hcap, hprom, hcapty, hne, hne2, Bool.false_eq_true,
      Bool.true_eq_false, if_false, if_true, ite_true, ite_false, ne_eq, not_true,
      not_false_iff,
      apply_ite Position.board, apply_ite Position.pieceBB, apply_ite Position.colorBB,
      apply_ite Position.occupied, apply_ite Position.kingSquare,
      apply_ite Position.psqt, apply_ite Position.sideToMove,
      apply_ite Position.castlingRights, apply_ite Position.enPassantSquare,
      apply_ite Position.halfmoveClock, apply_ite Position.fullmoveNumber,
      apply_ite Position.hash, apply_ite Prod.fst, apply_ite Prod.snd, ite_self,
      Color.other_other]
  · simp only [Position.makeMove, Position.unmakeMove, Position.movePieceBB,
      Position.removePieceBB, Position.putPieceBB, Position.updateOccupied,
      Position.setHash, hcast, hepf, hcap, hprom, hcapty, hne, hne2, Bool.false_eq_true,
      Bool.true_eq_false, if_false, if_true, ite_true, ite_false, ne_eq, not_true,
      not_false_iff,
      apply_ite Position.board, apply_ite Position.pieceBB, apply_ite Position.colorBB,
      apply_ite Position.occupied, apply_ite Position.kingSquare,
      apply_ite Position.psqt, apply_ite Position.sideToMove,
      apply_ite Position.castlingRights, apply_ite Position.enPassantSquare,
      apply_ite Position.halfmoveClock, apply_ite Position.fullmoveNumber,
      apply_ite Position.hash, apply_ite Prod.fst, apply_ite Prod.snd, ite_self,
      Color.other_other]
  · simp only [Position.makeMove, Position.unmakeMove, Position.movePieceBB,
      Position.removePieceBB, Position.putPieceBB, Position.updateOccupied,
      Position.setHash, hcast, hepf, hcap, hprom, hcapty, hne, hne2, Bool.false_eq_true,
      Bool.true_eq_false, if_false, if_true, ite_true, ite_false, ne_eq, not_true,
      not_false_iff,
      apply_ite Position.board, apply_ite Position.pieceBB, apply_ite Position.colorBB,
      apply_ite Position.occupied, apply_ite Position.kingSquare,
      apply_ite Position.psqt, apply_ite Position.sideToMove,
      apply_ite Position.castlingRights, apply_ite Position.enPassantSquare,
      apply_ite Position.halfmoveClock, apply_ite Position.fullmoveNumber,
      apply_ite Position.hash, apply_ite Prod.fst, apply_ite Prod.snd, ite_self,
      Color.other_other]
  · simp only [Position.makeMove, Position.unmakeMove, Position.movePieceBB,
      Position.removePieceBB, Position.putPieceBB, Position.updateOccupied,
      Position.setHash, hcast, hepf, hcap, hprom, hcapty, hne, hne2, Bool.false_eq_true,
      Bool.true_eq_false, if_false, if_true, ite_true, ite_false, ne_eq, not_true,
      not_false_iff,
      apply_ite Position.board, apply_ite Position.pieceBB, apply_ite Position.colorBB,
      apply_ite Position.occupied, apply_ite Position.kingSquare,
      apply_ite Position.psqt, apply_ite Position.sideToMove,
      apply_ite Position.castlingRights, apply_ite Position.enPassantSquare,
      apply_ite Position.halfmoveClock, apply_ite Position.fullmoveNumber,
      apply_ite Position.hash, apply_ite Prod.fst, apply_ite Prod.snd, ite_self,
      Color.other_other]
  · simp only [Position.makeMove, Position.unmakeMove, Position.movePieceBB,
      Position.removePieceBB, Position.putPieceBB, Position.updateOccupied,
      Position.setHash, hcast, hepf, hcap, hprom, hcapty, hne, hne2, Bool.false_eq_true,
      Bool.true_eq_false, if_false, if_true, ite_true, ite_false, ne_eq, not_true,
      not_false_iff,
      apply_ite Position.board, apply_ite Position.pieceBB, apply_ite Position.colorBB,
      apply_ite Position.occupied, apply_ite Position.kingSquare,
      apply_ite Position.psqt, apply_ite Position.sideToMove,
      apply_ite Position.castlingRights, apply_ite Position.enPassantSquare,
      apply_ite Position.halfmoveClock, apply_ite Position.fullmoveNumber,
      apply_ite Position.hash, apply_ite Prod.fst, apply_ite Prod.snd, ite_self,
      Color.other_other]
    by_cases hb : pos.sideToMove = Color.Black <;> simp [hb]
  · simp only [Position.makeMove, Position.unmakeMove, Position.movePieceBB,
      Position.removePieceBB, Position.putPieceBB, Position.updateOccupied,
      Position.setHash, hcast, hepf, hcap, hprom, hcapty, hne, hne2, Bool.false_eq_true,
      Bool.true_eq_false, if_false, if_true, ite_true, ite_false, ne_eq, not_true,
      not_false_iff,
      apply_ite Position.board, apply_ite Position.pieceBB, apply_ite Position.colorBB,
      apply_ite Position.occupied, apply_ite Position.kingSquare,
      apply_ite Position.psqt, apply_ite Position.sideToMove,
      apply_ite Position.castlingRights, apply_ite Position.enPassantSquare,
      apply_ite Position.halfmoveClock, apply_ite Position.fullmoveNumber,
      apply_ite Position.hash, apply_ite Prod.fst, apply_ite Prod.snd, ite_self,
      Color.other_other]

theorem restore_promocap (T : Tables) (pos : Position) (m : Move)
    (hty : m.type = MoveType.PromotionCapture)
    (hne : m.fromSq ≠ m.toSq)
    (hvc : (pos.board m.toSq).color = pos.sideToMove.other)
    (hvt : (pos.board m.toSq).type ≠ PieceType.None)
    (hf : pos.board m.fromSq = Piece.mk PieceType.Pawn pos.sideToMove)
    (hocc : pos.occupied = pos.colorBB Color.White ||| pos.colorBB Color.Black) :
    ((pos.makeMove T m).1).unmakeMove T m (pos.makeMove T m).2 = pos := by
  have hcast : m.isCastling = false := by simp [Move.isCastling, hty]
  have hepf : m.isEnPassant = false := by simp [Move.isEnPassant, hty]
  have hcap : m.isCapture = true := by simp [Move.isCapture, hty]
  have hprom : m.isPromotion = true := by simp [Move.isPromotion, hty]
  have hne2 : ¬(m.toSq = m.fromSq) := fun h => hne h.symm
  have hcolor : ((pos.makeMove T m).1.unmakeMove T m (pos.makeMove T m).2).colorBB =
      pos.colorBB := by
    simp only [Position.makeMove, Position.unmakeMove, Position.movePieceBB,
      Position.removePieceBB, Position.putPieceBB, Position.updateOccupied,
      Position.setHash, hcast, hepf, hcap, hprom, hvt, hne, hne2, Bool.false_eq_true,
      Bool.true_eq_false, if_false, if_true, ite_true, ite_false, ne_eq, not_true,
      not_false_iff,
      apply_ite Position.board, apply_ite Position.pieceBB, apply_ite Position.colorBB,
      apply_ite Position.occupied, apply_ite Position.kingSquare,
      apply_ite Position.psqt, apply_ite Position.sideToMove,
      apply_ite Position.castlingRights, apply_ite Position.enPassantSquare,
      apply_ite Position.halfmoveClock, apply_ite Position.fullmoveNumber,
      apply_ite Position.hash, apply_ite Prod.fst, apply_ite Prod.snd, ite_self,
      Color.other_other]
    funext cc
    by_cases h1 : cc = pos.sideToMove.other
    · subst h1
      by_cases h2 : pos.sideToMove.other = pos.sideToMove <;>
        simp [h2, Nat.or_comm, Nat.xor_assoc, Nat.xor_comm, xor_left_comm,
        xor_cancel_l, Nat.xor_cancel_right, Nat.xor_self, Nat.xor_zero, Nat.zero_xor]
    · by_cases h2 : cc = pos.sideToMove
      · subst h2
        simp [h1, Nat.or_comm, Nat.xor_assoc, Nat.xor_comm, xor_left_comm,
        xor_cancel_l, Nat.xor_cancel_right, Nat.xor_self, Nat.xor_zero, Nat.zero_xor]
      · simp [h1, h2]
  refine posEqOfFields _ _ ?_ ?_ hcolor ?_ ?_ ?_ ?_ ?_ ?_ ?_ ?_ ?_
  · simp only [Position.makeMove, Position.unmakeMove, Position.movePieceBB,
      Position.removePieceBB, Position.putPieceBB, Position.updateOccupied,
      Position.setHash, hcast, hepf, hcap, hprom, hvt, hne, hne2, Bool.false_eq_true,
      Bool.true_eq_false, if_false, if_true, ite_true, ite_false, ne_eq, not_true,
      not_false_iff,
      apply_ite Position.board, apply_ite Position.pieceBB, apply_ite Position.colorBB,
      apply_ite Position.occupied, apply_ite Position.kingSquare,
      apply_ite Position.psqt, apply_ite Position.sideToMove,
      apply_ite Position.castlingRights, apply_ite Position.enPassantSquare,
      apply_ite Position.halfmoveClock, apply_ite Position.fullmoveNumber,
      apply_ite Position.hash, apply_ite Prod.fst, apply_ite Prod.snd, ite_self,
      Color.other_other]
    funext s
    by_cases h1 : s = m.toSq
    · subst h1
      simp [hne, hne2, ← hvc]
    · by_cases h2 : s = m.fromSq
      · subst h2
        simp [hne, hne2, h1, hf]
      · simp [h1, h2]
  · simp only [Position.makeMove, Position.unmakeMove, Position.movePieceBB,
      Position.removePieceBB, Position.putPieceBB, Position.updateOccupied,
      Position.setHash, hcast, hepf, hcap, hprom, hvt, hne, hne2, Bool.false_eq_true,
      Bool.true_eq_false, if_false, if_true, ite_true, ite_false, ne_eq, not_true,
      not_false_iff,
      apply_ite Position.board, apply_ite Position.pieceBB, apply_ite Position.colorBB,
      apply_ite Position.occupied, apply_ite Position.kingSquare,
      apply_ite Position.psqt, apply_ite Position.sideToMove,
      apply_ite Position.castlingRights, apply_ite Position.enPassantSquare,
      apply_ite Position.halfmoveClock, apply_ite Position.fullmoveNumber,
      apply_ite Position.hash, apply_ite Prod.fst, apply_ite Prod.snd, ite_self,
      Color.other_other]
    funext p
    by_cases h1 : p = (pos.board m.toSq).type
    · subst h1
      by_cases h2 : (pos.board m.toSq).type = m.promotion
      · by_cases h3 : (pos.board m.toSq).type = PieceType.Pawn
        · have h4 : m.promotion = PieceType.Pawn := h2.symm.trans h3
          simp [h2, h3, h4, Nat.or_comm, Nat.xor_assoc, Nat.xor_comm, xor_left_comm,
            xor_cancel_l, Nat.xor_cancel_right, Nat.xor_self, Nat.xor_zero, Nat.zero_xor]
        · have h4 : ¬(m.promotion = PieceType.Pawn) := fun h => h3 (h2.trans h)
          simp [h2, h3, h4, Nat.or_comm, Nat.xor_assoc, Nat.xor_comm, xor_left_comm,
            xor_cancel_l, Nat.xor_cancel_right, Nat.xor_self, Nat.xor_zero, Nat.zero_xor]
      · by_cases h3 : (pos.board m.toSq).type = PieceType.Pawn
        · have h4 : ¬(PieceType.Pawn = m.promotion) := fun h => h2 (h3.trans h)
          simp [h2, h3, h4, Nat.or_comm, Nat.xor_assoc, Nat.xor_comm, xor_left_comm,
            xor_cancel_l, Nat.xor_cancel_right, Nat.xor_self, Nat.xor_zero, Nat.zero_xor]
        · simp [h2, h3, Nat.or_comm, Nat.xor_assoc, Nat.xor_comm, xor_left_comm,
            xor_cancel_l, Nat.xor_cancel_right, Nat.xor_self, Nat.xor_zero, Nat.zero_xor]
    · by_cases h2 : p = m.promotion
      · subst h2
        by_cases h3 : m.promotion = PieceType.Pawn
        · have h4 : ¬(PieceType.Pawn = (pos.board m.toSq).type) := fun h => h1 (h3.trans h)
          simp [h1, h3, h4, Nat.or_comm, Nat.xor_assoc, Nat.xor_comm, xor_left_comm,
            xor_cancel_l, Nat.xor_cancel_right, Nat.xor_self, Nat.xor_zero, Nat.zero_xor]
        · simp [h1, h3, Nat.or_comm, Nat.xor_assoc, Nat.xor_comm, xor_left_comm,
            xor_cancel_l, Nat.xor_cancel_right, Nat.xor_self, Nat.xor_zero, Nat.zero_xor]
      · by_cases h3 : p = PieceType.Pawn
        · subst h3
          simp [h1, h2, Nat.or_comm, Nat.xor_assoc, Nat.xor_comm, xor_left_comm,
        xor_cancel_l, Nat.xor_cancel_right, Nat.xor_self, Nat.xor_zero, Nat.zero_xor]
        · simp [h1, h2, h3]
  · rw [unmake_occ, hcolor, hocc]
  · simp only [Position.makeMove, Position.unmakeMove, Position.movePieceBB,
      Position.removePieceBB, Position.putPieceBB, Position.updateOccupied,
      Position.setHash, hcast, hepf, hcap, hprom, hvt, hne, hne2, Bool.false_eq_true,
      Bool.true_eq_false, if_false, if_true, ite_true, ite_false, ne_eq, not_true,
      not_false_iff,
      apply_ite Position.board, apply_ite Position.pieceBB, apply_ite Position.colorBB,
      apply_ite Position.occupied, apply_ite Position.kingSquare,
      apply_ite Position.psqt, apply_ite Position.sideToMove,
      apply_ite Position.castlingRights, apply_ite Position.enPassantSquare,
      apply_ite Position.halfmoveClock, apply_ite Position.fullmoveNumber,
      apply_ite Position.hash, apply_ite Prod.fst, apply_ite Prod.snd, ite_self,
      Color.other_other]
  · simp only [Position.makeMove, Position.unmakeMove, Position.movePieceBB,
      Position.removePieceBB, Position.putPieceBB, Position.updateOccupied,
      Position.setHash, hcast, hepf, hcap, hprom, hvt, hne, hne2, Bool.false_eq_true,
      Bool.true_eq_false, if_false, if_true, ite_true, ite_false, ne_eq, not_true,
      not_false_iff,
      apply_ite Position.board, apply_ite Position.pieceBB, apply_ite Position.colorBB,
      apply_ite Position.occupied, apply_ite Position.kingSquare,
      apply_ite Position.psqt, apply_ite Position.sideToMove,
      apply_ite Position.castlingRights, apply_ite Position.enPassantSquare,
      apply_ite Position.halfmoveClock, apply_ite Position.fullmoveNumber,
      apply_ite Position.hash, apply_ite Prod.fst, apply_ite Prod.snd, ite_self,
      Color.other_other]
    apply scoreEqOfFields <;> simp [Score.add_def, Score.sub_def]
  · simp only [Position.makeMove, Position.unmakeMove, Position.movePieceBB,
      Position.removePieceBB, Position.putPieceBB, Position.updateOccupied,
      Position.setHash, hcast, hepf, hcap, hprom, hvt, hne, hne2, Bool.false_eq_true,
      Bool.true_eq_false, if_false, if_true, ite_true, ite_false, ne_eq, not_true,
      not_false_iff,
      apply_ite Position.board, apply_ite Position.pieceBB, apply_ite Position.colorBB,
      apply_ite Position.occupied, apply_ite Position.kingSquare,
      apply_ite Position.psqt, apply_ite Position.sideToMove,
      apply_ite Position.castlingRights, apply_ite Position.enPassantSquare,
      apply_ite Position.halfmoveClock, apply_ite Position.fullmoveNumber,
      apply_ite Position.hash, apply_ite Prod.fst, apply_ite Prod.snd, ite_self,
      Color.other_other]
  · simp only [Position.makeMove, Position.unmakeMove, Position.movePieceBB,
      Position.removePieceBB, Position.putPieceBB, Position.updateOccupied,
      Position.setHash, hcast, hepf, hcap, hprom, hvt, hne, hne2, Bool.false_eq_true,
      Bool.true_eq_false, if_false, if_true, ite_true, ite_false, ne_eq, not_true,
      not_false_iff,
      apply_ite Position.board, apply_ite Position.pieceBB, apply_ite Position.colorBB,
      apply_ite Position.occupied, apply_ite Position.kingSquare,
      apply_ite Position.psqt, apply_ite Position.sideToMove,
      apply_ite Position.castlingRights, apply_ite Position.enPassantSquare,
      apply_ite Position.halfmoveClock, apply_ite Position.fullmoveNumber,
      apply_ite Position.hash, apply_ite Prod.fst, apply_ite Prod.snd, ite_self,
      Color.other_other]
  · simp only [Position.makeMove, Position.unmakeMove, Position.movePieceBB,
      Position.removePieceBB, Position.putPieceBB, Position.updateOccupied,
      Position.setHash, hcast, hepf, hcap, hprom, hvt, hne, hne2, Bool.false_eq_true,
      Bool.true_eq_false, if_false, if_true, ite_true, ite_false, ne_eq, not_true,
      not_false_iff,
      apply_ite Position.board, apply_ite Position.pieceBB, apply_ite Position.colorBB,
      apply_ite Position.occupied, apply_ite Position.kingSquare,
      apply_ite Position.psqt, apply_ite Position.sideToMove,
      apply_ite Position.castlingRights, apply_ite Position.enPassantSquare,
      apply_ite Position.halfmoveClock, apply_ite Position.fullmoveNumber,
      apply_ite Position.hash, apply_ite Prod.fst, apply_ite Prod.snd, ite_self,
      Color.other_other]
  · simp only [Position.makeMove, Position.unmakeMove, Position.movePieceBB,
      Position.removePieceBB, Position.putPieceBB, Position.updateOccupied,
      Position.setHash, hcast, hepf, hcap, hprom, hvt, hne, hne2, Bool.false_eq_true,
      Bool.true_eq_false, if_false, if_true, ite_true, ite_false, ne_eq, not_true,
      not_false_iff,
      apply_ite Position.board, apply_ite Position.pieceBB, apply_ite Position.colorBB,
      apply_ite Position.occupied, apply_ite Position.kingSquare,
      apply_ite Position.psqt, apply_ite Position.sideToMove,
      apply_ite Position.castlingRights, apply_ite Position.enPassantSquare,
      apply_ite Position.halfmoveClock, apply_ite Position.fullmoveNumber,
      apply_ite Position.hash, apply_ite Prod.fst, apply_ite Prod.snd, ite_self,
      Color.other_other]
  · simp only [Position.makeMove, Position.unmakeMove, Position.movePieceBB,
      Position.removePieceBB, Position.putPieceBB, Position.updateOccupied,
      Position.setHash, hcast, hepf, hcap, hprom, hvt, hne, hne2, Bool.false_eq_true,
      Bool.true_eq_false, if_false, if_true, ite_true, ite_false, ne_eq, not_true,
      not_false_iff,
      apply_ite Position.board, apply_ite Position.pieceBB, apply_ite Position.colorBB,
      apply_ite Position.occupied, apply_ite Position.kingSquare,
      apply_ite Position.psqt, apply_ite Position.sideToMove,
      apply_ite Position.castlingRights, apply_ite Position.enPassantSquare,
      apply_ite Position.halfmoveClock, apply_ite Position.fullmoveNumber,
      apply_ite Position.hash, apply_ite Prod.fst, apply_ite Prod.snd, ite_self,
      Color.other_other]
    by_cases hb : pos.sideToMove = Color.Black <;> simp [hb]
  · simp only [Position.makeMove, Position.unmakeMove, Position.movePieceBB,
      Position.removePieceBB, Position.putPieceBB, Position.updateOccupied,
      Position.setHash, hcast, hepf, hcap, hprom, hvt, hne, hne2, Bool.false_eq_true,
      Bool.true_eq_false, if_false, if_true, ite_true, ite_false, ne_eq, not_true,
      not_false_iff,
      apply_ite Position.board, apply_ite Position.pieceBB, apply_ite Position.colorBB,
      apply_ite Position.occupied, apply_ite Position.kingSquare,
      apply_ite Position.psqt, apply_ite Position.sideToMove,
      apply_ite Position.castlingRights, apply_ite Position.enPassantSquare,
      apply_ite Position.halfmoveClock, apply_ite Position.fullmoveNumber,
      apply_ite Position.hash, apply_ite Prod.fst, apply_ite Prod.snd, ite_self,
      Color.other_other]

theorem restore_ep (T : Tables) (pos : Position) (m : Move) (cs : Nat)
    (hty : m.type = MoveType.EnPassant)
    (hcs : cs = makeSquare (getFile m.toSq)
      ((getRank m.toSq + (if pos.sideToMove = Color.White then 255 else 1)) % 256))
    (hne : m.fromSq ≠ m.toSq)
    (hto : pos.board m.toSq = Piece.empty)
    (hcsb : pos.board cs = Piece.mk PieceType.Pawn pos.sideToMove.other)
    (hcsf : cs ≠ m.fromSq) (hcst : cs ≠ m.toSq)
    (hocc : pos.occupied = pos.colorBB Color.White ||| pos.colorBB Color.Black) :
    ((pos.makeMove T m).1).unmakeMove T m (pos.makeMove T m).2 = pos := by
  have hcast : m.isCastling = false := by simp [Move.isCastling, hty]
  have hepc : m.isEnPassant = true := by simp [Move.isEnPassant, hty]
  have hne2 : ¬(m.toSq = m.fromSq) := fun h => hne h.symm
  have hcsf2 : ¬(m.fromSq = cs) := fun h => hcsf h.symm
  have hcst2 : ¬(m.toSq = cs) := fun h => hcst h.symm
  subst hcs
  have hcolor : ((pos.makeMove T m).1.unmakeMove T m (pos.makeMove T m).2).colorBB =
      pos.colorBB := by
    simp only [Position.makeMove, Position.unmakeMove, Position.movePieceBB,
      Position.removePieceBB, Position.putPieceBB, Position.updateOccupied,
      Position.setHash, hcast, hepc, hne, hne2, hcsf, hcsf2, hcst, hcst2,
      Bool.false_eq_true, Bool.true_eq_false, if_false, if_true, ite_true, ite_false,
      ne_eq, not_true, not_false_iff,
      apply_ite Position.board, apply_ite Position.pieceBB, apply_ite Position.colorBB,
      apply_ite Position.occupied, apply_ite Position.kingSquare,
      apply_ite Position.psqt, apply_ite Position.sideToMove,
      apply_ite Position.castlingRights, apply_ite Position.enPassantSquare,
      apply_ite Position.halfmoveClock, apply_ite Position.fullmoveNumber,
      apply_ite Position.hash, apply_ite Prod.fst, apply_ite Prod.snd, ite_self,
      Color.other_other]
    funext cc
    by_cases h1 : cc = pos.sideToMove.other
    · subst h1
      by_cases h2 : pos.sideToMove.other = pos.sideToMove <;>
        simp [h2, Nat.or_comm, Nat.xor_assoc, Nat.xor_comm, xor_left_comm,
        xor_cancel_l, Nat.xor_cancel_right, Nat.xor_self, Nat.xor_zero, Nat.zero_xor]
    · by_cases h2 : cc = pos.sideToMove
      · subst h2
        simp [h1, Nat.or_comm, Nat.xor_assoc, Nat.xor_comm, xor_left_comm,
        xor_cancel_l, Nat.xor_cancel_right, Nat.xor_self, Nat.xor_zero, Nat.zero_xor]
      · simp [h1, h2]
  refine posEqOfFields _ _ ?_ ?_ hcolor ?_ ?_ ?_ ?_ ?_ ?_ ?_ ?_ ?_
  · simp only [Position.makeMove, Position.unmakeMove, Position.movePieceBB,
      Position.removePieceBB, Position.putPieceBB, Position.updateOccupied,
      Position.setHash, hcast, hepc, hne, hne2, hcsf, hcsf2, hcst, hcst2,
      Bool.false_eq_true, Bool.true_eq_false, if_false, if_true, ite_true, ite_false,
      ne_eq, not_true, not_false_iff,
      apply_ite Position.board, apply_ite Position.pieceBB, apply_ite Position.colorBB,
      apply_ite Position.occupied, apply_ite Position.kingSquare,
      apply_ite Position.psqt, apply_ite Position.sideToMove,
      apply_ite Position.castlingRights, apply_ite Position.enPassantSquare,
      apply_ite Position.halfmoveClock, apply_ite Position.fullmoveNumber,
      apply_ite Position.hash, apply_ite Prod.fst, apply_ite Prod.snd, ite_self,
      Color.other_other]
    funext s
    by_cases h1 : s = m.toSq
    · subst h1
      simp [hne, hne2, hcst2, hto]
    · by_cases h2 : s = m.fromSq
      · subst h2
        simp [hne, hne2, h1, hcsf2]
      · by_cases h3 : s = makeSquare (getFile m.toSq)
            ((getRank m.toSq + (if pos.sideToMove = Color.White then 255 else 1)) % 256)
        · subst h3
          simp [hcsf, hcst, hcsb]
        · simp [h1, h2, h3]
  · simp only [Position.makeMove, Position.unmakeMove, Position.movePieceBB,
      Position.removePieceBB, Position.putPieceBB, Position.updateOccupied,
      Position.setHash, hcast, hepc, hne, hne2, hcsf, hcsf2, hcst, hcst2,
      Bool.false_eq_true, Bool.true_eq_false, if_false, if_true, ite_true, ite_false,
      ne_eq, not_true, not_false_iff,
      apply_ite Position.board, apply_ite Position.pieceBB, apply_ite Position.colorBB,
      apply_ite Position.occupied, apply_ite Position.kingSquare,
      apply_ite Position.psqt, apply_ite Position.sideToMove,
      apply_ite Position.castlingRights, apply_ite Position.enPassantSquare,
      apply_ite Position.halfmoveClock, apply_ite Position.fullmoveNumber,
      apply_ite Position.hash, apply_ite Prod.fst, apply_ite Prod.snd, ite_self,
      Color.other_other]
    funext p
    by_cases h1 : p = PieceType.Pawn
    · subst h1
      simp [Nat.or_comm, Nat.xor_assoc, Nat.xor_comm, xor_left_comm,
        xor_cancel_l, Nat.xor_cancel_right, Nat.xor_self, Nat.xor_zero, Nat.zero_xor]
    · simp [h1]
  · rw [unmake_occ, hcolor, hocc]
  · simp only [Position.makeMove, Position.unmakeMove, Position.movePieceBB,
      Position.removePieceBB, Position.putPieceBB, Position.updateOccupied,
      Position.setHash, hcast, hepc, hne, hne2, hcsf, hcsf2, hcst, hcst2,
      Bool.false_eq_true, Bool.true_eq_false, if_false, if_true, ite_true, ite_false,
      ne_eq, not_true, not_false_iff,
      apply_ite Position.board, apply_ite Position.pieceBB, apply_ite Position.colorBB,
      apply_ite Position.occupied, apply_ite Position.kingSquare,
      apply_ite Position.psqt, apply_ite Position.sideToMove,
      apply_ite Position.castlingRights, apply_ite Position.enPassantSquare,
      apply_ite Position.halfmoveClock, apply_ite Position.fullmoveNumber,
      apply_ite Position.hash, apply_ite Prod.fst, apply_ite Prod.snd, ite_self,
      Color.other_other]
  · simp only [Position.makeMove, Position.unmakeMove, Position.movePieceBB,
      Position.removePieceBB, Position.putPieceBB, Position.updateOccupied,
      Position.setHash, hcast, hepc, hne, hne2, hcsf, hcsf2, hcst, hcst2,
      Bool.false_eq_true, Bool.true_eq_false, if_false, if_true, ite_true, ite_false,
      ne_eq, not_true, not_false_iff,
      apply_ite Position.board, apply_ite Position.pieceBB, apply_ite Position.colorBB,
      apply_ite Position.occupied, apply_ite Position.kingSquare,
      apply_ite Position.psqt, apply_ite Position.sideToMove,
      apply_ite Position.castlingRights, apply_ite Position.enPassantSquare,
      apply_ite Position.halfmoveClock, apply_ite Position.fullmoveNumber,
      apply_ite Position.hash, apply_ite Prod.fst, apply_ite Prod.snd, ite_self,
      Color.other_other]
    apply scoreEqOfFields <;> simp [Score.add_def, Score.sub_def] <;> ring
  · simp only [Position.makeMove, Position.unmakeMove, Position.movePieceBB,
      Position.removePieceBB, Position.putPieceBB, Position.updateOccupied,
      Position.setHash, hcast, hepc, hne, hne2, hcsf, hcsf2, hcst, hcst2,
      Bool.false_eq_true, Bool.true_eq_false, if_false, if_true, ite_true, ite_false,
      ne_eq, not_true, not_false_iff,
      apply_ite Position.board, apply_ite Position.pieceBB, apply_ite Position.colorBB,
      apply_ite Position.occupied, apply_ite Position.kingSquare,
      apply_ite Position.psqt, apply_ite Position.sideToMove,
      apply_ite Position.castlingRights, apply_ite Position.enPassantSquare,
      apply_ite Position.halfmoveClock, apply_ite Position.fullmoveNumber,
      apply_ite Position.hash, apply_ite Prod.fst, apply_ite Prod.snd, ite_self,
      Color.other_other]
  · simp only [Position.makeMove, Position.unmakeMove, Position.movePieceBB,
      Position.removePieceBB, Position.putPieceBB, Position.updateOccupied,
      Position.setHash, hcast, hepc, hne, hne2, hcsf, hcsf2, hcst, hcst2,
      Bool.false_eq_true, Bool.true_eq_false, if_false, if_true, ite_true, ite_false,
      ne_eq, not_true, not_false_iff,
      apply_ite Position.board, apply_ite Position.pieceBB, apply_ite Position.colorBB,
      apply_ite Position.occupied, apply_ite Position.kingSquare,
      apply_ite Position.psqt, apply_ite Position.sideToMove,
      apply_ite Position.castlingRights, apply_ite Position.enPassantSquare,
      apply_ite Position.halfmoveClock, apply_ite Position.fullmoveNumber,
      apply_ite Position.hash, apply_ite Prod.fst, apply_ite Prod.snd, ite_self,
      Color.other_other]
  · simp only [Position.makeMove, Position.unmakeMove, Position.movePieceBB,
      Position.removePieceBB, Position.putPieceBB, Position.updateOccupied,
      Position.setHash, hcast, hepc, hne, hne2, hcsf, hcsf2, hcst, hcst2,
      Bool.false_eq_true, Bool.true_eq_false, if_false, if_true, ite_true, ite_false,
      ne_eq, not_true, not_false_iff,
      apply_ite Position.board, apply_ite Position.pieceBB, apply_ite Position.colorBB,
      apply_ite Position.occupied, apply_ite Position.kingSquare,
      apply_ite Position.psqt, apply_ite Position.sideToMove,
      apply_ite Position.castlingRights, apply_ite Position.enPassantSquare,
      apply_ite Position.halfmoveClock, apply_ite Position.fullmoveNumber,
      apply_ite Position.hash, apply_ite Prod.fst, apply_ite Prod.snd, ite_self,
      Color.other_other]
  · simp only [Position.makeMove, Position.unmakeMove, Position.movePieceBB,
      Position.removePieceBB, Position.putPieceBB, Position.updateOccupied,
      Position.setHash, hcast, hepc, hne, hne2, hcsf, hcsf2, hcst, hcst2,
      Bool.false_eq_true, Bool.true_eq_false, if_false, if_true, ite_true, ite_false,
      ne_eq, not_true, not_false_iff,
      apply_ite Position.board, apply_ite Position.pieceBB, apply_ite Position.colorBB,
      apply_ite Position.occupied, apply_ite Position.kingSquare,
      apply_ite Position.psqt, apply_ite Position.sideToMove,
      apply_ite Position.castlingRights, apply_ite Position.enPassantSquare,
      apply_ite Position.halfmoveClock, apply_ite Position.fullmoveNumber,
      apply_ite Position.hash, apply_ite Prod.fst, apply_ite Prod.snd, ite_self,
      Color.other_other]
  · simp only [Position.makeMove, Position.unmakeMove, Position.movePieceBB,
      Position.removePieceBB, Position.putPieceBB, Position.updateOccupied,
      Position.setHash, hcast, hepc, hne, hne2, hcsf, hcsf2, hcst, hcst2,
      Bool.false_eq_true, Bool.true_eq_false, if_false, if_true, ite_true, ite_false,
      ne_eq, not_true, not_false_iff,
      apply_ite Position.board, apply_ite Position.pieceBB, apply_ite Position.colorBB,
      apply_ite Position.occupied, apply_ite Position.kingSquare,
      apply_ite Position.psqt, apply_ite Position.sideToMove,
      apply_ite Position.castlingRights, apply_ite Position.enPassantSquare,
      apply_ite Position.halfmoveClock, apply_ite Position.fullmoveNumber,
      apply_ite Position.hash, apply_ite Prod.fst, apply_ite Prod.snd, ite_self,
      Color.other_other]
    by_cases hb : pos.sideToMove = Color.Black <;> simp [hb]
  · simp only [Position.makeMove, Position.unmakeMove, Position.movePieceBB,
      Position.removePieceBB, Position.putPieceBB, Position.updateOccupied,
      Position.setHash, hcast, hepc, hne, hne2, hcsf, hcsf2, hcst, hcst2,
      Bool.false_eq_true, Bool.true_eq_false, if_false, if_true, ite_true, ite_false,
      ne_eq, not_true, not_false_iff,
      apply_ite Position.board, apply_ite Position.pieceBB, apply_ite Position.colorBB,
      apply_ite Position.occupied, apply_ite Position.kingSquare,
      apply_ite Position.psqt, apply_ite Position.sideToMove,
      apply_ite Position.castlingRights, apply_ite Position.enPassantSquare,
      apply_ite Position.halfmoveClock, apply_ite Position.fullmoveNumber,
      apply_ite Position.hash, apply_ite Prod.fst, apply_ite Prod.snd, ite_self,
      Color.other_other]

theorem restore_castling (T : Tables) (pos : Position) (m : Move) (rf rt : Nat)
    (hty : m.type = MoveType.Castling)
    (hrf : rf = (if getFile m.toSq = FILE_G then makeSquare FILE_H (getRank m.fromSq)
      else makeSquare FILE_A (getRank m.fromSq)))
    (hrt : rt = (if getFile m.toSq = FILE_G then makeSquare FILE_F (getRank m.fromSq)
      else makeSquare FILE_D (getRank m.fromSq)))
    (hne : m.fromSq ≠ m.toSq)
    (hfr : m.fromSq ≠ rf) (hfd : m.fromSq ≠ rt)
    (htr : m.toSq ≠ rf) (htd : m.toSq ≠ rt) (hrd : rf ≠ rt)
    (hto : pos.board m.toSq = Piece.empty)
    (hrtb : pos.board rt = Piece.empty)
    (hks : pos.kingSquare pos.sideToMove = m.fromSq)
    (hocc : pos.occupied = pos.colorBB Color.White ||| pos.colorBB Color.Black) :
    ((pos.makeMove T m).1).unmakeMove T m (pos.makeMove T m).2 = pos := by
  have hcast : m.isCastling = true := by simp [Move.isCastling, hty]
  have hne2 : ¬(m.toSq = m.fromSq) := fun h => hne h.symm
  have hfr2 : ¬(rf = m.fromSq) := fun h => hfr h.symm
  have hfd2 : ¬(rt = m.fromSq) := fun h => hfd h.symm
  have htr2 : ¬(rf = m.toSq) := fun h => htr h.symm
  have htd2 : ¬(rt = m.toSq) := fun h => htd h.symm
  have hrd2 : ¬(rt = rf) := fun h => hrd h.symm
  subst hrf
  subst hrt
  have hcolor : ((pos.makeMove T m).1.unmakeMove T m (pos.makeMove T m).2).colorBB =
      pos.colorBB := by
    simp only [Position.makeMove, Position.unmakeMove, Position.movePieceBB,
      Position.removePieceBB, Position.putPieceBB, Position.updateOccupied,
      Position.setHash, hcast, hne, hne2, hfr, hfr2, hfd, hfd2, htr, htr2, htd, htd2,
      hrd, hrd2, Bool.false_eq_true, Bool.true_eq_false, if_false, if_true, ite_true,
      ite_false, ne_eq, not_true, not_false_iff,
      apply_ite Position.board, apply_ite Position.pieceBB, apply_ite Position.colorBB,
      apply_ite Position.occupied, apply_ite Position.kingSquare,
      apply_ite Position.psqt, apply_ite Position.sideToMove,
      apply_ite Position.castlingRights, apply_ite Position.enPassantSquare,
      apply_ite Position.halfmoveClock, apply_ite Position.fullmoveNumber,
      apply_ite Position.hash, apply_ite Prod.fst, apply_ite Prod.snd, ite_self,
      Color.other_other]
    funext cc
    by_cases h1 : cc = pos.sideToMove
    · subst h1
      simp [Nat.or_comm, Nat.xor_assoc, Nat.xor_comm, xor_left_comm,
        xor_cancel_l, Nat.xor_cancel_right, Nat.xor_self, Nat.xor_zero, Nat.zero_xor]
    · simp [h1]
  refine posEqOfFields _ _ ?_ ?_ hcolor ?_ ?_ ?_ ?_ ?_ ?_ ?_ ?_ ?_
  · simp only [Position.makeMove, Position.unmakeMove, Position.movePieceBB,
      Position.removePieceBB, Position.putPieceBB, Position.updateOccupied,
      Position.setHash, hcast, hne, hne2, hfr, hfr2, hfd, hfd2, htr, htr2, htd, htd2,
      hrd, hrd2, Bool.false_eq_true, Bool.true_eq_false, if_false, if_true, ite_true,
      ite_false, ne_eq, not_true, not_false_iff,
      apply_ite Position.board, apply_ite Position.pieceBB, apply_ite Position.colorBB,
      apply_ite Position.occupied, apply_ite Position.kingSquare,
      apply_ite Position.psqt, apply_ite Position.sideToMove,
      apply_ite Position.castlingRights, apply_ite Position.enPassantSquare,
      apply_ite Position.halfmoveClock, apply_ite Position.fullmoveNumber,
      apply_ite Position.hash, apply_ite Prod.fst, apply_ite Prod.snd, ite_self,
      Color.other_other]
    funext s
    by_cases h1 : s = m.toSq
    · subst h1
      simp [hne, hne2, htr, htr2, htd, htd2, hto]
    · by_cases h2 : s = m.fromSq
      · subst h2
        simp [hne, hne2, h1, hfr, hfr2, hfd, hfd2]
      · by_cases h3 : s = (if getFile m.toSq = FILE_G then makeSquare FILE_H (getRank m.fromSq)
            else makeSquare FILE_A (getRank m.fromSq))
        · subst h3
          simp [hfr2, htr2, hrd, hrd2]
        · by_cases h4 : s = (if getFile m.toSq = FILE_G then makeSquare FILE_F (getRank m.fromSq)
              else makeSquare FILE_D (getRank m.fromSq))
          · subst h4
            simp [hfd2, htd2, hrd, hrd2, hrtb]
          · simp [h1, h2, h3, h4]
  · simp only [Position.makeMove, Position.unmakeMove, Position.movePieceBB,
      Position.removePieceBB, Position.putPieceBB, Position.updateOccupied,
      Position.setHash, hcast, hne, hne2, hfr, hfr2, hfd, hfd2, htr, htr2, htd, htd2,
      hrd, hrd2, Bool.false_eq_true, Bool.true_eq_false, if_false, if_true, ite_true,
      ite_false, ne_eq, not_true, not_false_iff,
      apply_ite Position.board, apply_ite Position.pieceBB, apply_ite Position.colorBB,
      apply_ite Position.occupied, apply_ite Position.kingSquare,
      apply_ite Position.psqt, apply_ite Position.sideToMove,
      apply_ite Position.castlingRights, apply_ite Position.enPassantSquare,
      apply_ite Position.halfmoveClock, apply_ite Position.fullmoveNumber,
      apply_ite Position.hash, apply_ite Prod.fst, apply_ite Prod.snd, ite_self,
      Color.other_other]
    funext p
    by_cases h1 : p = PieceType.King
    · subst h1
      simp [Nat.or_comm, Nat.xor_assoc, Nat.xor_comm, xor_left_comm,
        xor_cancel_l, Nat.xor_cancel_right, Nat.xor_self, Nat.xor_zero, Nat.zero_xor]
    · by_cases h2 : p = PieceType.Rook
      · subst h2
        simp [h1, Nat.or_comm, Nat.xor_assoc, Nat.xor_comm, xor_left_comm,
        xor_cancel_l, Nat.xor_cancel_right, Nat.xor_self, Nat.xor_zero, Nat.zero_xor]
      · simp [h1, h2]
  · rw [unmake_occ, hcolor, hocc]
  · simp only [Position.makeMove, Position.unmakeMove, Position.movePieceBB,
      Position.removePieceBB, Position.putPieceBB, Position.updateOccupied,
      Position.setHash, hcast, hne, hne2, hfr, hfr2, hfd, hfd2, htr, htr2, htd, htd2,
      hrd, hrd2, Bool.false_eq_true, Bool.true_eq_false, if_false, if_true, ite_true,
      ite_false, ne_eq, not_true, not_false_iff,
      apply_ite Position.board, apply_ite Position.pieceBB, apply_ite Position.colorBB,
      apply_ite Position.occupied, apply_ite Position.kingSquare,
      apply_ite Position.psqt, apply_ite Position.sideToMove,
      apply_ite Position.castlingRights, apply_ite Position.enPassantSquare,
      apply_ite Position.halfmoveClock, apply_ite Position.fullmoveNumber,
      apply_ite Position.hash, apply_ite Prod.fst, apply_ite Prod.snd, ite_self,
      Color.other_other]
    funext c
    by_cases hc : c = pos.sideToMove
    · simp [hc, hks]
    · simp [hc]
  · simp only [Position.makeMove, Position.unmakeMove, Position.movePieceBB,
      Position.removePieceBB, Position.putPieceBB, Position.updateOccupied,
      Position.setHash, hcast, hne, hne2, hfr, hfr2, hfd, hfd2, htr, htr2, htd, htd2,
      hrd, hrd2, Bool.false_eq_true, Bool.true_eq_false, if_false, if_true, ite_true,
      ite_false, ne_eq, not_true, not_false_iff,
      apply_ite Position.board, apply_ite Position.pieceBB, apply_ite Position.colorBB,
      apply_ite Position.occupied, apply_ite Position.kingSquare,
      apply_ite Position.psqt, apply_ite Position.sideToMove,
      apply_ite Position.castlingRights, apply_ite Position.enPassantSquare,
      apply_ite Position.halfmoveClock, apply_ite Position.fullmoveNumber,
      apply_ite Position.hash, apply_ite Prod.fst, apply_ite Prod.snd, ite_self,
      Color.other_other]
    apply scoreEqOfFields <;> simp [Score.add_def, Score.sub_def] <;> ring
  · simp only [Position.makeMove, Position.unmakeMove, Position.movePieceBB,
      Position.removePieceBB, Position.putPieceBB, Position.updateOccupied,
      Position.setHash, hcast, hne, hne2, hfr, hfr2, hfd, hfd2, htr, htr2, htd, htd2,
      hrd, hrd2, Bool.false_eq_true, Bool.true_eq_false, if_false, if_true, ite_true,
      ite_false, ne_eq, not_true, not_false_iff,
      apply_ite Position.board, apply_ite Position.pieceBB, apply_ite Position.colorBB,
      apply_ite Position.occupied, apply_ite Position.kingSquare,
      apply_ite Position.psqt, apply_ite Position.sideToMove,
      apply_ite Position.castlingRights, apply_ite Position.enPassantSquare,
      apply_ite Position.halfmoveClock, apply_ite Position.fullmoveNumber,
      apply_ite Position.hash, apply_ite Prod.fst, apply_ite Prod.snd, ite_self,
      Color.other_other]
  · simp only [Position.makeMove, Position.unmakeMove, Position.movePieceBB,
      Position.removePieceBB, Position.putPieceBB, Position.updateOccupied,
      Position.setHash, hcast, hne, hne2, hfr, hfr2, hfd, hfd2, htr, htr2, htd, htd2,
      hrd, hrd2, Bool.false_eq_true, Bool.true_eq_false, if_false, if_true, ite_true,
      ite_false, ne_eq, not_true, not_false_iff,
      apply_ite Position.board, apply_ite Position.pieceBB, apply_ite Position.colorBB,
      apply_ite Position.occupied, apply_ite Position.kingSquare,
      apply_ite Position.psqt, apply_ite Position.sideToMove,
      apply_ite Position.castlingRights, apply_ite Position.enPassantSquare,
      apply_ite Position.halfmoveClock, apply_ite Position.fullmoveNumber,
      apply_ite Position.hash, apply_ite Prod.fst, apply_ite Prod.snd, ite_self,
      Color.other_other]
  · simp only [Position.makeMove, Position.unmakeMove, Position.movePieceBB,
      Position.removePieceBB, Position.putPieceBB, Position.updateOccupied,
      Position.setHash, hcast, hne, hne2, hfr, hfr2, hfd, hfd2, htr, htr2, htd, htd2,
      hrd, hrd2, Bool.false_eq_true, Bool.true_eq_false, if_false, if_true, ite_true,
      ite_false, ne_eq, not_true, not_false_iff,
      apply_ite Position.board, apply_ite Position.pieceBB, apply_ite Position.colorBB,
      apply_ite Position.occupied, apply_ite Position.kingSquare,
      apply_ite Position.psqt, apply_ite Position.sideToMove,
      apply_ite Position.castlingRights, apply_ite Position.enPassantSquare,
      apply_ite Position.halfmoveClock, apply_ite Position.fullmoveNumber,
      apply_ite Position.hash, apply_ite Prod.fst, apply_ite Prod.snd, ite_self,
      Color.other_other]
  · simp only [Position.makeMove, Position.unmakeMove, Position.movePieceBB,
      Position.removePieceBB, Position.putPieceBB, Position.updateOccupied,
      Position.setHash, hcast, hne, hne2, hfr, hfr2, hfd, hfd2, htr, htr2, htd, htd2,
      hrd, hrd2, Bool.false_eq_true, Bool.true_eq_false, if_false, if_true, ite_true,
      ite_false, ne_eq, not_true, not_false_iff,
      apply_ite Position.board, apply_ite Position.pieceBB, apply_ite Position.colorBB,
      apply_ite Position.occupied, apply_ite Position.kingSquare,
      apply_ite Position.psqt, apply_ite Position.sideToMove,
      apply_ite Position.castlingRights, apply_ite Position.enPassantSquare,
      apply_ite Position.halfmoveClock, apply_ite Position.fullmoveNumber,
      apply_ite Position.hash, apply_ite Prod.fst, apply_ite Prod.snd, ite_self,
      Color.other_other]
  · simp only [Position.makeMove, Position.unmakeMove, Position.movePieceBB,
      Position.removePieceBB, Position.putPieceBB, Position.updateOccupied,
      Position.setHash, hcast, hne, hne2, hfr, hfr2, hfd, hfd2, htr, htr2, htd, htd2,
      hrd, hrd2, Bool.false_eq_true, Bool.true_eq_false, if_false, if_true, ite_true,
      ite_false, ne_eq, not_true, not_false_iff,
      apply_ite Position.board, apply_ite Position.pieceBB, apply_ite Position.colorBB,
      apply_ite Position.occupied, apply_ite Position.kingSquare,
      apply_ite Position.psqt, apply_ite Position.sideToMove,
      apply_ite Position.castlingRights, apply_ite Position.enPassantSquare,
      apply_ite Position.halfmoveClock, apply_ite Position.fullmoveNumber,
      apply_ite Position.hash, apply_ite Prod.fst, apply_ite Prod.snd, ite_self,
      Color.other_other]
    by_cases hb : pos.sideToMove = Color.Black <;> simp [hb]
  · simp only [Position.makeMove, Position.unmakeMove, Position.movePieceBB,
      Position.removePieceBB, Position.putPieceBB, Position.updateOccupied,
      Position.setHash, hcast, hne, hne2, hfr, hfr2, hfd, hfd2, htr, htr2, htd, htd2,
      hrd, hrd2, Bool.false_eq_true, Bool.true_eq_false, if_false, if_true, ite_true,
      ite_false, ne_eq, not_true, not_false_iff,
      apply_ite Position.board, apply_ite Position.pieceBB, apply_ite Position.colorBB,
      apply_ite Position.occupied, apply_ite Position.kingSquare,
      apply_ite Position.psqt, apply_ite Position.sideToMove,
      apply_ite Position.castlingRights, apply_ite Position.enPassantSquare,
      apply_ite Position.halfmoveClock, apply_ite Position.fullmoveNumber,
      apply_ite Position.hash, apply_ite Prod.fst, apply_ite Prod.snd, ite_self,
      Color.other_other]

theorem Color.other_ne (c : Color) (h : c = Color.White ∨ c = Color.Black) :
    c.other ≠ c := by
  rcases h with rfl | rfl <;> decide

/-- The consistency side conditions of the amended claims: a castling move
finds a friendly rook on its corner and an empty rook-destination square,
and an en-passant capture finds an empty target square and an enemy pawn
on the square behind it.  Both hold in any position reachable from the
start by legal moves. -/
def sideCond (pos : Position) (m : Move) : Prop :=
  (m.type = MoveType.Castling →
    pos.board (if getFile m.toSq = FILE_G then makeSquare FILE_H (getRank m.fromSq)
      else makeSquare FILE_A (getRank m.fromSq)) =
        Piece.mk PieceType.Rook pos.sideToMove ∧
    pos.board (if getFile m.toSq = FILE_G then makeSquare FILE_F (getRank m.fromSq)
      else makeSquare FILE_D (getRank m.fromSq)) = Piece.empty) ∧
  (m.type = MoveType.EnPassant →
    pos.board m.toSq = Piece.empty ∧
    pos.board (makeSquare (getFile m.toSq)
        ((getRank m.toSq + (if pos.sideToMove = Color.White then 255 else 1)) % 256)) =
      Piece.mk PieceType.Pawn pos.sideToMove.other)

theorem make_unmake_restore (T : Tables) (pos : Position) (m : Move)
    (hInv : Inv pos) (hm : m ∈ generatePseudoLegalMoves pos) (hsc : sideCond pos m) :
    ((pos.makeMove T m).1).unmakeMove T m (pos.makeMove T m).2 = pos := by
  simp only [generatePseudoLegalMoves, List.mem_append, List.mem_flatMap] at hm
  rcases hm with ⟨sq, hsq, hmm⟩ | hmc
  · simp only [Position.pieceAt] at hmm
    rw [mem_squaresOf] at hsq
    simp only [Position.piecesC] at hsq
    obtain ⟨hsq64, hsqbit⟩ := hsq
    obtain ⟨hcol, hne0⟩ := hInv.board_of_color hsq64 hsqbit
    by_cases hp : (pos.board sq).type = PieceType.Pawn
    · rw [if_pos hp] at hmm
      obtain ⟨hfrom, ht64, hfwd, hcap, hep⟩ := pawnMoves_facts pos sq m hmm
      subst hfrom
      cases hty : m.type
      ·
        obtain ⟨hocc0, hfile, hrank⟩ := hfwd (Or.inl hty)
        refine restore_quiet T pos m hty ?_ ?_ ?_ hInv.occ_union
        · intro h
          exact hrank (by rw [h])
        · exact hInv.empty_of_not_occ ht64 hocc0
        · intro hk
          rw [hp] at hk
          cases hk
      ·
        have hbit := hcap (Or.inl hty)
        rw [hcol] at hbit
        obtain ⟨hvc, hvt⟩ := hInv.board_of_color ht64 hbit
        refine restore_capture T pos m hty ?_ hvc hvt ?_ hInv.occ_union
        · intro h
          rw [h, hvc] at hcol
          exact Color.other_ne pos.sideToMove hInv.stm_ok (hcol.symm ▸ hcol)
        · intro hk
          rw [hp] at hk
          cases hk
      ·
        obtain ⟨hf8, hr8, hfne, _⟩ := hep hty
        obtain ⟨hept, hepc⟩ := hsc.2 hty
        refine restore_ep T pos m _ hty rfl ?_ hept hepc ?_ ?_ hInv.occ_union
        · intro h
          exact hfne (by rw [h])
        · intro h
          apply hfne
          rw [← h, getFile_makeSquare _ _ hf8]
        · intro h
          have h2 := congrArg getRank h
          rw [getRank_makeSquare _ _ (getFile_lt _)] at h2
          rcases hInv.stm_ok with hstm | hstm <;> rw [hstm] at h2 <;> simp at h2 <;>
            omega
      ·
        exact absurd hty (pawnMoves_not_castling pos m.fromSq m hmm)
      ·
        obtain ⟨hocc0, hfile, hrank⟩ := hfwd (Or.inr hty)
        refine restore_promo T pos m hty ?_ ?_ ?_ hInv.occ_union
        · intro h
          exact hrank (by rw [h])
        · exact hInv.empty_of_not_occ ht64 hocc0
        · rw [← hp, ← hcol]
      ·
        have hbit := hcap (Or.inr hty)
        rw [hcol] at hbit
        obtain ⟨hvc, hvt⟩ := hInv.board_of_color ht64 hbit
        refine restore_promocap T pos m hty ?_ hvc hvt ?_ hInv.occ_union
        · intro h
          rw [h, hvc] at hcol
          exact Color.other_ne pos.sideToMove hInv.stm_ok (hcol.symm ▸ hcol)
        · rw [← hp, ← hcol]
    · rw [if_neg hp] at hmm
      obtain ⟨hfrom, ht64, hpromo, hown, hd⟩ := pieceMoves_facts pos sq m hmm
      subst hfrom
      rw [hcol] at hown
      have hks : (pos.board m.fromSq).type = PieceType.King →
          pos.kingSquare pos.sideToMove = m.fromSq := by
        intro hk
        refine hInv.king_eq m.fromSq hsq64 pos.sideToMove ?_
        rw [← hk, ← hcol]
      have hne : m.fromSq ≠ m.toSq := by
        intro h
        rw [← h] at hown
        rw [hown] at hsqbit
        cases hsqbit
      rcases hd with ⟨hty, hbit⟩ | ⟨hty, hbit⟩
      · rw [hcol] at hbit
        obtain ⟨hvc, hvt⟩ := hInv.board_of_color ht64 hbit
        exact restore_capture T pos m hty hne hvc hvt hks hInv.occ_union
      · rw [hcol] at hbit
        have hto : pos.board m.toSq = Piece.empty := by
          rcases hInv.stm_ok with hstm | hstm <;> rw [hstm] at hown hbit
          · exact hInv.empty_of_not_colors ht64 hown hbit
          · exact hInv.empty_of_not_colors ht64 hbit hown
        exact restore_quiet T pos m hty hne hto hks hInv.occ_union
  · have hstm64 := hInv.king_at pos.sideToMove hInv.stm_ok
    rcases (mem_generateCastlingMoves pos m).1 hmc with ⟨hok, rfl⟩ | ⟨hok, rfl⟩ <;>
      obtain ⟨hrook, hrto⟩ := hsc.1 rfl
    · -- short castling: toSq is the G square of the home rank
      have hGfile : ∀ r, getFile (makeSquare FILE_G r) = FILE_G :=
        fun r => getFile_makeSquare _ _ (by decide)
      simp only [Move.makeCastling, hGfile, eq_self_iff_true, if_true] at hrook hrto
      have ht64g : makeSquare FILE_G (homeRankOf pos.sideToMove) < 64 := by
        rcases hInv.stm_ok with hstm | hstm <;> rw [hstm] <;> decide
      have htoe : pos.board (makeSquare FILE_G (homeRankOf pos.sideToMove)) =
          Piece.empty := by
        obtain ⟨_, _, _, _, hocc1, _, _⟩ := hok
        exact hInv.empty_of_not_occ ht64g hocc1
      refine restore_castling T pos _
        (makeSquare FILE_H (getRank (pos.kingSquare pos.sideToMove)))
        (makeSquare FILE_F (getRank (pos.kingSquare pos.sideToMove)))
        rfl (by simp [Move.makeCastling, hGfile]) (by simp [Move.makeCastling, hGfile])
        ?_ ?_ ?_ ?_ ?_ ?_ ?_ ?_ rfl hInv.occ_union
      · simp only [Move.makeCastling]
        intro h
        rw [h, htoe] at hstm64
        have h2 := congrArg Piece.type hstm64.2
        simp [Piece.empty] at h2
      · simp only [Move.makeCastling]
        intro h
        rw [h, hrook] at hstm64
        have h2 := congrArg Piece.type hstm64.2
        simp at h2
      · simp only [Move.makeCastling]
        intro h
        rw [h, hrto] at hstm64
        have h2 := congrArg Piece.type hstm64.2
        simp [Piece.empty] at h2
      · simp only [Move.makeCastling]
        intro h
        rw [← h, htoe] at hrook
        have h2 := congrArg Piece.type hrook
        simp [Piece.empty] at h2
      · simp only [Move.makeCastling]
        intro h
        have h2 := congrArg getFile h
        rw [getFile_makeSquare _ _ (by decide), getFile_makeSquare _ _ (by decide)] at h2
        cases h2
      · intro h
        have h2 := congrArg getFile h
        rw [getFile_makeSquare _ _ (by decide), getFile_makeSquare _ _ (by decide)] at h2
        cases h2
      · simp only [Move.makeCastling]
        exact htoe
      · exact hrto
    · -- long castling: toSq is the C square of the home rank
      have hCfile : ∀ r, getFile (makeSquare FILE_C r) = FILE_C :=
        fun r => getFile_makeSquare _ _ (by decide)
      have hCG : ¬(FILE_C = FILE_G) := by decide
      simp only [Move.makeCastling, hCfile, hCG, if_false, ite_false] at hrook hrto
      have ht64g : makeSquare FILE_C (homeRankOf pos.sideToMove) < 64 := by
        rcases hInv.stm_ok with hstm | hstm <;> rw [hstm] <;> decide
      have htoe : pos.board (makeSquare FILE_C (homeRankOf pos.sideToMove)) =
          Piece.empty := by
        obtain ⟨_, _, _, _, hocc1, _, _, _⟩ := hok
        exact hInv.empty_of_not_occ ht64g hocc1
      refine restore_castling T pos _
        (makeSquare FILE_A (getRank (pos.kingSquare pos.sideToMove)))
        (makeSquare FILE_D (getRank (pos.kingSquare pos.sideToMove)))
        rfl (by simp [Move.makeCastling, hCfile, hCG])
        (by simp [Move.makeCastling, hCfile, hCG])
        ?_ ?_ ?_ ?_ ?_ ?_ ?_ ?_ rfl hInv.occ_union
      · simp only [Move.makeCastling]
        intro h
        rw [h, htoe] at hstm64
        have h2 := congrArg Piece.type hstm64.2
        simp [Piece.empty] at h2
      · simp only [Move.makeCastling]
        intro h
        rw [h, hrook] at hstm64
        have h2 := congrArg Piece.type hstm64.2
        simp at h2
      · simp only [Move.makeCastling]
        intro h
        rw [h, hrto] at hstm64
        have h2 := congrArg Piece.type hstm64.2
        simp [Piece.empty] at h2
      · simp only [Move.makeCastling]
        intro h
        rw [← h, htoe] at hrook
        have h2 := congrArg Piece.type hrook
        simp [Piece.empty] at h2
      · simp only [Move.makeCastling]
        intro h
        have h2 := congrArg getFile h
        rw [getFile_makeSquare _ _ (by decide), getFile_makeSquare _ _ (by decide)] at h2
        cases h2
      · intro h
        have h2 := congrArg getFile h
        rw [getFile_makeSquare _ _ (by decide), getFile_makeSquare _ _ (by decide)] at h2
        cases h2
      · simp only [Move.makeCastling]
        exact htoe
      · exact hrto


theorem testBit_squareBB (s i : Nat) : testBit (squareBB s) i = decide (s = i) := by
  simp [testBit_eq, squareBB_eq_pow, Nat.testBit_two_pow]

/-- The board-to-bitboard synchronisation part of the invariants, preserved
compositionally by the three primitive update routines. -/
structure SyncOK (pos : Position) : Prop where
  sync_type : ∀ sq, sq < 64 → ∀ pt, (testBit (pos.pieceBB pt) sq = true ↔
    ((pos.board sq).type = pt ∧ pt ≠ PieceType.None))
  sync_color : ∀ sq, sq < 64 → ∀ c, (testBit (pos.colorBB c) sq = true ↔
    ((pos.board sq).color = c ∧ (pos.board sq).type ≠ PieceType.None))
  board_empty : ∀ sq, sq < 64 → (pos.board sq).type = PieceType.None →
    pos.board sq = Piece.empty
  board_color : ∀ sq, sq < 64 → (pos.board sq).type ≠ PieceType.None →
    (pos.board sq).color = Color.White ∨ (pos.board sq).color = Color.Black
  pbb_lt : ∀ pt, pos.pieceBB pt < 2 ^ 64
  cbb_lt : ∀ c, pos.colorBB c < 2 ^ 64

theorem Inv.syncOK {pos : Position} (h : Inv pos) : SyncOK pos :=
  ⟨h.sync_type, h.sync_color, h.board_empty, h.board_color, h.pbb_lt, h.cbb_lt⟩

theorem xor_lt_64 (a b : Nat) (ha : a < 2 ^ 64) (hb : b < 2 ^ 64) :
    a ^^^ b < 2 ^ 64 := Nat.xor_lt_two_pow ha hb

theorem squareBB_lt (s : Nat) (h : s < 64) : squareBB s < 2 ^ 64 := by
  rw [squareBB_eq_pow]
  exact Nat.pow_lt_pow_right (by norm_num) h

theorem or_squareBB_lt (s t : Nat) (hs : s < 64) (ht : t < 64) :
    squareBB s ||| squareBB t < 2 ^ 64 :=
  Nat.or_lt_two_pow (squareBB_lt s hs) (squareBB_lt t ht)

theorem SyncOK.pbb_true {pos : Position} (h : SyncOK pos) {sq : Nat} (hsq : sq < 64)
    {pt : PieceType} {c : Color} (hb : pos.board sq = Piece.mk pt c)
    (hpt : pt ≠ PieceType.None) : testBit (pos.pieceBB pt) sq = true :=
  (h.sync_type sq hsq pt).2 ⟨by rw [hb], hpt⟩

theorem SyncOK.pbb_false_ne {pos : Position} (h : SyncOK pos) {sq : Nat} (hsq : sq < 64)
    {pt : PieceType} {c : Color} (hb : pos.board sq = Piece.mk pt c)
    {p : PieceType} (hp : ¬(p = pt)) : testBit (pos.pieceBB p) sq = false := by
  cases hx : testBit (pos.pieceBB p) sq
  · rfl
  · obtain ⟨h1, _⟩ := (h.sync_type sq hsq p).1 hx
    rw [hb] at h1
    exact absurd h1.symm hp

theorem SyncOK.cbb_true {pos : Position} (h : SyncOK pos) {sq : Nat} (hsq : sq < 64)
    {pt : PieceType} {c : Color} (hb : pos.board sq = Piece.mk pt c)
    (hpt : pt ≠ PieceType.None) : testBit (pos.colorBB c) sq = true :=
  (h.sync_color sq hsq c).2 ⟨by rw [hb], by rw [hb]; exact hpt⟩

theorem SyncOK.cbb_false_ne {pos : Position} (h : SyncOK pos) {sq : Nat} (hsq : sq < 64)
    {pt : PieceType} {c : Color} (hb : pos.board sq = Piece.mk pt c)
    {cc : Color} (hc : ¬(cc = c)) : testBit (pos.colorBB cc) sq = false := by
  cases hx : testBit (pos.colorBB cc) sq
  · rfl
  · obtain ⟨h1, _⟩ := (h.sync_color sq hsq cc).1 hx
    rw [hb] at h1
    exact absurd h1.symm hc

theorem SyncOK.pbb_empty {pos : Position} (h : SyncOK pos) {sq : Nat} (hsq : sq < 64)
    (hb : pos.board sq = Piece.empty) (p : PieceType) :
    testBit (pos.pieceBB p) sq = false := by
  cases hx : testBit (pos.pieceBB p) sq
  · rfl
  · obtain ⟨h1, h2⟩ := (h.sync_type sq hsq p).1 hx
    rw [hb] at h1
    exact absurd h1.symm h2

theorem SyncOK.cbb_empty {pos : Position} (h : SyncOK pos) {sq : Nat} (hsq : sq < 64)
    (hb : pos.board sq = Piece.empty) (c : Color) :
    testBit (pos.colorBB c) sq = false := by
  cases hx : testBit (pos.colorBB c) sq
  · rfl
  · obtain ⟨_, h2⟩ := (h.sync_color sq hsq c).1 hx
    rw [hb] at h2
    exact absurd rfl h2

theorem syncOK_remove (T : Tables) (pos : Position) (sq : Nat) (pt : PieceType)
    (c : Color) (h : SyncOK pos) (hsq : sq < 64)
    (hb : pos.board sq = Piece.mk pt c) (hpt : pt ≠ PieceType.None) :
    SyncOK (pos.removePieceBB T sq pt c) := by
  have hbitT := h.pbb_true hsq hb hpt
  have hbitC := h.cbb_true hsq hb hpt
  have hpt2 : ¬(PieceType.None = pt) := fun hh => hpt hh.symm
  refine ⟨?_, ?_, ?_, ?_, ?_, ?_⟩
  · intro s hs p
    simp only [Position.removePieceBB]
    by_cases hp : p = pt
    · subst hp
      rw [if_pos rfl, testBit_xor, testBit_squareBB]
      by_cases hss : s = sq
      · subst hss
        simp [hbitT, Piece.empty, hpt2]
      · have hss2 : ¬(sq = s) := fun hh => hss hh.symm
        simp [hss, hss2, h.sync_type s hs p]
    · rw [if_neg hp]
      by_cases hss : s = sq
      · subst hss
        rw [h.pbb_false_ne hs hb hp]
        simp only [if_pos rfl, Piece.empty]
        constructor
        · intro hh
          cases hh
        · rintro ⟨hh1, hh2⟩
          exact absurd hh1.symm hh2
      · simp [hss, h.sync_type s hs p]
  · intro s hs cc
    simp only [Position.removePieceBB]
    by_cases hc : cc = c
    · subst hc
      rw [if_pos rfl, testBit_xor, testBit_squareBB]
      by_cases hss : s = sq
      · subst hss
        simp [hbitC, Piece.empty]
      · have hss2 : ¬(sq = s) := fun hh => hss hh.symm
        simp [hss, hss2, h.sync_color s hs cc]
    · rw [if_neg hc]
      by_cases hss : s = sq
      · subst hss
        rw [h.cbb_false_ne hs hb hc]
        simp only [if_pos rfl, Piece.empty]
        constructor
        · intro hh
          cases hh
        · rintro ⟨hh1, hh2⟩
          exact absurd rfl hh2
      · simp [hss, h.sync_color s hs cc]
  · intro s hs
    simp only [Position.removePieceBB]
    by_cases hss : s = sq
    · simp [hss, Piece.empty]
    · simp only [if_neg hss]
      exact h.board_empty s hs
  · intro s hs
    simp only [Position.removePieceBB]
    by_cases hss : s = sq
    · simp [hss, Piece.empty]
    · simp only [if_neg hss]
      exact h.board_color s hs
  · intro p
    simp only [Position.removePieceBB]
    by_cases hp : p = pt
    · rw [if_pos hp]
      exact xor_lt_64 _ _ (h.pbb_lt p) (squareBB_lt _ hsq)
    · rw [if_neg hp]
      exact h.pbb_lt p
  · intro cc
    simp only [Position.removePieceBB]
    by_cases hc : cc = c
    · rw [if_pos hc]
      exact xor_lt_64 _ _ (h.cbb_lt cc) (squareBB_lt _ hsq)
    · rw [if_neg hc]
      exact h.cbb_lt cc

theorem syncOK_put (T : Tables) (pos : Position) (sq : Nat) (pt : PieceType)
    (c : Color) (h : SyncOK pos) (hsq : sq < 64)
    (hb : pos.board sq = Piece.empty) (hpt : pt ≠ PieceType.None)
    (hc : c = Color.White ∨ c = Color.Black) :
    SyncOK (pos.putPieceBB T sq pt c) := by
  have hpt2 : ¬(PieceType.None = pt) := fun hh => hpt hh.symm
  refine ⟨?_, ?_, ?_, ?_, ?_, ?_⟩
  · intro s hs p
    simp only [Position.putPieceBB]
    by_cases hp : p = pt
    · subst hp
      rw [if_pos rfl, testBit_xor, testBit_squareBB]
      by_cases hss : s = sq
      · subst hss
        simp [h.pbb_empty hs hb, hpt]
      · have hss2 : ¬(sq = s) := fun hh => hss hh.symm
        simp [hss, hss2, h.sync_type s hs p]
    · rw [if_neg hp]
      by_cases hss : s = sq
      · subst hss
        rw [h.pbb_empty hs hb p]
        have hp2 : ¬(pt = p) := fun hh => hp hh.symm
        simp [hp2]
      · simp [hss, h.sync_type s hs p]
  · intro s hs cc
    simp only [Position.putPieceBB]
    by_cases hcc : cc = c
    · subst hcc
      rw [if_pos rfl, testBit_xor, testBit_squareBB]
      by_cases hss : s = sq
      · subst hss
        simp [h.cbb_empty hs hb, hpt]
      · have hss2 : ¬(sq = s) := fun hh => hss hh.symm
        simp [hss, hss2, h.sync_color s hs cc]
    · rw [if_neg hcc]
      by_cases hss : s = sq
      · subst hss
        rw [h.cbb_empty hs hb cc]
        have hc2 : ¬(c = cc) := fun hh => hcc hh.symm
        simp [hc2, hpt]
      · simp [hss, h.sync_color s hs cc]
  · intro s hs
    simp only [Position.putPieceBB]
    by_cases hss : s = sq
    · simp [hss]
      intro hh
      exact absurd hh hpt
    · simp only [if_neg hss]
      exact h.board_empty s hs
  · intro s hs
    simp only [Position.putPieceBB]
    by_cases hss : s = sq
    · simp [hss]
      intro _
      exact hc
    · simp only [if_neg hss]
      exact h.board_color s hs
  · intro p
    simp only [Position.putPieceBB]
    by_cases hp : p = pt
    · rw [if_pos hp]
      exact xor_lt_64 _ _ (h.pbb_lt p) (squareBB_lt _ hsq)
    · rw [if_neg hp]
      exact h.pbb_lt p
  · intro cc
    simp only [Position.putPieceBB]
    by_cases hcc : cc = c
    · rw [if_pos hcc]
      exact xor_lt_64 _ _ (h.cbb_lt cc) (squareBB_lt _ hsq)
    · rw [if_neg hcc]
      exact h.cbb_lt cc

theorem syncOK_move (T : Tables) (pos : Position) (f t : Nat) (pt : PieceType)
    (c : Color) (h : SyncOK pos) (hf : f < 64) (ht : t < 64) (hne : f ≠ t)
    (hb : pos.board f = Piece.mk pt c) (hbt : pos.board t = Piece.empty)
    (hpt : pt ≠ PieceType.None) :
    SyncOK (pos.movePieceBB T f t pt c) := by
  have hpt2 : ¬(PieceType.None = pt) := fun hh => hpt hh.symm
  have hne2 : ¬(t = f) := fun hh => hne hh.symm
  refine ⟨?_, ?_, ?_, ?_, ?_, ?_⟩
  · intro s hs p
    simp only [Position.movePieceBB]
    by_cases hp : p = pt
    · subst hp
      rw [if_pos rfl, testBit_xor, testBit_or, testBit_squareBB, testBit_squareBB]
      by_cases hsf : s = f
      · subst hsf
        simp [h.pbb_true hs hb hpt, hne2, Piece.empty, hpt2]
      · by_cases hst : s = t
        · subst hst
          have hfs : ¬(f = s) := fun hh => hsf hh.symm
          simp [h.pbb_empty hs hbt, hfs, hsf, hb]
          exact hpt
        · have hfs : ¬(f = s) := fun hh => hsf hh.symm
          have hts : ¬(t = s) := fun hh => hst hh.symm
          simp [hsf, hst, hfs, hts, h.sync_type s hs p]
    · rw [if_neg hp]
      by_cases hsf : s = f
      · subst hsf
        rw [h.pbb_false_ne hs hb hp]
        simp only [eq_self_iff_true, if_true, ite_true, Piece.empty]
        constructor
        · intro hh
          cases hh
        · rintro ⟨hh1, hh2⟩
          exact absurd hh1.symm hh2
      · by_cases hst : s = t
        · subst hst
          rw [h.pbb_empty hs hbt p]
          have hp2 : ¬(pt = p) := fun hh => hp hh.symm
          simp [hsf, hb, hp2]
        · simp [hsf, hst, h.sync_type s hs p]
  · intro s hs cc
    simp only [Position.movePieceBB]
    by_cases hcc : cc = c
    · subst hcc
      rw [if_pos rfl, testBit_xor, testBit_or, testBit_squareBB, testBit_squareBB]
      by_cases hsf : s = f
      · subst hsf
        simp [h.cbb_true hs hb hpt, hne2, Piece.empty]
      · by_cases hst : s = t
        · subst hst
          have hfs : ¬(f = s) := fun hh => hsf hh.symm
          simp [h.cbb_empty hs hbt, hfs, hsf, hb]
          exact hpt
        · have hfs : ¬(f = s) := fun hh => hsf hh.symm
          have hts : ¬(t = s) := fun hh => hst hh.symm
          simp [hsf, hst, hfs, hts, h.sync_color s hs cc]
    · rw [if_neg hcc]
      by_cases hsf : s = f
      · subst hsf
        rw [h.cbb_false_ne hs hb hcc]
        simp [Piece.empty]
      · by_cases hst : s = t
        · subst hst
          rw [h.cbb_empty hs hbt cc]
          have hc2 : ¬(c = cc) := fun hh => hcc hh.symm
          simp [hsf, hb, hc2, hpt]
        · simp [hsf, hst, h.sync_color s hs cc]
  · intro s hs
    simp only [Position.movePieceBB]
    by_cases hsf : s = f
    · simp [hsf, Piece.empty]
    · by_cases hst : s = t
      · subst hst
        simp only [if_neg hne2, eq_self_iff_true, if_true, ite_true, hb]
        intro hh
        exact absurd hh hpt
      · simp only [if_neg hsf, if_neg hst]
        exact h.board_empty s hs
  · intro s hs
    simp only [Position.movePieceBB]
    by_cases hsf : s = f
    · simp [hsf, Piece.empty]
    · by_cases hst : s = t
      · subst hst
        simp only [if_neg hne2, eq_self_iff_true, if_true, ite_true, hb]
        intro _
        have hcol := h.board_color f hf (by rw [hb]; exact hpt)
        rw [hb] at hcol
        exact hcol
      · simp only [if_neg hsf, if_neg hst]
        exact h.board_color s hs
  · intro p
    simp only [Position.movePieceBB]
    by_cases hp : p = pt
    · rw [if_pos hp]
      exact xor_lt_64 _ _ (h.pbb_lt p) (or_squareBB_lt _ _ hf ht)
    · rw [if_neg hp]
      exact h.pbb_lt p
  · intro cc
    simp only [Position.movePieceBB]
    by_cases hcc : cc = c
    · rw [if_pos hcc]
      exact xor_lt_64 _ _ (h.cbb_lt cc) (or_squareBB_lt _ _ hf ht)
    · rw [if_neg hcc]
      exact h.cbb_lt cc

theorem make_occ (T : Tables) (pos : Position) (m : Move) :
    (pos.makeMove T m).1.occupied =
      (pos.makeMove T m).1.colorBB Color.White |||
        (pos.makeMove T m).1.colorBB Color.Black := by
  simp only [Position.makeMove, Position.updateOccupied, Position.setHash,
    Position.movePieceBB, Position.removePieceBB, Position.putPieceBB,
    apply_ite Position.occupied, apply_ite Position.colorBB, apply_ite Prod.fst,
    ite_self]

theorem make_stm (T : Tables) (pos : Position) (m : Move) :
    (pos.makeMove T m).1.sideToMove = pos.sideToMove.other := by
  simp only [Position.makeMove, Position.updateOccupied, Position.setHash,
    Position.movePieceBB, Position.removePieceBB, Position.putPieceBB,
    apply_ite Position.sideToMove, apply_ite Prod.fst, ite_self]

theorem SyncOK.congr {a b : Position} (h : SyncOK a) (hb : b.board = a.board)
    (hp : b.pieceBB = a.pieceBB) (hc : b.colorBB = a.colorBB) : SyncOK b := by
  refine ⟨?_, ?_, ?_, ?_, ?_, ?_⟩ <;> simp only [hb, hp, hc]
  · exact h.sync_type
  · exact h.sync_color
  · exact h.board_empty
  · exact h.board_color
  · exact h.pbb_lt
  · exact h.cbb_lt

theorem pawnMoves_promoOK (pos : Position) (fromSq : Nat) :
    ∀ m ∈ generatePawnMoves pos fromSq,
      (m.type = MoveType.Promotion ∨ m.type = MoveType.PromotionCapture) →
        m.promotion ≠ PieceType.King ∧ m.promotion ≠ PieceType.None := by
  simp only [generatePawnMoves, Position.pieceAt, Position.piecesC,
    List.flatMap_cons, List.flatMap_nil, List.append_nil]
  rw [List.forall_mem_append]
  constructor
  · split_ifs <;>
      simp [List.forall_mem_cons, Move.makePromotion, Move.mk2]
  · split_ifs <;>
      simp [List.forall_mem_append, List.forall_mem_cons, Move.makePromotionCapture,
        Move.makeEnPassant, Move.mk2]

theorem make_fields_quiet (T : Tables) (pos : Position) (m : Move)
    (hty : m.type = MoveType.Normal) :
    (pos.makeMove T m).1.board =
      (pos.movePieceBB T m.fromSq m.toSq (pos.board m.fromSq).type pos.sideToMove).board ∧
    (pos.makeMove T m).1.pieceBB =
      (pos.movePieceBB T m.fromSq m.toSq (pos.board m.fromSq).type pos.sideToMove).pieceBB ∧
    (pos.makeMove T m).1.colorBB =
      (pos.movePieceBB T m.fromSq m.toSq (pos.board m.fromSq).type pos.sideToMove).colorBB ∧
    (pos.makeMove T m).1.kingSquare =
      (if (pos.board m.fromSq).type = PieceType.King then
        (fun c => if c = pos.sideToMove then m.toSq else pos.kingSquare c)
       else pos.kingSquare) := by
  have hcast : m.isCastling = false := by simp [Move.isCastling, hty]
  have hepf : m.isEnPassant = false := by simp [Move.isEnPassant, hty]
  have hcap : m.isCapture = false := by simp [Move.isCapture, hty]
  have hprom : m.isPromotion = false := by simp [Move.isPromotion, hty]
  refine ⟨?_, ?_, ?_, ?_⟩ <;>
    simp only [Position.makeMove, Position.movePieceBB, Position.removePieceBB,
      Position.putPieceBB, Position.updateOccupied, Position.setHash, hcast, hepf,
      hcap, hprom, Bool.false_eq_true, if_false, ite_false,
      apply_ite Position.board, apply_ite Position.pieceBB, apply_ite Position.colorBB,
      apply_ite Position.kingSquare, apply_ite Prod.fst, ite_self]

theorem make_fields_capture (T : Tables) (pos : Position) (m : Move)
    (hty : m.type = MoveType.Capture) :
    (pos.makeMove T m).1.board =
      ((pos.removePieceBB T m.toSq (pos.board m.toSq).type pos.sideToMove.other).movePieceBB
        T m.fromSq m.toSq (pos.board m.fromSq).type pos.sideToMove).board ∧
    (pos.makeMove T m).1.pieceBB =
      ((pos.removePieceBB T m.toSq (pos.board m.toSq).type pos.sideToMove.other).movePieceBB
        T m.fromSq m.toSq (pos.board m.fromSq).type pos.sideToMove).pieceBB ∧
    (pos.makeMove T m).1.colorBB =
      ((pos.removePieceBB T m.toSq (pos.board m.toSq).type pos.sideToMove.other).movePieceBB
        T m.fromSq m.toSq (pos.board m.fromSq).type pos.sideToMove).colorBB ∧
    (pos.makeMove T m).1.kingSquare =
      (if (pos.board m.fromSq).type = PieceType.King then
        (fun c => if c = pos.sideToMove then m.toSq else pos.kingSquare c)
       else pos.kingSquare) := by
  have hcast : m.isCastling = false := by simp [Move.isCastling, hty]
  have hepf : m.isEnPassant = false := by simp [Move.isEnPassant, hty]
  have hcap : m.isCapture = true := by simp [Move.isCapture, hty]
  have hprom : m.isPromotion = false := by simp [Move.isPromotion, hty]
  refine ⟨?_, ?_, ?_, ?_⟩ <;>
    simp only [Position.makeMove, Position.movePieceBB, Position.removePieceBB,
      Position.putPieceBB, Position.updateOccupied, Position.setHash, hcast, hepf,
      hcap, hprom, Bool.false_eq_true, Bool.true_eq_false, if_false, ite_false,
      if_true, ite_true,
      apply_ite Position.board, apply_ite Position.pieceBB, apply_ite Position.colorBB,
      apply_ite Position.kingSquare, apply_ite Prod.fst, ite_self]

theorem make_fields_ep (T : Tables) (pos : Position) (m : Move)
    (hty : m.type = MoveType.EnPassant) :
    (pos.makeMove T m).1.board =
      ((pos.movePieceBB T m.fromSq m.toSq PieceType.Pawn pos.sideToMove).removePieceBB
        T (makeSquare (getFile m.toSq)
          ((getRank m.toSq + (if pos.sideToMove = Color.White then 255 else 1)) % 256))
        PieceType.Pawn pos.sideToMove.other).board ∧
    (pos.makeMove T m).1.pieceBB =
      ((pos.movePieceBB T m.fromSq m.toSq PieceType.Pawn pos.sideToMove).removePieceBB
        T (makeSquare (getFile m.toSq)
          ((getRank m.toSq + (if pos.sideToMove = Color.White then 255 else 1)) % 256))
        PieceType.Pawn pos.sideToMove.other).pieceBB ∧
    (pos.makeMove T m).1.colorBB =
      ((pos.movePieceBB T m.fromSq m.toSq PieceType.Pawn pos.sideToMove).removePieceBB
        T (makeSquare (getFile m.toSq)
          ((getRank m.toSq + (if pos.sideToMove = Color.White then 255 else 1)) % 256))
        PieceType.Pawn pos.sideToMove.other).colorBB ∧
    (pos.makeMove T m).1.kingSquare = pos.kingSquare := by
  have hcast : m.isCastling = false := by simp [Move.isCastling, hty]
  have hepc : m.isEnPassant = true := by simp [Move.isEnPassant, hty]
  refine ⟨?_, ?_, ?_, ?_⟩ <;>
    simp only [Position.makeMove, Position.movePieceBB, Position.removePieceBB,
      Position.putPieceBB, Position.updateOccupied, Position.setHash, hcast, hepc,
      Bool.false_eq_true, Bool.true_eq_false, if_false, ite_false, if_true, ite_true,
      apply_ite Position.board, apply_ite Position.pieceBB, apply_ite Position.colorBB,
      apply_ite Position.kingSquare, apply_ite Prod.fst, ite_self]

theorem make_fields_promo (T : Tables) (pos : Position) (m : Move)
    (hty : m.type = MoveType.Promotion) :
    (pos.makeMove T m).1.board =
      ((pos.removePieceBB T m.fromSq PieceType.Pawn pos.sideToMove).putPieceBB
        T m.toSq m.promotion pos.sideToMove).board ∧
    (pos.makeMove T m).1.pieceBB =
      ((pos.removePieceBB T m.fromSq PieceType.Pawn pos.sideToMove).putPieceBB
        T m.toSq m.promotion pos.sideToMove).pieceBB ∧
    (pos.makeMove T m).1.colorBB =
      ((pos.removePieceBB T m.fromSq PieceType.Pawn pos.sideToMove).putPieceBB
        T m.toSq m.promotion pos.sideToMove).colorBB ∧
    (pos.makeMove T m).1.kingSquare = pos.kingSquare := by
  have hcast : m.isCastling = false := by simp [Move.isCastling, hty]
  have hepf : m.isEnPassant = false := by simp [Move.isEnPassant, hty]
  have hcap : m.isCapture = false := by simp [Move.isCapture, hty]
  have hprom : m.isPromotion = true := by simp [Move.isPromotion, hty]
  refine ⟨?_, ?_, ?_, ?_⟩ <;>
    simp only [Position.makeMove, Position.movePieceBB, Position.removePieceBB,
      Position.putPieceBB, Position.updateOccupied, Position.setHash, hcast, hepf,
      hcap, hprom, Bool.false_eq_true, Bool.true_eq_false, if_false, ite_false,
      if_true, ite_true,
      apply_ite Position.board, apply_ite Position.pieceBB, apply_ite Position.colorBB,
      apply_ite Position.kingSquare, apply_ite Prod.fst, ite_self]

theorem make_fields_promocap (T : Tables) (pos : Position) (m : Move)
    (hty : m.type = MoveType.PromotionCapture) :
    (pos.makeMove T m).1.board =
      (((pos.removePieceBB T m.toSq (pos.board m.toSq).type
          pos.sideToMove.other).removePieceBB T m.fromSq PieceType.Pawn
          pos.sideToMove).putPieceBB T m.toSq m.promotion pos.sideToMove).board ∧
    (pos.makeMove T m).1.pieceBB =
      (((pos.removePieceBB T m.toSq (pos.board m.toSq).type
          pos.sideToMove.other).removePieceBB T m.fromSq PieceType.Pawn
          pos.sideToMove).putPieceBB T m.toSq m.promotion pos.sideToMove).pieceBB ∧
    (pos.makeMove T m).1.colorBB =
      (((pos.removePieceBB T m.toSq (pos.board m.toSq).type
          pos.sideToMove.other).removePieceBB T m.fromSq PieceType.Pawn
          pos.sideToMove).putPieceBB T m.toSq m.promotion pos.sideToMove).colorBB ∧
    (pos.makeMove T m).1.kingSquare = pos.kingSquare := by
  have hcast : m.isCastling = false := by simp [Move.isCastling, hty]
  have hepf : m.isEnPassant = false := by simp [Move.isEnPassant, hty]
  have hcap : m.isCapture = true := by simp [Move.isCapture, hty]
  have hprom : m.isPromotion = true := by simp [Move.isPromotion, hty]
  refine ⟨?_, ?_, ?_, ?_⟩ <;>
    simp only [Position.makeMove, Position.movePieceBB, Position.removePieceBB,
      Position.putPieceBB, Position.updateOccupied, Position.setHash, hcast, hepf,
      hcap, hprom, Bool.false_eq_true, Bool.true_eq_false, if_false, ite_false,
      if_true, ite_true,
      apply_ite Position.board, apply_ite Position.pieceBB, apply_ite Position.colorBB,
      apply_ite Position.kingSquare, apply_ite Prod.fst, ite_self]

theorem make_fields_castling (T : Tables) (pos : Position) (m : Move)
    (hty : m.type = MoveType.Castling) :
    (pos.makeMove T m).1.board =
      ((pos.movePieceBB T m.fromSq m.toSq PieceType.King pos.sideToMove).movePieceBB
        T (if getFile m.toSq = FILE_G then makeSquare FILE_H (getRank m.fromSq)
           else makeSquare FILE_A (getRank m.fromSq))
          (if getFile m.toSq = FILE_G then makeSquare FILE_F (getRank m.fromSq)
           else makeSquare FILE_D (getRank m.fromSq))
          PieceType.Rook pos.sideToMove).board ∧
    (pos.makeMove T m).1.pieceBB =
      ((pos.movePieceBB T m.fromSq m.toSq PieceType.King pos.sideToMove).movePieceBB
        T (if getFile m.toSq = FILE_G then makeSquare FILE_H (getRank m.fromSq)
           else makeSquare FILE_A (getRank m.fromSq))
          (if getFile m.toSq = FILE_G then makeSquare FILE_F (getRank m.fromSq)
           else makeSquare FILE_D (getRank m.fromSq))
          PieceType.Rook pos.sideToMove).pieceBB ∧
    (pos.makeMove T m).1.colorBB =
      ((pos.movePieceBB T m.fromSq m.toSq PieceType.King pos.sideToMove).movePieceBB
        T (if getFile m.toSq = FILE_G then makeSquare FILE_H (getRank m.fromSq)
           else makeSquare FILE_A (getRank m.fromSq))
          (if getFile m.toSq = FILE_G then makeSquare FILE_F (getRank m.fromSq)
           else makeSquare FILE_D (getRank m.fromSq))
          PieceType.Rook pos.sideToMove).colorBB ∧
    (pos.makeMove T m).1.kingSquare =
      (fun c => if c = pos.sideToMove then m.toSq else pos.kingSquare c) := by
  have hcast : m.isCastling = true := by simp [Move.isCastling, hty]
  refine ⟨?_, ?_, ?_, ?_⟩ <;>
    simp only [Position.makeMove, Position.movePieceBB, Position.removePieceBB,
      Position.putPieceBB, Position.updateOccupied, Position.setHash, hcast,
      Bool.false_eq_true, Bool.true_eq_false, if_false, ite_false, if_true, ite_true,
      apply_ite Position.board, apply_ite Position.pieceBB, apply_ite Position.colorBB,
      apply_ite Position.kingSquare, apply_ite Prod.fst, ite_self]

theorem kingOK_keep (pos q : Position) (hInv : Inv pos)
    (hks : q.kingSquare = pos.kingSquare)
    (hb : ∀ sq, sq < 64 → ∀ c, (q.board sq = Piece.mk PieceType.King c ↔
      pos.board sq = Piece.mk PieceType.King c)) :
    (∀ sq, sq < 64 → ∀ c, q.board sq = Piece.mk PieceType.King c →
      q.kingSquare c = sq) ∧
    (∀ c, c = Color.White ∨ c = Color.Black →
      q.kingSquare c < 64 ∧ q.board (q.kingSquare c) = Piece.mk PieceType.King c) := by
  constructor
  · intro sq hsq c hbd
    rw [hks]
    exact hInv.king_eq sq hsq c ((hb sq hsq c).1 hbd)
  · intro c hc
    obtain ⟨h1, h2⟩ := hInv.king_at c hc
    rw [hks]
    exact ⟨h1, (hb (pos.kingSquare c) h1 c).2 h2⟩

theorem kingOK_move (pos q : Position) (hInv : Inv pos) (f t : Nat)
    (hf : f < 64) (ht : t < 64)
    (hfk : pos.board f = Piece.mk PieceType.King pos.sideToMove)
    (hbtk : ∀ c, pos.board t ≠ Piece.mk PieceType.King c)
    (hks : q.kingSquare = fun c => if c = pos.sideToMove then t else pos.kingSquare c)
    (hb : ∀ sq, sq < 64 → ∀ c, (q.board sq = Piece.mk PieceType.King c ↔
      ((sq = t ∧ c = pos.sideToMove) ∨
        (sq ≠ f ∧ sq ≠ t ∧ pos.board sq = Piece.mk PieceType.King c)))) :
    (∀ sq, sq < 64 → ∀ c, q.board sq = Piece.mk PieceType.King c →
      q.kingSquare c = sq) ∧
    (∀ c, c = Color.White ∨ c = Color.Black →
      q.kingSquare c < 64 ∧ q.board (q.kingSquare c) = Piece.mk PieceType.King c) := by
  constructor
  · intro sq hsq c hbd
    rw [hks]
    rcases (hb sq hsq c).1 hbd with ⟨rfl, rfl⟩ | ⟨hnef, hnet, hold⟩
    · simp
    · have hkc := hInv.king_eq sq hsq c hold
      by_cases hcs : c = pos.sideToMove
      · subst hcs
        have hkf := hInv.king_eq f hf _ hfk
        exact absurd (hkf.symm.trans hkc) (fun hh => hnef hh.symm)
      · simp only [if_neg hcs]
        exact hkc
  · intro c hc
    rw [hks]
    by_cases hcs : c = pos.sideToMove
    · subst hcs
      simp only [if_pos rfl]
      exact ⟨ht, (hb t ht _).2 (Or.inl ⟨rfl, rfl⟩)⟩
    · simp only [if_neg hcs]
      obtain ⟨h1, h2⟩ := hInv.king_at c hc
      refine ⟨h1, (hb _ h1 c).2 (Or.inr ⟨?_, ?_, h2⟩)⟩
      · intro hh
        rw [hh, hfk] at h2
        exact hcs (congrArg Piece.color h2).symm
      · intro hh
        rw [hh] at h2
        exact hbtk c h2

theorem moveBoard_at (T : Tables) (pos : Position) (f t : Nat) (pt : PieceType)
    (c : Color) (s : Nat) : (pos.movePieceBB T f t pt c).board s =
    if s = f then Piece.empty else if s = t then pos.board f else pos.board s := rfl

theorem removeBoard_at (T : Tables) (pos : Position) (sq : Nat) (pt : PieceType)
    (c : Color) (s : Nat) : (pos.removePieceBB T sq pt c).board s =
    if s = sq then Piece.empty else pos.board s := rfl

theorem putBoard_at (T : Tables) (pos : Position) (sq : Nat) (pt : PieceType)
    (c : Color) (s : Nat) : (pos.putPieceBB T sq pt c).board s =
    if s = sq then Piece.mk pt c else pos.board s := rfl

theorem piece_ne_king {pt : PieceType} {c cc : Color} (hpt : pt ≠ PieceType.King) :
    Piece.mk pt c ≠ Piece.mk PieceType.King cc := by
  intro hh
  exact hpt (congrArg Piece.type hh)

theorem empty_ne_king {cc : Color} : Piece.empty ≠ Piece.mk PieceType.King cc := by
  intro hh
  have := congrArg Piece.type hh
  simp [Piece.empty] at this

theorem moveBoard_king_iff (T : Tables) (pos : Position) (f t : Nat)
    (pt : PieceType) (c : Color) (hpt : pt ≠ PieceType.King)
    (hbf : pos.board f = Piece.mk pt c) (hbt : ∀ cc, pos.board t ≠ Piece.mk PieceType.King cc) :
    ∀ sq cc, ((pos.movePieceBB T f t pt c).board sq = Piece.mk PieceType.King cc ↔
      pos.board sq = Piece.mk PieceType.King cc) := by
  intro sq cc
  rw [moveBoard_at]
  by_cases hsf : sq = f
  · subst hsf
    rw [if_pos rfl, hbf]
    exact ⟨fun hh => absurd hh empty_ne_king, fun hh => absurd hh (piece_ne_king hpt)⟩
  · rw [if_neg hsf]
    by_cases hst : sq = t
    · subst hst
      rw [if_pos rfl, hbf]
      exact ⟨fun hh => absurd hh (piece_ne_king hpt), fun hh => absurd hh (hbt cc)⟩
    · rw [if_neg hst]

theorem removeBoard_king_iff (T : Tables) (pos : Position) (sq0 : Nat)
    (pt : PieceType) (c : Color) (hpt : pt ≠ PieceType.King)
    (hb : pos.board sq0 = Piece.mk pt c) :
    ∀ sq cc, ((pos.removePieceBB T sq0 pt c).board sq = Piece.mk PieceType.King cc ↔
      pos.board sq = Piece.mk PieceType.King cc) := by
  intro sq cc
  rw [removeBoard_at]
  by_cases hss : sq = sq0
  · subst hss
    rw [if_pos rfl, hb]
    exact ⟨fun hh => absurd hh empty_ne_king, fun hh => absurd hh (piece_ne_king hpt)⟩
  · rw [if_neg hss]

theorem putBoard_king_iff (T : Tables) (pos : Position) (sq0 : Nat)
    (pt : PieceType) (c : Color) (hpt : pt ≠ PieceType.King)
    (hb : pos.board sq0 = Piece.empty) :
    ∀ sq cc, ((pos.putPieceBB T sq0 pt c).board sq = Piece.mk PieceType.King cc ↔
      pos.board sq = Piece.mk PieceType.King cc) := by
  intro sq cc
  rw [putBoard_at]
  by_cases hss : sq = sq0
  · subst hss
    rw [if_pos rfl, hb]
    exact ⟨fun hh => absurd hh (piece_ne_king hpt), fun hh => absurd hh empty_ne_king⟩
  · rw [if_neg hss]

theorem moveKingBoard_iff (T : Tables) (pos : Position) (f t : Nat) (c : Color)
    (hne : f ≠ t) (hbf : pos.board f = Piece.mk PieceType.King c)
    (hbt : ∀ cc, pos.board t ≠ Piece.mk PieceType.King cc) :
    ∀ sq cc, ((pos.movePieceBB T f t PieceType.King c).board sq =
        Piece.mk PieceType.King cc ↔
      ((sq = t ∧ cc = c) ∨ (sq ≠ f ∧ sq ≠ t ∧
        pos.board sq = Piece.mk PieceType.King cc))) := by
  intro sq cc
  rw [moveBoard_at]
  by_cases hsf : sq = f
  · subst hsf
    rw [if_pos rfl]
    constructor
    · intro hh
      exact absurd hh empty_ne_king
    · rintro (⟨rfl, _⟩ | ⟨hh, _, _⟩)
      · exact absurd rfl hne
      · exact absurd rfl hh
  · rw [if_neg hsf]
    by_cases hst : sq = t
    · subst hst
      rw [if_pos rfl, hbf]
      constructor
      · intro hh
        exact Or.inl ⟨rfl, (congrArg Piece.color hh).symm⟩
      · rintro (⟨_, rfl⟩ | ⟨_, hh, _⟩)
        · rfl
        · exact absurd rfl hh
    · rw [if_neg hst]
      constructor
      · intro hh
        exact Or.inr ⟨hsf, hst, hh⟩
      · rintro (⟨rfl, _⟩ | ⟨_, _, hh⟩)
        · exact absurd rfl hst
        · exact hh

theorem inv_assemble (q : Position) (hs : SyncOK q)
    (hocc : q.occupied = q.colorBB Color.White ||| q.colorBB Color.Black)
    (hstm : q.sideToMove = Color.White ∨ q.sideToMove = Color.Black)
    (hk : (∀ sq, sq < 64 → ∀ c, q.board sq = Piece.mk PieceType.King c →
        q.kingSquare c = sq) ∧
      (∀ c, c = Color.White ∨ c = Color.Black →
        q.kingSquare c < 64 ∧ q.board (q.kingSquare c) = Piece.mk PieceType.King c)) :
    Inv q :=
  ⟨hocc, hstm, hs.sync_type, hs.sync_color, hs.board_empty, hs.board_color,
    hk.1, hk.2, hs.pbb_lt, hs.cbb_lt⟩

theorem stm_other_ok (T : Tables) (pos : Position) (m : Move)
    (h : pos.sideToMove = Color.White ∨ pos.sideToMove = Color.Black) :
    (pos.makeMove T m).1.sideToMove = Color.White ∨
      (pos.makeMove T m).1.sideToMove = Color.Black := by
  rw [make_stm]
  rcases h with h | h <;> rw [h]
  · exact Or.inr rfl
  · exact Or.inl rfl

theorem preserve_quiet (T : Tables) (pos : Position) (m : Move) (hInv : Inv pos)
    (hty : m.type = MoveType.Normal) (hf : m.fromSq < 64) (ht : m.toSq < 64)
    (hne : m.fromSq ≠ m.toSq)
    (hcol : (pos.board m.fromSq).color = pos.sideToMove)
    (hne0 : (pos.board m.fromSq).type ≠ PieceType.None)
    (hbt : pos.board m.toSq = Piece.empty) :
    Inv (pos.makeMove T m).1 := by
  obtain ⟨hbd, hpb, hcb, hks⟩ := make_fields_quiet T pos m hty
  have hb : pos.board m.fromSq = Piece.mk (pos.board m.fromSq).type pos.sideToMove := by
    rw [← hcol]
  have hbtk : ∀ cc, pos.board m.toSq ≠ Piece.mk PieceType.King cc := by
    intro cc
    rw [hbt]
    exact empty_ne_king
  have hsync := (syncOK_move T pos m.fromSq m.toSq (pos.board m.fromSq).type
    pos.sideToMove hInv.syncOK hf ht hne hb hbt hne0).congr hbd hpb hcb
  refine inv_assemble _ hsync (make_occ T pos m) (stm_other_ok T pos m hInv.stm_ok) ?_
  by_cases hk : (pos.board m.fromSq).type = PieceType.King
  · rw [hk] at hb hbd
    refine kingOK_move pos _ hInv m.fromSq m.toSq hf ht hb hbtk ?_ ?_
    · rw [hks, if_pos hk]
    · intro s hs c
      rw [hbd]
      exact moveKingBoard_iff T pos m.fromSq m.toSq pos.sideToMove hne hb hbtk s c
  · refine kingOK_keep pos _ hInv ?_ ?_
    · rw [hks, if_neg hk]
    · intro s hs c
      rw [hbd]
      exact moveBoard_king_iff T pos m.fromSq m.toSq (pos.board m.fromSq).type
        pos.sideToMove hk hb hbtk s c

theorem preserve_capture (T : Tables) (pos : Position) (m : Move) (hInv : Inv pos)
    (hty : m.type = MoveType.Capture) (hf : m.fromSq < 64) (ht : m.toSq < 64)
    (hcol : (pos.board m.fromSq).color = pos.sideToMove)
    (hne0 : (pos.board m.fromSq).type ≠ PieceType.None)
    (hvc : (pos.board m.toSq).color = pos.sideToMove.other)
    (hvt : (pos.board m.toSq).type ≠ PieceType.None)
    (hnk : ∀ c, pos.board m.toSq ≠ Piece.mk PieceType.King c) :
    Inv (pos.makeMove T m).1 := by
  obtain ⟨hbd, hpb, hcb, hks⟩ := make_fields_capture T pos m hty
  have hne : m.fromSq ≠ m.toSq := by
    intro h
    rw [h] at hcol
    exact Color.other_ne pos.sideToMove hInv.stm_ok (hvc.symm.trans hcol)
  have hb : pos.board m.fromSq = Piece.mk (pos.board m.fromSq).type pos.sideToMove := by
    rw [← hcol]
  have hbT : pos.board m.toSq =
      Piece.mk (pos.board m.toSq).type pos.sideToMove.other := by
    rw [← hvc]
  have hvk : (pos.board m.toSq).type ≠ PieceType.King := by
    intro h
    exact hnk pos.sideToMove.other (by rw [hbT, h])
  have hs1 := syncOK_remove T pos m.toSq (pos.board m.toSq).type pos.sideToMove.other
    hInv.syncOK ht hbT hvt
  have hb1f : (pos.removePieceBB T m.toSq (pos.board m.toSq).type
      pos.sideToMove.other).board m.fromSq =
      Piece.mk (pos.board m.fromSq).type pos.sideToMove := by
    rw [removeBoard_at, if_neg hne]
    exact hb
  have hb1t : (pos.removePieceBB T m.toSq (pos.board m.toSq).type
      pos.sideToMove.other).board m.toSq = Piece.empty := by
    rw [removeBoard_at, if_pos rfl]
  have hbtk1 : ∀ cc, (pos.removePieceBB T m.toSq (pos.board m.toSq).type
      pos.sideToMove.other).board m.toSq ≠ Piece.mk PieceType.King cc := by
    intro cc
    rw [hb1t]
    exact empty_ne_king
  have hiffR := removeBoard_king_iff T pos m.toSq (pos.board m.toSq).type
    pos.sideToMove.other hvk hbT
  have hsync := (syncOK_move T (pos.removePieceBB T m.toSq (pos.board m.toSq).type
    pos.sideToMove.other) m.fromSq m.toSq (pos.board m.fromSq).type pos.sideToMove
    hs1 hf ht hne hb1f hb1t hne0).congr hbd hpb hcb
  refine inv_assemble _ hsync (make_occ T pos m) (stm_other_ok T pos m hInv.stm_ok) ?_
  by_cases hk : (pos.board m.fromSq).type = PieceType.King
  · rw [hk] at hb hb1f hbd
    refine kingOK_move pos _ hInv m.fromSq m.toSq hf ht hb hnk ?_ ?_
    · rw [hks, if_pos hk]
    · intro s hs c
      rw [hbd]
      refine (moveKingBoard_iff T _ m.fromSq m.toSq pos.sideToMove hne hb1f hbtk1
        s c).trans ?_
      exact or_congr Iff.rfl (and_congr Iff.rfl (and_congr Iff.rfl (hiffR s c)))
  · refine kingOK_keep pos _ hInv ?_ ?_
    · rw [hks, if_neg hk]
    · intro s hs c
      rw [hbd]
      exact (moveBoard_king_iff T _ m.fromSq m.toSq (pos.board m.fromSq).type
        pos.sideToMove hk hb1f hbtk1 s c).trans (hiffR s c)

theorem preserve_promo (T : Tables) (pos : Position) (m : Move) (hInv : Inv pos)
    (hty : m.type = MoveType.Promotion) (hf : m.fromSq < 64) (ht : m.toSq < 64)
    (hne : m.fromSq ≠ m.toSq)
    (hp : (pos.board m.fromSq).type = PieceType.Pawn)
    (hcol : (pos.board m.fromSq).color = pos.sideToMove)
    (hbt : pos.board m.toSq = Piece.empty)
    (hprom : m.promotion ≠ PieceType.King ∧ m.promotion ≠ PieceType.None) :
    Inv (pos.makeMove T m).1 := by
  obtain ⟨hbd, hpb, hcb, hks⟩ := make_fields_promo T pos m hty
  have hb : pos.board m.fromSq = Piece.mk PieceType.Pawn pos.sideToMove := by
    rw [← hp, ← hcol]
  have hs1 := syncOK_remove T pos m.fromSq PieceType.Pawn pos.sideToMove
    hInv.syncOK hf hb (by decide)
  have hb1t : (pos.removePieceBB T m.fromSq PieceType.Pawn pos.sideToMove).board
      m.toSq = Piece.empty := by
    rw [removeBoard_at, if_neg (fun h => hne h.symm)]
    exact hbt
  have hsync := (syncOK_put T (pos.removePieceBB T m.fromSq PieceType.Pawn
    pos.sideToMove) m.toSq m.promotion pos.sideToMove hs1 ht hb1t hprom.2
    hInv.stm_ok).congr hbd hpb hcb
  refine inv_assemble _ hsync (make_occ T pos m) (stm_other_ok T pos m hInv.stm_ok)
    (kingOK_keep pos _ hInv hks ?_)
  intro s hs c
  rw [hbd]
  exact (putBoard_king_iff T _ m.toSq m.promotion pos.sideToMove hprom.1 hb1t
    s c).trans (removeBoard_king_iff T pos m.fromSq PieceType.Pawn pos.sideToMove
    (by decide) hb s c)

theorem preserve_promocap (T : Tables) (pos : Position) (m : Move) (hInv : Inv pos)
    (hty : m.type = MoveType.PromotionCapture) (hf : m.fromSq < 64) (ht : m.toSq < 64)
    (hp : (pos.board m.fromSq).type = PieceType.Pawn)
    (hcol : (pos.board m.fromSq).color = pos.sideToMove)
    (hvc : (pos.board m.toSq).color = pos.sideToMove.other)
    (hvt : (pos.board m.toSq).type ≠ PieceType.None)
    (hnk : ∀ c, pos.board m.toSq ≠ Piece.mk PieceType.King c)
    (hprom : m.promotion ≠ PieceType.King ∧ m.promotion ≠ PieceType.None) :
    Inv (pos.makeMove T m).1 := by
  obtain ⟨hbd, hpb, hcb, hks⟩ := make_fields_promocap T pos m hty
  have hne : m.fromSq ≠ m.toSq := by
    intro h
    rw [h] at hcol
    exact Color.other_ne pos.sideToMove hInv.stm_ok (hvc.symm.trans hcol)
  have hb : pos.board m.fromSq = Piece.mk PieceType.Pawn pos.sideToMove := by
    rw [← hp, ← hcol]
  have hbT : pos.board m.toSq =
      Piece.mk (pos.board m.toSq).type pos.sideToMove.other := by
    rw [← hvc]
  have hvk : (pos.board m.toSq).type ≠ PieceType.King := by
    intro h
    exact hnk pos.sideToMove.other (by rw [hbT, h])
  have hs1 := syncOK_remove T pos m.toSq (pos.board m.toSq).type pos.sideToMove.other
    hInv.syncOK ht hbT hvt
  have hb1f : (pos.removePieceBB T m.toSq (pos.board m.toSq).type
      pos.sideToMove.other).board m.fromSq =
      Piece.mk PieceType.Pawn pos.sideToMove := by
    rw [removeBoard_at, if_neg hne]
    exact hb
  have hs2 := syncOK_remove T (pos.removePieceBB T m.toSq (pos.board m.toSq).type
    pos.sideToMove.other) m.fromSq PieceType.Pawn pos.sideToMove hs1 hf hb1f
    (by decide)
  have hb2t : ((pos.removePieceBB T m.toSq (pos.board m.toSq).type
      pos.sideToMove.other).removePieceBB T m.fromSq PieceType.Pawn
      pos.sideToMove).board m.toSq = Piece.empty := by
    rw [removeBoard_at, if_neg (fun h => hne h.symm), removeBoard_at, if_pos rfl]
  have hsync := (syncOK_put T ((pos.removePieceBB T m.toSq (pos.board m.toSq).type
    pos.sideToMove.other).removePieceBB T m.fromSq PieceType.Pawn pos.sideToMove)
    m.toSq m.promotion pos.sideToMove hs2 ht hb2t hprom.2 hInv.stm_ok).congr
    hbd hpb hcb
  refine inv_assemble _ hsync (make_occ T pos m) (stm_other_ok T pos m hInv.stm_ok)
    (kingOK_keep pos _ hInv hks ?_)
  intro s hs c
  rw [hbd]
  exact ((putBoard_king_iff T _ m.toSq m.promotion pos.sideToMove hprom.1 hb2t
    s c).trans (removeBoard_king_iff T _ m.fromSq PieceType.Pawn pos.sideToMove
    (by decide) hb1f s c)).trans (removeBoard_king_iff T pos m.toSq
    (pos.board m.toSq).type pos.sideToMove.other hvk hbT s c)

theorem preserve_ep (T : Tables) (pos : Position) (m : Move) (cs : Nat)
    (hInv : Inv pos)
    (hty : m.type = MoveType.EnPassant)
    (hcs : cs = makeSquare (getFile m.toSq)
      ((getRank m.toSq + (if pos.sideToMove = Color.White then 255 else 1)) % 256))
    (hf64 : m.fromSq < 64) (ht64 : m.toSq < 64) (hcs64 : cs < 64)
    (hne : m.fromSq ≠ m.toSq) (hcsf : cs ≠ m.fromSq) (hcst : cs ≠ m.toSq)
    (hp : (pos.board m.fromSq).type = PieceType.Pawn)
    (hcol : (pos.board m.fromSq).color = pos.sideToMove)
    (hto : pos.board m.toSq = Piece.empty)
    (hcsb : pos.board cs = Piece.mk PieceType.Pawn pos.sideToMove.other) :
    Inv (pos.makeMove T m).1 := by
  obtain ⟨hbd, hpb, hcb, hks⟩ := make_fields_ep T pos m hty
  rw [← hcs] at hbd hpb hcb
  have hb : pos.board m.fromSq = Piece.mk PieceType.Pawn pos.sideToMove := by
    rw [← hp, ← hcol]
  have hs1 := syncOK_move T pos m.fromSq m.toSq PieceType.Pawn pos.sideToMove
    hInv.syncOK hf64 ht64 hne hb hto (by decide)
  have hb1cs : (pos.movePieceBB T m.fromSq m.toSq PieceType.Pawn
      pos.sideToMove).board cs = Piece.mk PieceType.Pawn pos.sideToMove.other := by
    rw [moveBoard_at, if_neg hcsf, if_neg hcst]
    exact hcsb
  have hsync := (syncOK_remove T (pos.movePieceBB T m.fromSq m.toSq PieceType.Pawn
    pos.sideToMove) cs PieceType.Pawn pos.sideToMove.other hs1 hcs64 hb1cs
    (by decide)).congr hbd hpb hcb
  have hbtk : ∀ cc, pos.board m.toSq ≠ Piece.mk PieceType.King cc := by
    intro cc
    rw [hto]
    exact empty_ne_king
  refine inv_assemble _ hsync (make_occ T pos m) (stm_other_ok T pos m hInv.stm_ok)
    (kingOK_keep pos _ hInv hks ?_)
  intro s hs c
  rw [hbd]
  exact (removeBoard_king_iff T _ cs PieceType.Pawn pos.sideToMove.other (by decide)
    hb1cs s c).trans (moveBoard_king_iff T pos m.fromSq m.toSq PieceType.Pawn
    pos.sideToMove (by decide) hb hbtk s c)

theorem preserve_castling (T : Tables) (pos : Position) (m : Move) (rf rt : Nat)
    (hInv : Inv pos)
    (hty : m.type = MoveType.Castling)
    (hrf : rf = (if getFile m.toSq = FILE_G then makeSquare FILE_H (getRank m.fromSq)
      else makeSquare FILE_A (getRank m.fromSq)))
    (hrt : rt = (if getFile m.toSq = FILE_G then makeSquare FILE_F (getRank m.fromSq)
      else makeSquare FILE_D (getRank m.fromSq)))
    (hf64 : m.fromSq < 64) (ht64 : m.toSq < 64) (hrf64 : rf < 64) (hrt64 : rt < 64)
    (hne : m.fromSq ≠ m.toSq)
    (hfr : rf ≠ m.fromSq) (hft : rf ≠ m.toSq)
    (htf : rt ≠ m.fromSq) (htt : rt ≠ m.toSq) (hrd : rf ≠ rt)
    (hbf : pos.board m.fromSq = Piece.mk PieceType.King pos.sideToMove)
    (hto : pos.board m.toSq = Piece.empty)
    (hrook : pos.board rf = Piece.mk PieceType.Rook pos.sideToMove)
    (hrtb : pos.board rt = Piece.empty) :
    Inv (pos.makeMove T m).1 := by
  obtain ⟨hbd, hpb, hcb, hks⟩ := make_fields_castling T pos m hty
  rw [← hrf, ← hrt] at hbd hpb hcb
  have hbtk : ∀ cc, pos.board m.toSq ≠ Piece.mk PieceType.King cc := by
    intro cc
    rw [hto]
    exact empty_ne_king
  have hs1 := syncOK_move T pos m.fromSq m.toSq PieceType.King pos.sideToMove
    hInv.syncOK hf64 ht64 hne hbf hto (by decide)
  have hb1rf : (pos.movePieceBB T m.fromSq m.toSq PieceType.King
      pos.sideToMove).board rf = Piece.mk PieceType.Rook pos.sideToMove := by
    rw [moveBoard_at, if_neg hfr, if_neg hft]
    exact hrook
  have hb1rt : (pos.movePieceBB T m.fromSq m.toSq PieceType.King
      pos.sideToMove).board rt = Piece.empty := by
    rw [moveBoard_at, if_neg htf, if_neg htt]
    exact hrtb
  have hbtk1 : ∀ cc, (pos.movePieceBB T m.fromSq m.toSq PieceType.King
      pos.sideToMove).board rt ≠ Piece.mk PieceType.King cc := by
    intro cc
    rw [hb1rt]
    exact empty_ne_king
  have hsync := (syncOK_move T (pos.movePieceBB T m.fromSq m.toSq PieceType.King
    pos.sideToMove) rf rt PieceType.Rook pos.sideToMove hs1 hrf64 hrt64 hrd
    hb1rf hb1rt (by decide)).congr hbd hpb hcb
  refine inv_assemble _ hsync (make_occ T pos m) (stm_other_ok T pos m hInv.stm_ok) ?_
  refine kingOK_move pos _ hInv m.fromSq m.toSq hf64 ht64 hbf hbtk hks ?_
  intro s hs c
  rw [hbd]
  exact (moveBoard_king_iff T _ rf rt PieceType.Rook pos.sideToMove (by decide)
    hb1rf hbtk1 s c).trans (moveKingBoard_iff T pos m.fromSq m.toSq pos.sideToMove
    hne hbf hbtk s c)

theorem make_preserves_inv (T : Tables) (pos : Position) (m : Move)
    (hInv : Inv pos) (hm : m ∈ generatePseudoLegalMoves pos) (hsc : sideCond pos m)
    (hnk : (m.type = MoveType.Capture ∨ m.type = MoveType.PromotionCapture) →
      ∀ c, pos.board m.toSq ≠ Piece.mk PieceType.King c) :
    Inv (pos.makeMove T m).1 := by
  simp only [generatePseudoLegalMoves, List.mem_append, List.mem_flatMap] at hm
  rcases hm with ⟨sq, hsq, hmm⟩ | hmc
  · simp only [Position.pieceAt] at hmm
    rw [mem_squaresOf] at hsq
    simp only [Position.piecesC] at hsq
    obtain ⟨hsq64, hsqbit⟩ := hsq
    obtain ⟨hcol, hne0⟩ := hInv.board_of_color hsq64 hsqbit
    by_cases hp : (pos.board sq).type = PieceType.Pawn
    · rw [if_pos hp] at hmm
      obtain ⟨hfrom, ht64, hfwd, hcap, hep⟩ := pawnMoves_facts pos sq m hmm
      have hpromoOK := pawnMoves_promoOK pos sq m hmm
      subst hfrom
      cases hty : m.type
      · -- Normal pawn pushes
        obtain ⟨hocc0, hfile, hrank⟩ := hfwd (Or.inl hty)
        exact preserve_quiet T pos m hInv hty hsq64 ht64
          (fun h => hrank (by rw [h])) hcol hne0
          (hInv.empty_of_not_occ ht64 hocc0)
      · -- Pawn captures
        have hbit := hcap (Or.inl hty)
        rw [hcol] at hbit
        obtain ⟨hvc, hvt⟩ := hInv.board_of_color ht64 hbit
        exact preserve_capture T pos m hInv hty hsq64 ht64 hcol hne0 hvc hvt
          (hnk (Or.inl hty))
      · -- En passant
        obtain ⟨hf8, hr8, hfne, hrel⟩ := hep hty
        obtain ⟨hept, hepc⟩ := hsc.2 hty
        rw [hcol] at hrel
        have hrk : (getRank m.toSq +
              (if pos.sideToMove = Color.White then 255 else 1)) % 256 < 8 ∧
            (getRank m.toSq +
              (if pos.sideToMove = Color.White then 255 else 1)) % 256 ≠
              getRank m.toSq := by
          have hrf8 := getRank_lt8 m.fromSq hsq64
          rcases hInv.stm_ok with hstm | hstm <;> rw [hstm] at hrel ⊢
          · rw [show (if Color.White = Color.White then (1 : Int) else -1) = 1
              from by decide] at hrel
            rw [show (if Color.White = Color.White then 255 else 1) = 255
              from by decide]
            omega
          · rw [show (if Color.Black = Color.White then (1 : Int) else -1) = -1
              from by decide] at hrel
            rw [show (if Color.Black = Color.White then 255 else 1) = 1
              from by decide]
            omega
        have hcs64 : makeSquare (getFile m.toSq)
            ((getRank m.toSq +
              (if pos.sideToMove = Color.White then 255 else 1)) % 256) < 64 :=
          makeSquare_lt _ _ hf8 hrk.1
        have hcsf : makeSquare (getFile m.toSq)
            ((getRank m.toSq +
              (if pos.sideToMove = Color.White then 255 else 1)) % 256) ≠
            m.fromSq := by
          intro h
          have h2 := congrArg getFile h
          rw [getFile_makeSquare _ _ hf8] at h2
          exact hfne h2
        have hcst : makeSquare (getFile m.toSq)
            ((getRank m.toSq +
              (if pos.sideToMove = Color.White then 255 else 1)) % 256) ≠
            m.toSq := by
          intro h
          have h2 := congrArg getRank h
          rw [getRank_makeSquare _ _ hf8] at h2
          exact hrk.2 h2
        exact preserve_ep T pos m _ hInv hty rfl hsq64 ht64 hcs64
          (fun h => hfne (by rw [h])) hcsf hcst hp hcol hept hepc
      · -- Castling never comes from the pawn generator
        exact absurd hty (pawnMoves_not_castling pos m.fromSq m hmm)
      · -- Promotions
        obtain ⟨hocc0, hfile, hrank⟩ := hfwd (Or.inr hty)
        exact preserve_promo T pos m hInv hty hsq64 ht64
          (fun h => hrank (by rw [h])) hp hcol
          (hInv.empty_of_not_occ ht64 hocc0) (hpromoOK (Or.inl hty))
      · -- Promotion captures
        have hbit := hcap (Or.inr hty)
        rw [hcol] at hbit
        obtain ⟨hvc, hvt⟩ := hInv.board_of_color ht64 hbit
        exact preserve_promocap T pos m hInv hty hsq64 ht64 hp hcol hvc hvt
          (hnk (Or.inr hty)) (hpromoOK (Or.inr hty))
    · rw [if_neg hp] at hmm
      obtain ⟨hfrom, ht64, hpromo, hown, hd⟩ := pieceMoves_facts pos sq m hmm
      subst hfrom
      rw [hcol] at hown
      have hne : m.fromSq ≠ m.toSq := by
        intro h
        rw [← h] at hown
        rw [hown] at hsqbit
        cases hsqbit
      rcases hd with ⟨hty, hbit⟩ | ⟨hty, hbit⟩
      · rw [hcol] at hbit
        obtain ⟨hvc, hvt⟩ := hInv.board_of_color ht64 hbit
        exact preserve_capture T pos m hInv hty hsq64 ht64 hcol hne0 hvc hvt
          (hnk (Or.inl hty))
      · rw [hcol] at hbit
        have hto : pos.board m.toSq = Piece.empty := by
          rcases hInv.stm_ok with hstm | hstm <;> rw [hstm] at hown hbit
          · exact hInv.empty_of_not_colors ht64 hown hbit
          · exact hInv.empty_of_not_colors ht64 hbit hown
        exact preserve_quiet T pos m hInv hty hsq64 ht64 hne hcol hne0 hto
  · have hstm64 := hInv.king_at pos.sideToMove hInv.stm_ok
    have hrk8 := getRank_lt8 (pos.kingSquare pos.sideToMove) hstm64.1
    rcases (mem_generateCastlingMoves pos m).1 hmc with ⟨hok, rfl⟩ | ⟨hok, rfl⟩ <;>
      obtain ⟨hrook, hrto⟩ := hsc.1 rfl
    · -- short castling
      have hGfile : ∀ r, getFile (makeSquare FILE_G r) = FILE_G :=
        fun r => getFile_makeSquare _ _ (by decide)
      simp only [Move.makeCastling, hGfile, eq_self_iff_true, if_true] at hrook hrto
      have ht64g : makeSquare FILE_G (homeRankOf pos.sideToMove) < 64 := by
        rcases hInv.stm_ok with hstm | hstm <;> rw [hstm] <;> decide
      have htoe : pos.board (makeSquare FILE_G (homeRankOf pos.sideToMove)) =
          Piece.empty := by
        obtain ⟨_, _, _, _, hocc1, _, _⟩ := hok
        exact hInv.empty_of_not_occ ht64g hocc1
      have hne : pos.kingSquare pos.sideToMove ≠
          makeSquare FILE_G (homeRankOf pos.sideToMove) := by
        intro h
        have h2 := hstm64.2
        rw [h, htoe] at h2
        exact empty_ne_king h2
      have hfr : makeSquare FILE_H (getRank (pos.kingSquare pos.sideToMove)) ≠
          pos.kingSquare pos.sideToMove := by
        intro h
        have h2 := hstm64.2
        rw [← h, hrook] at h2
        exact piece_ne_king (by decide) h2
      have hft : makeSquare FILE_H (getRank (pos.kingSquare pos.sideToMove)) ≠
          makeSquare FILE_G (homeRankOf pos.sideToMove) := by
        intro h
        have h2 := congrArg getFile h
        rw [getFile_makeSquare _ _ (by decide),
          getFile_makeSquare _ _ (by decide)] at h2
        exact absurd h2 (by decide)
      have htf : makeSquare FILE_F (getRank (pos.kingSquare pos.sideToMove)) ≠
          pos.kingSquare pos.sideToMove := by
        intro h
        have h2 := hstm64.2
        rw [← h, hrto] at h2
        exact empty_ne_king h2
      have htt : makeSquare FILE_F (getRank (pos.kingSquare pos.sideToMove)) ≠
          makeSquare FILE_G (homeRankOf pos.sideToMove) := by
        intro h
        have h2 := congrArg getFile h
        rw [getFile_makeSquare _ _ (by decide),
          getFile_makeSquare _ _ (by decide)] at h2
        exact absurd h2 (by decide)
      have hrd : makeSquare FILE_H (getRank (pos.kingSquare pos.sideToMove)) ≠
          makeSquare FILE_F (getRank (pos.kingSquare pos.sideToMove)) := by
        intro h
        have h2 := congrArg getFile h
        rw [getFile_makeSquare _ _ (by decide),
          getFile_makeSquare _ _ (by decide)] at h2
        exact absurd h2 (by decide)
      exact preserve_castling T pos _
        (makeSquare FILE_H (getRank (pos.kingSquare pos.sideToMove)))
        (makeSquare FILE_F (getRank (pos.kingSquare pos.sideToMove))) hInv rfl
        (by simp [Move.makeCastling, hGfile]) (by simp [Move.makeCastling, hGfile])
        hstm64.1 ht64g (makeSquare_lt _ _ (by decide) hrk8)
        (makeSquare_lt _ _ (by decide) hrk8)
        hne hfr hft htf htt hrd hstm64.2 htoe hrook hrto
    · -- long castling
      have hCfile : ∀ r, getFile (makeSquare FILE_C r) = FILE_C :=
        fun r => getFile_makeSquare _ _ (by decide)
      have hCG : ¬(FILE_C = FILE_G) := by decide
      simp only [Move.makeCastling, hCfile, hCG, if_false, ite_false] at hrook hrto
      have ht64g : makeSquare FILE_C (homeRankOf pos.sideToMove) < 64 := by
        rcases hInv.stm_ok with hstm | hstm <;> rw [hstm] <;> decide
      have htoe : pos.board (makeSquare FILE_C (homeRankOf pos.sideToMove)) =
          Piece.empty := by
        obtain ⟨_, _, _, _, hocc1, _, _, _⟩ := hok
        exact hInv.empty_of_not_occ ht64g hocc1
      have hne : pos.kingSquare pos.sideToMove ≠
          makeSquare FILE_C (homeRankOf pos.sideToMove) := by
        intro h
        have h2 := hstm64.2
        rw [h, htoe] at h2
        exact empty_ne_king h2
      have hfr : makeSquare FILE_A (getRank (pos.kingSquare pos.sideToMove)) ≠
          pos.kingSquare pos.sideToMove := by
        intro h
        have h2 := hstm64.2
        rw [← h, hrook] at h2
        exact piece_ne_king (by decide) h2
      have hft : makeSquare FILE_A (getRank (pos.kingSquare pos.sideToMove)) ≠
          makeSquare FILE_C (homeRankOf pos.sideToMove) := by
        intro h
        have h2 := congrArg getFile h
        rw [getFile_makeSquare _ _ (by decide),
          getFile_makeSquare _ _ (by decide)] at h2
        exact absurd h2 (by decide)
      have htf : makeSquare FILE_D (getRank (pos.kingSquare pos.sideToMove)) ≠
          pos.kingSquare pos.sideToMove := by
        intro h
        have h2 := hstm64.2
        rw [← h, hrto] at h2
        exact empty_ne_king h2
      have htt : makeSquare FILE_D (getRank (pos.kingSquare pos.sideToMove)) ≠
          makeSquare FILE_C (homeRankOf pos.sideToMove) := by
        intro h
        have h2 := congrArg getFile h
        rw [getFile_makeSquare _ _ (by decide),
          getFile_makeSquare _ _ (by decide)] at h2
        exact absurd h2 (by decide)
      have hrd : makeSquare FILE_A (getRank (pos.kingSquare pos.sideToMove)) ≠
          makeSquare FILE_D (getRank (pos.kingSquare pos.sideToMove)) := by
        intro h
        have h2 := congrArg getFile h
        rw [getFile_makeSquare _ _ (by decide),
          getFile_makeSquare _ _ (by decide)] at h2
        exact absurd h2 (by decide)
      exact preserve_castling T pos _
        (makeSquare FILE_A (getRank (pos.kingSquare pos.sideToMove)))
        (makeSquare FILE_D (getRank (pos.kingSquare pos.sideToMove))) hInv rfl
        (by simp [Move.makeCastling, hCfile, hCG])
        (by simp [Move.makeCastling, hCfile, hCG])
        hstm64.1 ht64g (makeSquare_lt _ _ (by decide) hrk8)
        (makeSquare_lt _ _ (by decide) hrk8)
        hne hfr hft htf htt hrd hstm64.2 htoe hrook hrto

theorem legalFilterGo_eq (T : Tables) (pos : Position) :
    ∀ l : List Move,
      (∀ m ∈ l, ((pos.makeMove T m).1).unmakeMove T m (pos.makeMove T m).2 = pos) →
      legalFilterGo T pos l =
        l.filter (fun m => !(isInCheck (pos.makeMove T m).1 pos.sideToMove))
  | [], _ => rfl
  | a :: as, hres => by
    have hra := hres a (List.mem_cons_self a as)
    have hstep : moveLeavesKingInCheck T pos a =
        (isInCheck (pos.makeMove T a).1 pos.sideToMove, pos) := by
      simp only [moveLeavesKingInCheck, hra]
    have ih2 := legalFilterGo_eq T pos as
      (fun m hm => hres m (List.mem_cons_of_mem a hm))
    cases hch : isInCheck (pos.makeMove T a).1 pos.sideToMove <;>
      simp [legalFilterGo, hstep, hch, List.filter_cons, ih2]

theorem generateLegalMoves_eq (T : Tables) (pos : Position) (hInv : Inv pos)
    (hsc : ∀ m ∈ generatePseudoLegalMoves pos, sideCond pos m) :
    generateLegalMoves T pos =
      (generatePseudoLegalMoves pos).filter
        (fun m => !(isInCheck (pos.makeMove T m).1 pos.sideToMove)) := by
  unfold generateLegalMoves
  exact legalFilterGo_eq T pos _
    (fun m hm => make_unmake_restore T pos m hInv hm (hsc m hm))

theorem isLegal_iff_mem (T : Tables) (pos : Position) (m : Move) (hInv : Inv pos)
    (hsc : ∀ m1 ∈ generatePseudoLegalMoves pos, sideCond pos m1) :
    isLegal T pos m = true ↔ m ∈ generateLegalMoves T pos := by
  rw [generateLegalMoves_eq T pos hInv hsc, List.mem_filter]
  unfold isLegal
  by_cases hmem : m ∈ generatePseudoLegalMoves pos
  · have hc : (generatePseudoLegalMoves pos).contains m = true :=
      List.elem_iff.mpr hmem
    rw [if_pos hc]
    constructor
    · intro h
      refine ⟨hmem, ?_⟩
      simpa [moveLeavesKingInCheck] using h
    · intro h
      simpa [moveLeavesKingInCheck] using h.2
  · have hc : ¬((generatePseudoLegalMoves pos).contains m = true) :=
      fun h => hmem (List.elem_iff.mp h)
    rw [if_neg hc]
    constructor
    · intro h
      cases h
    · intro h
      exact absurd h.1 hmem

/-- Counterexample position for claim C2: white king on e1 with the white
kingside castling right set but no rook anywhere, black king on e8.  The
data-model invariants hold and castling e1-to-g1 is pseudo-legal. -/
def c2pos : Position :=
  mkPosition Tables.trivialT
    [(4, ⟨PieceType.King, Color.White⟩), (60, ⟨PieceType.King, Color.Black⟩)]
    Color.White WHITE_KINGSIDE SQUARE_NONE 0 1

theorem c2posInv : Inv c2pos := by
  refine ⟨by decide, Or.inl rfl, ?_, ?_, by decide, by decide, ?_, ?_, ?_, ?_⟩
  · intro sq hsq pt
    revert hsq
    cases pt <;> revert sq <;> decide
  · intro sq hsq c
    revert hsq
    cases c <;> revert sq <;> decide
  · intro sq hsq c
    revert hsq
    cases c <;> revert sq <;> decide
  · intro c hc
    rcases hc with rfl | rfl <;> decide
  · intro pt
    cases pt <;> decide
  · intro c
    cases c <;> decide

/-- Claim C2 counterexample: in a position satisfying all data-model
invariants, making the pseudo-legal castling move e1-to-g1 with no rook on
the corner yields a position violating the invariants: the rook movePieceBB
flips phantom bits, so the rook bitboard has bit f1 set while the mailbox
board shows f1 empty. -/
theorem claim_C2_counterexample :
    Inv c2pos ∧
    Move.makeCastling 4 6 ∈ generatePseudoLegalMoves c2pos ∧
    ¬ Inv ((c2pos.makeMove Tables.trivialT (Move.makeCastling 4 6)).1) := by
  refine ⟨c2posInv, by decide, fun h => ?_⟩
  have h2 := (h.sync_type 5 (by decide) PieceType.Rook).1 (by decide)
  exact absurd h2 (by decide)

/-- Claim C2 (amended): in every position satisfying the data-model
invariants, making any pseudo-legal move preserves all the invariants, and
the position after the matching unmakeMove satisfies them as well, provided
the special moves are consistent with the position (a castling move finds a
friendly rook on its corner and an empty rook-destination square, an
en-passant capture finds an empty target square and an enemy pawn behind
it) and the move does not capture a king.  All of these side conditions
hold in every position reachable from the standard start. -/
theorem claim_C2_amended (T : Tables) (pos : Position) (m : Move)
    (hInv : Inv pos) (hm : m ∈ generatePseudoLegalMoves pos) (hsc : sideCond pos m)
    (hnk : (m.type = MoveType.Capture ∨ m.type = MoveType.PromotionCapture) →
      ∀ c, pos.board m.toSq ≠ Piece.mk PieceType.King c) :
    Inv (pos.makeMove T m).1 ∧
      Inv (((pos.makeMove T m).1).unmakeMove T m (pos.makeMove T m).2) :=
  ⟨make_preserves_inv T pos m hInv hm hsc hnk, by
    rw [make_unmake_restore T pos m hInv hm hsc]
    exact hInv⟩

/-- Witness position for the amended claim C2: kings on e1 and e8 and a
white pawn on a2. -/
def c2wpos : Position :=
  mkPosition Tables.trivialT
    [(4, ⟨PieceType.King, Color.White⟩), (60, ⟨PieceType.King, Color.Black⟩),
     (8, ⟨PieceType.Pawn, Color.White⟩)]
    Color.White NO_CASTLING SQUARE_NONE 0 1

theorem c2wposInv : Inv c2wpos := by
  refine ⟨by decide, Or.inl rfl, ?_, ?_, by decide, by decide, ?_, ?_, ?_, ?_⟩
  · intro sq hsq pt
    revert hsq
    cases pt <;> revert sq <;> decide
  · intro sq hsq c
    revert hsq
    cases c <;> revert sq <;> decide
  · intro sq hsq c
    revert hsq
    cases c <;> revert sq <;> decide
  · intro c hc
    rcases hc with rfl | rfl <;> decide
  · intro pt
    cases pt <;> decide
  · intro c
    cases c <;> decide

theorem claim_C2_witness :
    Inv ((c2wpos.makeMove Tables.trivialT (Move.mk2 8 16 MoveType.Normal)).1) ∧
      Inv (((c2wpos.makeMove Tables.trivialT (Move.mk2 8 16 MoveType.Normal)).1).unmakeMove
        Tables.trivialT (Move.mk2 8 16 MoveType.Normal)
        (c2wpos.makeMove Tables.trivialT (Move.mk2 8 16 MoveType.Normal)).2) :=
  claim_C2_amended Tables.trivialT c2wpos (Move.mk2 8 16 MoveType.Normal) c2wposInv
    (by decide)
    (by refine ⟨?_, ?_⟩ <;> intro h <;> exact absurd h (by decide))
    (fun h => by rcases h with h | h <;> exact absurd h (by decide))

/-- Counterexample position for claim C9: white king on c5 (square 34),
white pawn on b5 (square 33), black king on h8 (square 63), black rook on
c8 (square 58), White to move, and the en-passant square set to c6 (square
42) although no double pawn push produced it.  The data-model invariants
all hold. -/
def c9pos : Position :=
  mkPosition Tables.trivialT
    [(34, ⟨PieceType.King, Color.White⟩), (33, ⟨PieceType.Pawn, Color.White⟩),
     (63, ⟨PieceType.King, Color.Black⟩), (58, ⟨PieceType.Rook, Color.Black⟩)]
    Color.White NO_CASTLING 42 0 1

theorem c9posInv : Inv c9pos := by
  refine ⟨by decide, Or.inl rfl, ?_, ?_, by decide, by decide, ?_, ?_, ?_, ?_⟩
  · intro sq hsq pt
    revert hsq
    cases pt <;> revert sq <;> decide
  · intro sq hsq c
    revert hsq
    cases c <;> revert sq <;> decide
  · intro sq hsq c
    revert hsq
    cases c <;> revert sq <;> decide
  · intro c hc
    rcases hc with rfl | rfl <;> decide
  · intro pt
    cases pt <;> decide
  · intro c
    cases c <;> decide

/-- Claim C9 counterexample: in a position satisfying all data-model
invariants the king move c5-to-b4 is missing from the legal move list —
filtering the pseudo-legal en-passant capture against the inconsistent
en-passant square corrupts the shared workspace position, and the
subsequent filter tests run on the corrupted board — yet Board::makeMove
still returns true and mutates the position, because its isLegal test uses
a fresh workspace.  The claim requires makeMove to return false and leave
the position unchanged for every move outside the legal list. -/
theorem claim_C9_counterexample :
    Inv c9pos ∧
    Move.mk2 34 25 MoveType.Normal ∉ generateLegalMoves Tables.trivialT c9pos ∧
    (boardMakeMove Tables.trivialT c9pos (Move.mk2 34 25 MoveType.Normal)).1 =
      true ∧
    (boardMakeMove Tables.trivialT c9pos (Move.mk2 34 25 MoveType.Normal)).2.board
        34 ≠ c9pos.board 34 :=
  ⟨c9posInv, by decide, by decide, by decide⟩

/-- Claim C9 (amended): in every position satisfying the data-model
invariants whose pseudo-legal moves are all consistent with the position
(castling finds its rook and an empty rook destination, en passant finds an
empty target and an enemy pawn behind it — true of every position reachable
from the standard start), Board::makeMove returns false and leaves the
position unchanged for every move outside the legal move list, and returns
true and applies the move for every move inside it. -/
theorem claim_C9_amended (T : Tables) (pos : Position) (m : Move)
    (hInv : Inv pos)
    (hsc : ∀ m1 ∈ generatePseudoLegalMoves pos, sideCond pos m1) :
    (m ∉ generateLegalMoves T pos → boardMakeMove T pos m = (false, pos)) ∧
    (m ∈ generateLegalMoves T pos →
      boardMakeMove T pos m = (true, (pos.makeMove T m).1)) := by
  have hiff := isLegal_iff_mem T pos m hInv hsc
  constructor
  · intro hnm
    have hfalse : isLegal T pos m = false := by
      cases h : isLegal T pos m
      · rfl
      · exact absurd (hiff.1 h) hnm
    simp [boardMakeMove, hfalse]
  · intro hm
    have htrue : isLegal T pos m = true := hiff.2 hm
    simp [boardMakeMove, htrue]

/-- Witness position for the amended claim C9: kings on e1 and e8 only. -/
def c9wpos : Position :=
  mkPosition Tables.trivialT
    [(4, ⟨PieceType.King, Color.White⟩), (60, ⟨PieceType.King, Color.Black⟩)]
    Color.White NO_CASTLING SQUARE_NONE 0 1

theorem c9wposInv : Inv c9wpos := by
  refine ⟨by decide, Or.inl rfl, ?_, ?_, by decide, by decide, ?_, ?_, ?_, ?_⟩
  · intro sq hsq pt
    revert hsq
    cases pt <;> revert sq <;> decide
  · intro sq hsq c
    revert hsq
    cases c <;> revert sq <;> decide
  · intro sq hsq c
    revert hsq
    cases c <;> revert sq <;> decide
  · intro c hc
    rcases hc with rfl | rfl <;> decide
  · intro pt
    cases pt <;> decide
  · intro c
    cases c <;> decide

theorem claim_C9_witness :
    boardMakeMove Tables.trivialT c9wpos (Move.mk2 4 3 MoveType.Normal) =
      (true, (c9wpos.makeMove Tables.trivialT (Move.mk2 4 3 MoveType.Normal)).1) := by
  have hall : ∀ m1 ∈ generatePseudoLegalMoves c9wpos,
      m1.type ≠ MoveType.Castling ∧ m1.type ≠ MoveType.EnPassant := by decide
  exact (claim_C9_amended Tables.trivialT c9wpos (Move.mk2 4 3 MoveType.Normal)
    c9wposInv
    (fun m1 hm1 => ⟨fun h => absurd h (hall m1 hm1).1,
      fun h => absurd h (hall m1 hm1).2⟩)).2 (by decide)
/-- Counterexample position for claim C1: white king on h1 (square 7) with
the white kingside castling right set, black king on a8.  The data-model
invariants all hold, and the castling move h1-to-g1 is pseudo-legal. -/
def c1pos : Position :=
  mkPosition Tables.trivialT
    [(7, ⟨PieceType.King, Color.White⟩), (56, ⟨PieceType.King, Color.Black⟩)]
    Color.White WHITE_KINGSIDE SQUARE_NONE 0 1

theorem c1posInv : Inv c1pos := by
  refine ⟨by decide, Or.inl rfl, ?_, ?_, by decide, by decide, ?_, ?_, ?_, ?_⟩
  · intro sq hsq pt
    revert hsq
    cases pt <;> revert sq <;> decide
  · intro sq hsq c
    revert hsq
    cases c <;> revert sq <;> decide
  · intro sq hsq c
    revert hsq
    cases c <;> revert sq <;> decide
  · intro c hc
    rcases hc with rfl | rfl <;> decide
  · intro pt
    cases pt <;> decide
  · intro c
    cases c <;> decide

/-- Claim C1 counterexample: in a position satisfying all data-model
invariants, making and unmaking the pseudo-legal castling move h1-to-g1
does not restore the board: the from-square h1 aliases the rook corner, so
after unmake the king has vanished from the mailbox array. -/
theorem claim_C1_counterexample :
    Inv c1pos ∧
    Move.makeCastling 7 6 ∈ generatePseudoLegalMoves c1pos ∧
    ((c1pos.makeMove Tables.trivialT (Move.makeCastling 7 6)).1.unmakeMove
        Tables.trivialT (Move.makeCastling 7 6)
        (c1pos.makeMove Tables.trivialT (Move.makeCastling 7 6)).2).board 7 ≠
      c1pos.board 7 :=
  ⟨c1posInv, by decide, by decide⟩

/-- Claim C1 (amended): in every position satisfying the data-model
invariants, making then unmaking any pseudo-legal move restores the
position exactly — board, all bitboards, occupied, king squares, side to
move, castling rights, en-passant square, clocks, hash and psqt — provided
the special moves are consistent with the position: a castling move finds
a friendly rook on its corner square and an empty rook-destination square,
and an en-passant capture finds an empty target square and an enemy pawn
behind it.  These side conditions hold in every position reachable from
the standard start. -/
theorem claim_C1_amended (T : Tables) (pos : Position) (m : Move)
    (hInv : Inv pos) (hm : m ∈ generatePseudoLegalMoves pos)
    (hsc : sideCond pos m) :
    ((pos.makeMove T m).1).unmakeMove T m (pos.makeMove T m).2 = pos :=
  make_unmake_restore T pos m hInv hm hsc

/-- Witness position for the amended claim C1: kings on e1 and e8. -/
def c1wpos : Position :=
  mkPosition Tables.trivialT
    [(4, ⟨PieceType.King, Color.White⟩), (60, ⟨PieceType.King, Color.Black⟩)]
    Color.White NO_CASTLING SQUARE_NONE 0 1

theorem c1wposInv : Inv c1wpos := by
  refine ⟨by decide, Or.inl rfl, ?_, ?_, by decide, by decide, ?_, ?_, ?_, ?_⟩
  · intro sq hsq pt
    revert hsq
    cases pt <;> revert sq <;> decide
  · intro sq hsq c
    revert hsq
    cases c <;> revert sq <;> decide
  · intro sq hsq c
    revert hsq
    cases c <;> revert sq <;> decide
  · intro c hc
    rcases hc with rfl | rfl <;> decide
  · intro pt
    cases pt <;> decide
  · intro c
    cases c <;> decide

theorem claim_C1_witness :
    ((c1wpos.makeMove Tables.trivialT (Move.mk2 4 3 MoveType.Normal)).1).unmakeMove
        Tables.trivialT (Move.mk2 4 3 MoveType.Normal)
        (c1wpos.makeMove Tables.trivialT (Move.mk2 4 3 MoveType.Normal)).2 = c1wpos :=
  claim_C1_amended Tables.trivialT c1wpos (Move.mk2 4 3 MoveType.Normal) c1wposInv
    (by decide) (by refine ⟨?_, ?_⟩ <;> intro h <;> exact absurd h (by decide))

end CChess
